import Mathlib

/-!
# talk-llama: the turn loop of `examples/talk-llama/talk-llama.cpp`

A shallow embedding of the text-inference part of `main` (lines 735-991): the
start-up bookkeeping, the context-overflow step, the reuse of a session-cache
prefix, the commit to the session cache, the decode call, sampling and the
antiprompt check; of the start-up of `main` with the load of the session file,
the main loop and the transcript cleanup; and of the command line of
talk-llama.cpp and of `examples/cli/cli.cpp` (`whisper_params_parse` and the
option lines of `whisper_print_usage`).

Conventions.
* `std::vector<llama_token>` is a `List Token`, `std::string` a `List Char`
  (one `Char` per C++ `char`).
* The `int` counters `n_past`, `n_session_consumed`, `n_keep`, `n_ctx`, `n_prev`
  start non-negative and are only incremented or reset to a size, so they are
  natural numbers; vectors are assumed shorter than `2^31`, so that the casts
  `(int) v.size()` are exact.  `size_t` arithmetic that can wrap is written
  with an explicit `% 2^64`.
* The engines are external: the outcome of every `llama_decode`, the token drawn
  by `llama_sampler_sample`, the answer of `sdl_poll_events` and the two
  tokenisations of a transcript are inputs of the model; `llama_token_to_piece`
  and `llama_vocab_eos` are fields of the environment.
* A read or write outside a vector is undefined behaviour: the block that does
  it yields `none` / `Result.undefined`.
* The words that `stdin` holds when the loop of lines 844-855 is reached are an
  input of the model: the loop is left at the end of `stdin`, waits when no more
  input comes, and writes outside `tpBuffer` on a word of five or more
  characters.
* Where a statement needs the two tokenisations of a transcript to belong to
  its text, it assumes `Spelled`: the pieces of the tokens spell the text that
  was handed to `llama_tokenize`.
* `log` records, in order, the calls to the external collaborators
  (`llama_decode`, `llama_state_save_file`, `llama_sampler_sample`,
  `speak_with_file`); the program itself never reads it.
-/

namespace TalkLlama

/-- A `llama_token` (`int32_t`). -/
abbrev Token := Int

/-- A `std::string`. -/
abbrev CppString := List Char

/-- One slot of a `llama_batch`, as filled by the "prepare batch" loop. -/
structure BatchEntry where
  token : Token
  pos : Nat
  n_seq_id : Nat
  seq_id : Nat
  logits : Bool
deriving DecidableEq, Repr

/-- Calls to the external collaborators. -/
inductive Event where
  | decode (batch : List BatchEntry)
  | save (path : CppString) (tokens : List Token)
  | sample (id : Token)
  | speak (text : CppString)
deriving DecidableEq, Repr

/-- What is fixed once the main loop starts. -/
structure Env where
  /-- Line 762: `const int n_keep = embd_inp.size()`. -/
  n_keep : Nat
  /-- Line 763: `const int n_ctx = llama_n_ctx(ctx_llama)`; also the capacity of `batch`. -/
  n_ctx : Nat
  /-- Line 769: `int n_prev = 64; // TODO arg`. -/
  n_prev : Nat
  /-- The person name `params.person`. -/
  person : CppString
  /-- The text of a token, `llama_token_to_piece(ctx_llama, ·)`. -/
  token_to_piece : Token → CppString
  /-- The end-of-sequence token `llama_vocab_eos(vocab_llama)`. -/
  eos : Token

/-- The variables of `main` that the turn loop reads and writes. -/
structure TurnState where
  embd_inp : List Token
  embd : List Token
  session_tokens : List Token
  n_past : Nat
  n_session_consumed : Nat
  path_session : CppString
  need_to_save_session : Bool
  done : Bool
  text_to_speak : CppString
  is_running : Bool
  log : List Event
deriving DecidableEq, Repr

/-- Outcome of a block of the generation loop. -/
inductive Result where
  /-- Control goes on to the next statement or iteration. -/
  | ok (s : TurnState)
  /-- Leaving `while (true)` by `break`. -/
  | leave (s : TurnState)
  /-- Leaving `main` by `return 1`. -/
  | fatal (s : TurnState)
  /-- An access outside a vector. -/
  | undefined
deriving DecidableEq, Repr

/-! ## Start-up (lines 735-772) -/

/-- The loop of lines 738-743: count the leading session tokens that agree with the prompt. -/
def n_matching_loop (embd_inp : List Token) : List Token → Nat → Nat
  | [], n => n
  | id :: rest, n =>
    match embd_inp[n]? with
    | none => n
    | some t => if id ≠ t then n else n_matching_loop embd_inp rest (n + 1)

/-- The value of `n_matching_session_tokens` after lines 736-753. -/
def n_matching_session_tokens (session_tokens embd_inp : List Token) : Nat :=
  if session_tokens.length ≠ 0 then n_matching_loop embd_inp session_tokens 0 else 0

/-- The state in which `while (is_running)` is entered (lines 758-772, with `is_running = true`
from line 618). -/
def init_state (path_session : CppString) (session_tokens embd_inp : List Token) : TurnState where
  embd_inp := embd_inp
  embd := []
  session_tokens := session_tokens
  n_past := embd_inp.length
  n_session_consumed :=
    if path_session ≠ [] ∧ session_tokens.length > 0 then session_tokens.length else 0
  path_session := path_session
  need_to_save_session :=
    decide (path_session ≠ [] ∧
      n_matching_session_tokens session_tokens embd_inp < embd_inp.length * 3 / 4)
  done := false
  text_to_speak := []
  is_running := true
  log := []

/-! ## Start of a Turn (lines 869-878) -/

/-- Lines 869-878: `tokens` is `llama_tokenize(result)` for the cleaned transcript (line 837),
`embd` the tokenisation of the decorated transcript (line 869). -/
def turn_start (tokens embd : List Token) (s : TurnState) : TurnState :=
  { s with
    embd := embd
    session_tokens := if s.path_session ≠ [] then s.session_tokens ++ tokens else s.session_tokens
    done := false
    text_to_speak := [] }

/-! ## Context overflow (lines 882-889) -/

/-- The `if (n_past + (int) embd.size() > n_ctx)` statement.  `embd_inp.begin() + embd_inp.size()
- n_prev` lies before `begin()` when the history has fewer than `n_prev` tokens. -/
def prepare_for_overflow (env : Env) (s : TurnState) : Option TurnState :=
  if s.n_past + s.embd.length > env.n_ctx then
    if env.n_prev ≤ s.embd_inp.length then
      some { s with
        n_past := env.n_keep
        embd := s.embd_inp.drop (s.embd_inp.length - env.n_prev) ++ s.embd
        path_session := [] }
    else none
  else some s

/-! ## Session-prefix reuse (lines 893-912) -/

/-- Model of `std::vector::resize(n)` on tokens. -/
def resize (v : List Token) (n : Nat) : List Token :=
  v.take n ++ List.replicate (n - v.length) 0

/-- The `for` loop of lines 895-908.  The first argument is `embd[i..]`; the result is
`(i, session_tokens, n_past, n_session_consumed)` when the loop is left. -/
def reconcile_loop :
    List Token → Nat → List Token → Nat → Nat → Option (Nat × List Token × Nat × Nat)
  | [], i, session_tokens, n_past, n_session_consumed =>
    some (i, session_tokens, n_past, n_session_consumed)
  | e :: rest, i, session_tokens, n_past, n_session_consumed =>
    match session_tokens[n_session_consumed]? with
    | none => none
    | some t =>
      if e ≠ t then
        some (i, resize session_tokens n_session_consumed, n_past, n_session_consumed)
      else if n_session_consumed + 1 ≥ session_tokens.length then
        some (i + 1, session_tokens, n_past + 1, n_session_consumed + 1)
      else
        reconcile_loop rest (i + 1) session_tokens (n_past + 1) (n_session_consumed + 1)

/-- The `if (n_session_consumed < (int) session_tokens.size())` statement. -/
def reconcile_with_cache (s : TurnState) : Option TurnState :=
  if s.n_session_consumed < s.session_tokens.length then
    match reconcile_loop s.embd 0 s.session_tokens s.n_past s.n_session_consumed with
    | none => none
    | some (i, session_tokens, n_past, n_session_consumed) =>
      some { s with
        embd := if i > 0 then s.embd.drop i else s.embd
        session_tokens := session_tokens
        n_past := n_past
        n_session_consumed := n_session_consumed }
  else some s

/-! ## Commit to the session cache (lines 914-917) -/

/-- The `if (embd.size() > 0 && !path_session.empty())` statement. -/
def commit_evaluated (s : TurnState) : TurnState :=
  if s.embd.length > 0 ∧ s.path_session ≠ [] then
    { s with
      session_tokens := s.session_tokens ++ s.embd
      n_session_consumed := (s.session_tokens ++ s.embd).length }
  else s

/-! ## Decode (lines 919-935) -/

/-- The "prepare batch" loop from index `i` on; `n_tokens` is `batch.n_tokens`. -/
def batch_from (n_tokens n_past : Nat) : Nat → List Token → List BatchEntry
  | _, [] => []
  | i, t :: ts =>
    { token := t, pos := n_past + i, n_seq_id := 1, seq_id := 0,
      logits := decide (i = n_tokens - 1) } :: batch_from n_tokens n_past (i + 1) ts

/-- The batch of lines 920-930. -/
def prepare_batch (n_past : Nat) (embd : List Token) : List BatchEntry :=
  batch_from embd.length n_past 0 embd

/-- Lines 919-935; `decode_fails` is whether `llama_decode` returns non-zero.  `batch` was
allocated for `n_ctx` tokens (line 658). -/
def decode_block (env : Env) (decode_fails : Bool) (s : TurnState) : Result :=
  if s.embd.length > env.n_ctx then .undefined
  else
    let s1 := { s with log := s.log ++ [Event.decode (prepare_batch s.n_past s.embd)] }
    if decode_fails then .fatal s1 else .ok s1

/-- The `if (embd.size() > 0) { ... }` block of lines 881-936. -/
def predict (env : Env) (decode_fails : Bool) (s : TurnState) : Result :=
  if s.embd.length > 0 then
    match prepare_for_overflow env s with
    | none => .undefined
    | some s1 =>
      match reconcile_with_cache s1 with
      | none => .undefined
      | some s2 => decode_block env decode_fails (commit_evaluated s2)
  else .ok s

/-- Lines 938-941. -/
def advance (s : TurnState) : TurnState :=
  { s with
    embd_inp := s.embd_inp ++ s.embd
    n_past := s.n_past + s.embd.length
    embd := [] }

/-! ## Session save and sampling (lines 945-962) -/

/-- Lines 947-950. -/
def save_session (s : TurnState) : TurnState :=
  if s.path_session ≠ [] ∧ s.need_to_save_session = true then
    { s with
      need_to_save_session := false
      log := s.log ++ [Event.save s.path_session s.session_tokens] }
  else s

/-- Lines 952-961; `id` is the token returned by `llama_sampler_sample`. -/
def sample (env : Env) (id : Token) (s : TurnState) : TurnState :=
  let s1 := { s with log := s.log ++ [Event.sample id] }
  if id ≠ env.eos then
    { s1 with
      embd := s1.embd ++ [id]
      text_to_speak := s1.text_to_speak ++ env.token_to_piece id }
  else s1


/-! ## Strings -/

/-- Whether the text starts with the pattern. -/
def startsWith : CppString → CppString → Bool
  | _, [] => true
  | [], _ :: _ => false
  | c :: t, p :: ps => c == p && startsWith t ps

/-- The value `std::string::npos` of a 64-bit `size_t`. -/
def npos : Nat := 2 ^ 64 - 1

/-- Subtraction of two `size_t` values, wrapping modulo `2^64`. -/
def size_sub (a b : Nat) : Nat := (a + (2 ^ 64 - b % 2 ^ 64)) % 2 ^ 64

/-- Search of `find`: the first argument is the pattern, the second the text from index `xpos`
on; the lowest index at which the pattern starts, or `npos`. -/
def find_at (pat : CppString) : CppString → Nat → Nat
  | [], xpos => if startsWith [] pat then xpos else npos
  | c :: t, xpos => if startsWith (c :: t) pat then xpos else find_at pat t (xpos + 1)

/-- Model of `s.find(p, pos, n)` of `std::string`, with `pat` the first `n` characters of `p`:
the lowest `xpos ≥ pos` with `xpos + n ≤ s.size()` at which `pat` occurs, or `npos`. -/
def find (s pat : CppString) (pos : Nat) : Nat :=
  if pos ≤ s.length then find_at pat (s.drop pos) pos else npos

/-- Modelled from the spec: the scan of `replace` below, with fuel; at most `fuel` characters of
the text are scanned. -/
def replace_fuel (pat repl : CppString) : Nat → CppString → CppString
  | 0, s => s
  | _ + 1, [] => []
  | fuel + 1, c :: t =>
    if startsWith (c :: t) pat then
      repl ++ replace_fuel pat repl fuel ((c :: t).drop pat.length)
    else c :: replace_fuel pat repl fuel t

/-- Modelled from the spec: the helper `replace(s, from, to)` that `main` calls is declared in
`common.h` and its body is not part of these sources.  The spec says that a match "strip[s] the
antiprompt from the accumulated output", and `main` fills the placeholders `{0}`..`{4}` of the
prompt template, most of which occur more than once, with one call of the same helper each; so
it substitutes every occurrence of a non-empty `pat`, scanning left to right and going on after
the inserted text.  For an empty `pat` the text is returned as it is. -/
def replace (s pat repl : CppString) : CppString :=
  if pat = [] then s else replace_fuel pat repl s.length s

/-! ## Stop detection (lines 964-986) -/

/-- Line 620: `const std::string chat_symb = ":"`. -/
def chat_symb : CppString := [':']

/-- Lines 775-777: the reverse prompts. -/
def antiprompts (env : Env) : List CppString := [env.person ++ chat_symb]

/-- Concatenation of the pieces of a run of tokens. -/
def pieces (env : Env) : List Token → CppString
  | [] => []
  | t :: ts => env.token_to_piece t ++ pieces env ts

/-- Lines 965-969.  The loop starts at index `embd_inp.size() - 16`, which is negative for a
history of fewer than 16 tokens, and `embd[0]` does not exist when `embd` is empty. -/
def last_output (env : Env) (s : TurnState) : Option CppString :=
  if s.embd_inp.length < 16 then none
  else
    match s.embd with
    | [] => none
    | e :: _ =>
      some (pieces env (s.embd_inp.drop (s.embd_inp.length - 16)) ++ env.token_to_piece e)

/-- The `for (std::string & antiprompt : antiprompts)` loop of lines 971-979. -/
def antiprompt_loop (last_output : CppString) : List CppString → TurnState → TurnState
  | [], s => s
  | antiprompt :: rest, s =>
    if find last_output antiprompt (size_sub last_output.length antiprompt.length) ≠ npos then
      { s with
        done := true
        text_to_speak := replace s.text_to_speak antiprompt []
        need_to_save_session := true }
    else antiprompt_loop last_output rest s

/-- Lines 964-980. -/
def check_stop (env : Env) (s : TurnState) : Option TurnState :=
  match last_output env s with
  | none => none
  | some t => some (antiprompt_loop t (antiprompts env) s)

/-- Line 989: `speak_with_file(params.speak, text_to_speak, ...)`. -/
def speak (s : TurnState) : TurnState :=
  { s with log := s.log ++ [Event.speak s.text_to_speak] }

/-! ## The generation loop (lines 879-987) -/

/-- What the environment answers during one pass of `while (true)`. -/
structure IterInput where
  /-- Whether `llama_decode` returns non-zero, if it is called. -/
  decode_fails : Bool
  /-- The token returned by `llama_sampler_sample`. -/
  id : Token
  /-- The answer of `sdl_poll_events()` at line 982. -/
  poll : Bool
deriving DecidableEq, Repr

/-- One pass of the body of `while (true)` (lines 880-986). -/
def iter (env : Env) (inp : IterInput) (s : TurnState) : Result :=
  match predict env inp.decode_fails s with
  | .ok s1 =>
    let s2 := advance s1
    if s2.done then .leave s2
    else
      match check_stop env (sample env inp.id (save_session s2)) with
      | none => .undefined
      | some s3 =>
        let s4 := { s3 with is_running := inp.poll }
        if s4.is_running = false then .leave s4 else .ok s4
  | r => r

/-- The loop `while (true)` run against a list of answers of the environment: `Result.ok` means
that the loop is still running when the answers are used up. -/
def generation_loop (env : Env) : List IterInput → TurnState → Result
  | [], s => .ok s
  | inp :: rest, s =>
    match iter env inp s with
    | .ok s1 => generation_loop env rest s1
    | r => r

/-! ## Atomic steps -/

/-- One statement-level step of the main loop, taken in any state and in any order: the start of
a Turn, each block of the generation loop, the poll of line 982 and the call of the speech sink.
Every pass of `iter` is a sequence of such steps (`iter_reach`). -/
inductive Step (env : Env) : TurnState → TurnState → Prop
  | turn_start (tokens embd : List Token) (s : TurnState) :
      Step env s (turn_start tokens embd s)
  | overflow {s s1 : TurnState} : prepare_for_overflow env s = some s1 → Step env s s1
  | reconcile {s s1 : TurnState} : reconcile_with_cache s = some s1 → Step env s s1
  | commit (s : TurnState) : Step env s (commit_evaluated s)
  | decode_ok {s s1 : TurnState} (fails : Bool) :
      decode_block env fails s = .ok s1 → Step env s s1
  | decode_fatal {s s1 : TurnState} (fails : Bool) :
      decode_block env fails s = .fatal s1 → Step env s s1
  | advance (s : TurnState) : Step env s (advance s)
  | save (s : TurnState) : Step env s (save_session s)
  | sample (id : Token) (s : TurnState) : Step env s (sample env id s)
  | check_stop {s s1 : TurnState} : check_stop env s = some s1 → Step env s s1
  | poll (b : Bool) (s : TurnState) : Step env s { s with is_running := b }
  | speak (s : TurnState) : Step env s (speak s)

/-- Reachability by atomic steps. -/
def Reach (env : Env) : TurnState → TurnState → Prop := Relation.ReflTransGen (Step env)

/-- The `llama_state_save_file` calls of a log. -/
def saves (log : List Event) : List Event :=
  log.filter fun e => match e with
    | .save _ _ => true
    | _ => false

/-- The batches submitted to `llama_decode`, in order. -/
def decodes : List Event → List (List BatchEntry)
  | [] => []
  | .decode b :: rest => b :: decodes rest
  | _ :: rest => decodes rest

/-- The length of the longest common prefix of two token sequences. -/
def lcp_len : List Token → List Token → Nat
  | a :: as, b :: bs => if a = b then lcp_len as bs + 1 else 0
  | _, _ => 0

/-! ## Concrete inputs -/

/-- An environment whose tokens all have an empty text. -/
def env_plain (n_keep n_ctx n_prev : Nat) : Env where
  n_keep := n_keep
  n_ctx := n_ctx
  n_prev := n_prev
  person := ['B', 'o', 'b']
  token_to_piece := fun _ => []
  eos := 2

/-- Cache `[1,2,3,4]` with nothing consumed, pending tokens `[1,2,3,9]`. -/
def reconcile_scenario : TurnState :=
  { init_state [] [] [] with session_tokens := [1, 2, 3, 4], embd := [1, 2, 3, 9] }

/-- History `[10,11,12,13,14]` evaluated (`n_past = 5`) and a reply batch of five tokens. -/
def overflow_scenario : TurnState :=
  { init_state [] [] [10, 11, 12, 13, 14] with embd := [20, 21, 22, 23, 24] }

/-- A prompt of 2000 tokens, as a prompt file can hold. -/
def long_prompt : List Token := List.replicate 2000 1

/-- The state in which the first Turn starts after a prompt of 2000 tokens, without session
file, with a transcript of 49 tokens pending. -/
def long_prompt_state : TurnState :=
  { init_state [] [] long_prompt with embd := List.replicate 49 3 }

/-- A history of sixteen prompt tokens. -/
def prompt16 : List Token :=
  [101, 102, 103, 104, 105, 106, 107, 108, 109, 110, 111, 112, 113, 114, 115, 116]

/-- A state whose pending batch overflows a context of 20 tokens: sixteen tokens evaluated,
five pending, a session file in use whose cache holds the prompt. -/
def eviction_state : TurnState :=
  { init_state ['s'] prompt16 prompt16 with embd := [20, 21, 22, 23, 24] }

/-- The answers of the environment in one pass: decode succeeds, token `7` is drawn, no
cancellation. -/
def pass_input : IterInput := { decode_fails := false, id := 7, poll := true }

/-- The state that the overflow step leaves from `eviction_state` when `n_keep = 16`,
`n_ctx = 20` and `n_prev = 2`. -/
def evicted_state : TurnState :=
  { eviction_state with n_past := 16, embd := [115, 116, 20, 21, 22, 23, 24], path_session := [] }

/-- The start-up state with a session path and no session file yet, after a prompt of sixteen
tokens. -/
def fresh_session_state : TurnState := init_state ['s'] [] prompt16

/-- A vocabulary with the pieces `"...see you soon"` (40), `"Bob"` (41), `":"` (42), `":)"` (43)
and `" bye"` (44); every other token has an empty text.  The person is `Bob`. -/
def env_bob : Env where
  n_keep := 16
  n_ctx := 2048
  n_prev := 64
  person := "Bob".toList
  token_to_piece := fun t =>
    if t = 40 then "...see you soon".toList
    else if t = 41 then "Bob".toList
    else if t = 42 then ":".toList
    else if t = 43 then ":)".toList
    else if t = 44 then " bye".toList
    else []
  eos := 2

/-- The state after the reply `"...see you soon"`, `"Bob"` has been sampled and evaluated. -/
def see_you_soon_state : TurnState :=
  { init_state [] [] prompt16 with
    embd_inp := prompt16 ++ [50, 40, 41]
    n_past := 19
    text_to_speak := "...see you soonBob".toList }

/-- The tokens drawn by `llama_sampler_sample`, in order. -/
def samples : List Event → List Token
  | [] => []
  | .sample id :: rest => id :: samples rest
  | _ :: rest => samples rest

/-- The start of a Turn after a prompt of sixteen tokens, without session file, with a
transcript of one token. -/
def strip_start : TurnState := turn_start [50] [50] (init_state [] [] prompt16)

/-- Six passes in which every decode succeeds, nothing is cancelled, and the tokens with the
pieces `"Bob"`, `":)"`, `" bye"`, `"Bob"`, `":"` are drawn (the sixth pass leaves before it
samples). -/
def strip_inputs : List IterInput :=
  [ { decode_fails := false, id := 41, poll := true },
    { decode_fails := false, id := 43, poll := true },
    { decode_fails := false, id := 44, poll := true },
    { decode_fails := false, id := 41, poll := true },
    { decode_fails := false, id := 42, poll := true },
    { decode_fails := false, id := 0, poll := true } ]

/-! ## Start-up of `main` (lines 355-772) -/

/-- What the environment answers while `main` starts up. -/
structure StartInput where
  /-- Lines 365-380: `none` when control goes on, else the exit status (`1` when
  `whisper_params_parse` fails, `0` for an unknown language or for both diarize flags). -/
  args_exit : Option Int
  /-- Line 388: whether `whisper_init_from_file_with_params` returns a context. -/
  wsp_loaded : Bool
  /-- Line 411: whether a grammar was given and failed to parse. -/
  grammar_fails : Bool
  /-- Line 466: whether `llama_model_load_from_file` returns a model. -/
  llama_loaded : Bool
  /-- Line 611: whether `audio.init` succeeds. -/
  audio_ok : Bool
  /-- Line 681: the session path `params.path_session`. -/
  path_session : CppString
  /-- Line 683: the tokens `llama_tokenize(ctx_llama, prompt_llama, true)`. -/
  prompt : List Token
  /-- Line 689: whether `fopen(path_session, "rb")` returns a file. -/
  file_opens : Bool
  /-- Line 695: the answer of `llama_state_load_file`, `none` when it returns false, else the
  `n_token_count_out` tokens it wrote. -/
  loaded : Option (List Token)
  /-- Line 726: whether the `llama_decode` of the prompt returns non-zero. -/
  decode_fails : Bool

/-- Calls on the session file during start-up. -/
inductive FileCall where
  | fopen (path : CppString)
  | state_load_file (path : CppString)
deriving DecidableEq, Repr

/-- Outcome of the "init session" block (lines 680-708). -/
inductive LoadResult where
  /-- Control goes on with these file calls made, this `session_tokens` and this `embd_inp`. -/
  | cont (calls : List FileCall) (session_tokens embd_inp : List Token)
  /-- Leaving `main` by `return 1` (line 697). -/
  | fatal (calls : List FileCall)
  /-- A write outside `embd_inp`. -/
  | undefined
deriving DecidableEq, Repr

/-- The loop of lines 700-702 from index `i` on: `embd_inp[i] = session_tokens[i]`.  The second
argument is `session_tokens[i..]`. -/
def overwrite_loop : List Token → List Token → Nat → Option (List Token)
  | embd_inp, [], _ => some embd_inp
  | embd_inp, t :: rest, i =>
    if i < embd_inp.length then overwrite_loop (embd_inp.set i t) rest (i + 1) else none

/-- Lines 680-708.  The buffer handed to `llama_state_load_file` holds `n_ctx` tokens (line 693),
and the call returns false when the file holds more. -/
def load_session (n_ctx : Nat) (inp : StartInput) : LoadResult :=
  if inp.path_session ≠ [] then
    if inp.file_opens then
      match inp.loaded with
      | none => .fatal [.fopen inp.path_session, .state_load_file inp.path_session]
      | some session_tokens =>
        if session_tokens.length > n_ctx then
          .fatal [.fopen inp.path_session, .state_load_file inp.path_session]
        else
          match overwrite_loop inp.prompt session_tokens 0 with
          | none => .undefined
          | some embd_inp =>
            .cont [.fopen inp.path_session, .state_load_file inp.path_session]
              session_tokens embd_inp
    else .cont [.fopen inp.path_session] [] inp.prompt
  else .cont [] [] inp.prompt

/-- The messages of lines 744-752. -/
inductive Similarity where
  /-- The message "session file has exact match for prompt!". -/
  | exact_match
  /-- The message "session file has low similarity to prompt ...; will mostly be reevaluated". -/
  | low_similarity
  /-- The message "session file matches m / n tokens of prompt". -/
  | partial_match
deriving DecidableEq, Repr

/-- Lines 744-752, for `m = n_matching_session_tokens` and `n = embd_inp.size()`. -/
def similarity_class (m n : Nat) : Similarity :=
  if m ≥ n then .exact_match
  else if m < n / 2 then .low_similarity
  else .partial_match

/-- Lines 736-753: the message printed, if any. -/
def session_similarity (session_tokens embd_inp : List Token) : Option Similarity :=
  if session_tokens.length ≠ 0 then
    some (similarity_class (n_matching_session_tokens session_tokens embd_inp) embd_inp.length)
  else none

/-- Outcome of `main`, or of a part of it. -/
inductive MainResult where
  /-- The main loop `while (is_running)` is entered, or goes on, in this state. -/
  | running (s : TurnState)
  /-- Leaving `main` with this exit status, after these calls to the collaborators. -/
  | exit (code : Int) (log : List Event)
  /-- The generation loop of a Turn is still running when the answers are used up. -/
  | pending (s : TurnState)
  /-- The pass waits in the loop of lines 844-855 for input on `stdin` that does not come. -/
  | blocked (s : TurnState)
  /-- An access outside a vector. -/
  | undefined
deriving DecidableEq, Repr

/-- Lines 355-772 of `main`, up to the entry of the main loop.  The prompt batch is written into
`batch`, which holds `n_ctx` tokens (line 658). -/
def startup (n_ctx : Nat) (inp : StartInput) : MainResult :=
  match inp.args_exit with
  | some code => .exit code []
  | none =>
    if inp.wsp_loaded = false then .exit 3 []
    else if inp.grammar_fails = true then .exit 4 []
    else if inp.llama_loaded = false then .exit 1 []
    else if inp.audio_ok = false then .exit 1 []
    else
      match load_session n_ctx inp with
      | .fatal _ => .exit 1 []
      | .undefined => .undefined
      | .cont _ session_tokens embd_inp =>
        if embd_inp.length > n_ctx then .undefined
        else if inp.decode_fails = true then
          .exit 1 [Event.decode (prepare_batch 0 embd_inp)]
        else
          .running { init_state inp.path_session session_tokens embd_inp with
            log := [Event.decode (prepare_batch 0 embd_inp)] }

/-! ## Transcript cleanup (lines 815-835) -/

/-- The class `\s` of `std::regex` in the classic locale (`isspace`). -/
def is_space (c : Char) : Bool :=
  c = ' ' ∨ c = Char.ofNat 9 ∨ c = Char.ofNat 10 ∨ c = Char.ofNat 11 ∨ c = Char.ofNat 12 ∨
    c = Char.ofNat 13

/-- The characters that `.` of `std::regex` does not match: line feed and carriage return. -/
def is_line_terminator (c : Char) : Bool := c = Char.ofNat 10 ∨ c = Char.ofNat 13

/-- The characters outside the class `[^a-zA-Z0-9\.,\?!\s\:\'\-]` of line 828. -/
def is_kept (c : Char) : Bool :=
  (97 ≤ c.toNat ∧ c.toNat ≤ 122) ∨ (65 ≤ c.toNat ∧ c.toNat ≤ 90) ∨
    (48 ≤ c.toNat ∧ c.toNat ≤ 57) ∨ c = '.' ∨ c = ',' ∨ c = '?' ∨ c = '!' ∨ is_space c = true ∨
    c = ':' ∨ c = Char.ofNat 39 ∨ c = '-'

/-- What follows the first closing character, when no line terminator comes before it: the rest
of the text after a match of `.*?` and the closing character. -/
def span_rest (close : Char) : CppString → Option CppString
  | [] => none
  | c :: t =>
    if c = close then some t
    else if is_line_terminator c = true then none
    else span_rest close t

/-- Removal of every match of an opening character, `.*?` and a closing character, with fuel. -/
def remove_spans_fuel (opn close : Char) : Nat → CppString → CppString
  | 0, s => s
  | _ + 1, [] => []
  | fuel + 1, c :: t =>
    if c = opn then
      match span_rest close t with
      | some rest => remove_spans_fuel opn close fuel rest
      | none => c :: remove_spans_fuel opn close fuel t
    else c :: remove_spans_fuel opn close fuel t

/-- Model of `std::regex_replace(result, re, "")` for the expressions of lines 817 and 823. -/
def remove_spans (opn close : Char) (s : CppString) : CppString :=
  remove_spans_fuel opn close s.length s

/-- Lines 815-835: the recognized text after the five cleanup steps. -/
def cleanup (result : CppString) : CppString :=
  let r1 := remove_spans '[' ']' result
  let r2 := remove_spans '(' ')' r1
  let r3 := r2.filter is_kept
  let r4 := r3.takeWhile fun c => c ≠ Char.ofNat 10
  let r5 := r4.dropWhile is_space
  (r5.reverse.dropWhile is_space).reverse

/-! ## The main loop (lines 787-993) -/

/-- What the environment answers during one pass of `while (is_running)`. -/
structure LoopInput where
  /-- Line 790: the answer of `sdl_poll_events()`. -/
  poll : Bool
  /-- Line 797: the answer of `vad_simple`. -/
  vad : Bool
  /-- Line 805: whether `whisper_full_parallel` returns `0`. -/
  wsp_ok : Bool
  /-- Lines 806-812: the concatenated text of the segments. -/
  text : CppString
  /-- Line 837: the tokens of the cleaned transcript. -/
  tokens : List Token
  /-- Lines 844-845: the words that `stdin` still holds when the loop of line 844 is reached. -/
  stdin_words : List CppString
  /-- Lines 844-845: whether the end of `stdin` follows these words. -/
  stdin_eof : Bool
  /-- Line 869: the tokens of the decorated transcript. -/
  embd : List Token
  /-- The answers during the generation loop of the Turn. -/
  passes : List IterInput
deriving DecidableEq, Repr

/-- How the loop of lines 844-855 ends. -/
inductive StdinResult where
  /-- The call `fscanf` of line 844 meets the end of `stdin`: the loop is left. -/
  | ended
  /-- A call of `fscanf` or `scanf` waits for input that does not come. -/
  | blocked
  /-- A word of five or more characters is written into `char tpBuffer[5]`. -/
  | undefined
deriving DecidableEq, Repr

/-- Lines 844-855: `while (fscanf(stdin, "%s\n", tpBuffer) > 0) { scanf("%s\n", tpBuffer); ... }`.
Each of the two calls reads one word of `stdin` into `tpBuffer`, which holds four characters and
the terminating zero; `buffer` is never written, so the two tests of `strIsOnline` fail and the
body changes no variable of the model.  The first argument tells whether the end of `stdin`
follows the words. -/
def stdin_loop (eof : Bool) : List CppString → StdinResult
  | [] => if eof then .ended else .blocked
  | [w1] => if 5 ≤ w1.length then .undefined else if eof then .ended else .blocked
  | w1 :: w2 :: rest =>
    if 5 ≤ w1.length then .undefined
    else if 5 ≤ w2.length then .undefined
    else stdin_loop eof rest

/-- One pass of the body of `while (is_running)` (lines 789-992). -/
def main_iter (env : Env) (inp : LoopInput) (s : TurnState) : MainResult :=
  let s1 := { s with is_running := inp.poll }
  if inp.vad = true then
    let result := cleanup (if inp.wsp_ok = true then inp.text else [])
    if result = [] ∨ inp.tokens = [] then .running s1
    else
      match stdin_loop inp.stdin_eof inp.stdin_words with
      | .blocked => .blocked s1
      | .undefined => .undefined
      | .ended =>
        match generation_loop env inp.passes (turn_start inp.tokens inp.embd s1) with
        | .leave s2 => .running (speak s2)
        | .fatal s2 => .exit 1 s2.log
        | .ok s2 => .pending s2
        | .undefined => .undefined
  else .running s1

/-- The loop `while (is_running)` run against a list of answers, followed by `return 0`
(line 1010): `MainResult.running` means that the loop is still running when the answers are
used up. -/
def main_loop (env : Env) : List LoopInput → TurnState → MainResult
  | [], s => if s.is_running = false then .exit 0 s.log else .running s
  | inp :: rest, s =>
    if s.is_running = false then .exit 0 s.log
    else
      match main_iter env inp s with
      | .running s1 => main_loop env rest s1
      | r => r

/-- The whole of `main`: start-up, then the main loop with `n_keep` the length of the prompt. -/
def main_run (env : Env) (start : StartInput) (inps : List LoopInput) : MainResult :=
  match startup env.n_ctx start with
  | .running s => main_loop { env with n_keep := s.embd_inp.length } inps s
  | r => r

/-- The texts handed to `speak_with_file`, in order. -/
def speaks : List Event → List CppString
  | [] => []
  | .speak text :: rest => text :: speaks rest
  | _ :: rest => speaks rest

/-- Whether start-up gets as far as the "init session" block of line 680. -/
def reaches_session (inp : StartInput) : Bool :=
  inp.args_exit.isNone && inp.wsp_loaded && !inp.grammar_fails && inp.llama_loaded &&
    inp.audio_ok

/-- A start-up in which the models and the audio device load and the prompt decode succeeds. -/
def start_ok (path : CppString) (prompt : List Token) (file_opens : Bool)
    (loaded : Option (List Token)) : StartInput where
  args_exit := none
  wsp_loaded := true
  grammar_fails := false
  llama_loaded := true
  audio_ok := true
  path_session := path
  prompt := prompt
  file_opens := file_opens
  loaded := loaded
  decode_fails := false

/-- A session file holding `[1,2,3]` and a prompt that tokenizes to `[9,9,9,9]`. -/
def stale_session_start : StartInput := start_ok ['s'] [9, 9, 9, 9] true (some [1, 2, 3])

/-- A session file holding exactly the prompt `[1,2,3,4]`. -/
def exact_session_start : StartInput := start_ok ['s'] [1, 2, 3, 4] true (some [1, 2, 3, 4])

/-- A session file holding `[1,2]` and a prompt of five tokens. -/
def short_session_start : StartInput := start_ok ['s'] [1, 2, 3, 4, 5] true (some [1, 2])

/-- A session path whose file cannot be opened. -/
def absent_session_start : StartInput := start_ok ['s'] [1, 2, 3, 4] false none

/-- A session path whose file opens and fails to load. -/
def corrupt_session_start : StartInput := start_ok ['s'] [1, 2, 3, 4] true none

/-- A start-up without session path. -/
def no_session_start : StartInput := start_ok [] [1, 2, 3, 4] false none

/-- What the predict block leaves alone: the save flag, `done`, the output text and `is_running`
are as before, and the session path is as before or has been emptied. -/
def keeps_flags (s x : TurnState) : Prop :=
  x.need_to_save_session = s.need_to_save_session ∧ x.done = s.done ∧
    x.text_to_speak = s.text_to_speak ∧ x.is_running = s.is_running ∧
    (x.path_session = s.path_session ∨ x.path_session = [])

/-- The states in which a pass of the generation loop cannot save: `done` is set, or the session
path is empty, or the save flag is down. -/
def save_blocked (s : TurnState) : Prop :=
  s.done = true ∨ s.path_session = [] ∨ s.need_to_save_session = false

/-- A start-up whose session file holds exactly the prompt of sixteen tokens. -/
def session_hit_start : StartInput := start_ok ['s'] prompt16 true (some prompt16)

/-- A pass of the main loop in which speech is heard and transcribed, `stdin` is at its end,
and the reply `"Bob"`, `":"` is sampled, which ends the Turn by the antiprompt of `env_bob`. -/
def bob_turn : LoopInput where
  poll := true
  vad := true
  wsp_ok := true
  text := "hello".toList
  tokens := [51]
  stdin_words := []
  stdin_eof := true
  embd := [50]
  passes :=
    [ { decode_fails := false, id := 41, poll := true },
      { decode_fails := false, id := 42, poll := true },
      { decode_fails := false, id := 0, poll := true } ]

/-- The same pass, in which `sdl_poll_events` reports the cancellation at line 790. -/
def cancelled_turn : LoopInput := { bob_turn with poll := false }

/-- A pass of the main loop whose Turn is cancelled by the poll of line 982, after the piece
`" bye"` has been sampled and before any antiprompt. -/
def interrupted_turn : LoopInput :=
  { bob_turn with passes := [ { decode_fails := false, id := 44, poll := false } ] }

/-- A pass of the main loop in which speech is heard and the recognizer fails. -/
def failed_transcription : LoopInput := { bob_turn with wsp_ok := false }

/-- The value of `result` at line 839: the cleaned text of the segments, or of the empty string
when the recognizer failed. -/
def transcript (inp : LoopInput) : CppString :=
  cleanup (if inp.wsp_ok = true then inp.text else [])

/-- A start-up in which the speech model fails to load. -/
def no_speech_model_start : StartInput :=
  { start_ok [] [1, 2, 3, 4] false none with wsp_loaded := false }

/-- A pass of the main loop whose Turn meets a failing `llama_decode` in its second pass. -/
def failing_turn : LoopInput :=
  { bob_turn with
    passes :=
      [ { decode_fails := false, id := 41, poll := true },
        { decode_fails := true, id := 42, poll := true },
        { decode_fails := false, id := 0, poll := true } ] }

/-! ## The command line (talk-llama.cpp lines 57-320, cli.cpp lines 36-262) -/

/-- Model of `tolower` in the "C" locale. -/
def tolower (c : Char) : Char :=
  if 65 ≤ c.toNat ∧ c.toNat ≤ 90 then Char.ofNat (c.toNat + 32) else c

/-- The function `whisper_param_turn_lowercase` (lines 143-149 of talk-llama.cpp, 115-121 of
cli.cpp). -/
def whisper_param_turn_lowercase (s : CppString) : CppString := s.map tolower

/-- Model of `std::stoi(str)`: white space is skipped, then an optional sign and the longest run
of decimal digits are read; `none` when it throws, `std::invalid_argument` without a digit and
`std::out_of_range` for a value outside `int`. -/
def stoi (str : CppString) : Option Int :=
  let s1 := str.dropWhile is_space
  let s2 := if s1.head? = some '-' ∨ s1.head? = some '+' then s1.tail else s1
  let digits := s2.takeWhile Char.isDigit
  if digits = [] then none
  else
    let n : Int := digits.foldl (fun a c => 10 * a + ((c.toNat - 48 : Nat) : Int)) 0
    let v : Int := if s1.head? = some '-' then -n else n
    if -2 ^ 31 ≤ v ∧ v < 2 ^ 31 then some v else none

/-- How a call of `whisper_params_parse` ends. -/
inductive ParseResult (P : Type) where
  /-- The call ends by `return true`, with these parameters. -/
  | ok (params : P)
  /-- The usage is printed for `-h` or `--help`, then `exit(0)`. -/
  | help
  /-- The call `requires_value_error(arg)`: the message "error: argument %s requires value",
  then `exit(0)`. -/
  | requires_value (arg : CppString)
  /-- The message "error: unknown argument: %s" and the usage, then `exit(0)`. -/
  | unknown_argument (arg : CppString)
  /-- An exception of `std::stoi` or `std::stof`, which nothing catches. -/
  | throws
  /-- The null pointer `argv[argc]` is used as a string, or `back()` is called on an empty
  string. -/
  | undefined
deriving DecidableEq, Repr

/-- How the body of the loop of `whisper_params_parse` ends for one argument. -/
inductive ArgResult (P : Type) where
  /-- Control reaches the `i++` of the loop with this value of `i` and these parameters. -/
  | next (i : Nat) (params : P)
  /-- The call of `whisper_params_parse` ends here. -/
  | stop (r : ParseResult P)

/-- The macro `ARGV_NEXT` (line 164 of talk-llama.cpp, 136 of cli.cpp), followed by the rest `k`
of the statement: `argv[++i]` when `i + 1 < argc`, else `requires_value_error(arg)`, which does
not return. -/
def ARGV_NEXT {P : Type} (argv : List CppString) (i : Nat) (arg : CppString)
    (k : Nat → CppString → ArgResult P) : ArgResult P :=
  match argv[i + 1]? with
  | some v => k (i + 1) v
  | none => .stop (.requires_value arg)

/-- The expression `argv[++i]` of lines 221-234 of talk-llama.cpp, followed by the rest `k` of
the statement.  With `i + 1 = argc` it is the null pointer `argv[argc]`, from which no
`std::string` or `std::ifstream` can be made. -/
def argv_incr {P : Type} (argv : List CppString) (i : Nat)
    (k : Nat → CppString → ArgResult P) : ArgResult P :=
  match argv[i + 1]? with
  | some v => k (i + 1) v
  | none => .stop .undefined

/-- The call `std::stoi(v)`, followed by the rest `k` of the statement. -/
def with_stoi {P : Type} (v : CppString) (k : Int → ArgResult P) : ArgResult P :=
  match stoi v with
  | some n => k n
  | none => .stop .throws

/-- The call `std::stof(v)`, followed by the rest `k` of the statement. -/
def with_stof {P F : Type} (stof : CppString → Option F) (v : CppString)
    (k : F → ArgResult P) : ArgResult P :=
  match stof v with
  | some x => k x
  | none => .stop .throws

/-- One way of writing an option in the usage text: the option, and the name of the value that
the text shows after it (empty when it shows none). -/
structure UsageForm where
  name : CppString
  value : CppString
deriving DecidableEq, Repr

/-- One option line of the usage text. -/
structure UsageLine where
  /-- The short and the long form, as printed. -/
  forms : List UsageForm
  /-- The member of `params` whose value the line prints (empty when it prints a constant). -/
  member : String
deriving DecidableEq, Repr

/-- An option line from its forms `(option, value name)` and the member it prints. -/
def usage_line (forms : List (String × String)) (member : String) : UsageLine :=
  { forms := forms.map fun f => { name := f.1.toList, value := f.2.toList }, member := member }

/-- The command line that uses an option the way a form of the usage text shows it: the program
name, the option, and `value` when the form shows a value. -/
def command_line (prog : CppString) (form : UsageForm) (value : CppString) : List CppString :=
  if form.value = [] then [prog, form.name] else [prog, form.name, value]

/-- Lines 57-139 of talk-llama.cpp: `struct whisper_params`, without the member `grammar_parsed`
(a type of the grammar library).  A `float` is a value of `F`.  The member initialisers are not
modelled: `whisper_params_parse` gets the structure by reference. -/
structure whisper_params (F : Type) where
  n_threads : Int
  n_processors : Int
  offset_t_ms : Int
  offset_n : Int
  duration_ms : Int
  progress_step : Int
  max_context : Int
  max_len : Int
  best_of : Int
  beam_size : Int
  command_ms : Int
  buffer_ms : Int
  keep_ms : Int
  capture_id : Int
  audio_ctx : Int
  n_gpu_layers : Int
  vad_thold : F
  freq_thold : F
  word_thold : F
  entropy_thold : F
  logprob_thold : F
  no_speech_thold : F
  grammar_penalty : F
  temperature : F
  temperature_inc : F
  print_energy : Bool
  verbose_prompt : Bool
  print_special : Bool
  no_timestamps : Bool
  use_gpu : Bool
  flash_attn : Bool
  debug_mode : Bool
  translate : Bool
  detect_language : Bool
  diarize : Bool
  tinydiarize : Bool
  split_on_word : Bool
  no_fallback : Bool
  no_prints : Bool
  print_colors : Bool
  print_confidence : Bool
  print_progress : Bool
  log_score : Bool
  suppress_nst : Bool
  font_path : CppString
  grammar : CppString
  grammar_rule : CppString
  tdrz_speaker_turn : CppString
  suppress_regex : CppString
  openvino_encode_device : CppString
  vad : Bool
  vad_model : CppString
  vad_threshold : F
  vad_min_speech_duration_ms : Int
  vad_min_silence_duration_ms : Int
  vad_max_speech_duration_s : F
  vad_speech_pad_ms : Int
  vad_samples_overlap : F
  person : CppString
  bot_name : CppString
  language : CppString
  model_wsp : CppString
  model_llama : CppString
  speak : CppString
  speak_file : CppString
  prompt : CppString
  path_session : CppString

/-- Lines 158-239 of talk-llama.cpp: the body of the loop of `whisper_params_parse` for the
argument `arg = argv[i]`.  `stof` is `std::stof` (`none` when it throws) and `read_file` gives
the content of a file (empty when it cannot be opened). -/
def whisper_params_parse_arg {F : Type} (stof : CppString → Option F)
    (read_file : CppString → CppString) (argv : List CppString) (i : Nat) (arg : CppString)
    (params : whisper_params F) : ArgResult (whisper_params F) :=
  if arg = "-h".toList ∨ arg = "--help".toList then .stop .help
  else if arg = "-t".toList ∨ arg = "--threads".toList then
    ARGV_NEXT argv i arg fun j v =>
      with_stoi v fun n => .next j { params with n_threads := n }
  else if arg = "-p".toList ∨ arg = "--processors".toList then
    ARGV_NEXT argv i arg fun j v =>
      with_stoi v fun n => .next j { params with n_processors := n }
  else if arg = "-ot".toList ∨ arg = "--offset-t".toList then
    ARGV_NEXT argv i arg fun j v =>
      with_stoi v fun n => .next j { params with offset_t_ms := n }
  else if arg = "-on".toList ∨ arg = "--offset-n".toList then
    ARGV_NEXT argv i arg fun j v =>
      with_stoi v fun n => .next j { params with offset_n := n }
  else if arg = "-d".toList ∨ arg = "--duration".toList then
    ARGV_NEXT argv i arg fun j v =>
      with_stoi v fun n => .next j { params with duration_ms := n }
  else if arg = "-mc".toList ∨ arg = "--max-context".toList then
    ARGV_NEXT argv i arg fun j v =>
      with_stoi v fun n => .next j { params with max_context := n }
  else if arg = "-ml".toList ∨ arg = "--max-len".toList then
    ARGV_NEXT argv i arg fun j v =>
      with_stoi v fun n => .next j { params with max_len := n }
  else if arg = "-bo".toList ∨ arg = "--best-of".toList then
    ARGV_NEXT argv i arg fun j v =>
      with_stoi v fun n => .next j { params with best_of := n }
  else if arg = "-bs".toList ∨ arg = "--beam-size".toList then
    ARGV_NEXT argv i arg fun j v =>
      with_stoi v fun n => .next j { params with beam_size := n }
  else if arg = "-ac".toList ∨ arg = "--audio-ctx".toList then
    ARGV_NEXT argv i arg fun j v =>
      with_stoi v fun n => .next j { params with audio_ctx := n }
  else if arg = "-c".toList ∨ arg = "--capture".toList then
    ARGV_NEXT argv i arg fun j v =>
      with_stoi v fun n => .next j { params with capture_id := n }
  else if arg = "-ngl".toList ∨ arg = "--n-gpu-layers".toList then
    ARGV_NEXT argv i arg fun j v =>
      with_stoi v fun n => .next j { params with n_gpu_layers := n }
  else if arg = "-vth".toList ∨ arg = "--vad-thold".toList then
    ARGV_NEXT argv i arg fun j v =>
      with_stof stof v fun x => .next j { params with vad_thold := x }
  else if arg = "-fth".toList ∨ arg = "--freq-thold".toList then
    ARGV_NEXT argv i arg fun j v =>
      with_stof stof v fun x => .next j { params with freq_thold := x }
  else if arg = "-wt".toList ∨ arg = "--word-thold".toList then
    ARGV_NEXT argv i arg fun j v =>
      with_stof stof v fun x => .next j { params with word_thold := x }
  else if arg = "-et".toList ∨ arg = "--entropy-thold".toList then
    ARGV_NEXT argv i arg fun j v =>
      with_stof stof v fun x => .next j { params with entropy_thold := x }
  else if arg = "-lpt".toList ∨ arg = "--logprob-thold".toList then
    ARGV_NEXT argv i arg fun j v =>
      with_stof stof v fun x => .next j { params with logprob_thold := x }
  else if arg = "-nth".toList ∨ arg = "--no-speech-thold".toList then
    ARGV_NEXT argv i arg fun j v =>
      with_stof stof v fun x => .next j { params with no_speech_thold := x }
  else if arg = "-tp".toList ∨ arg = "--temperature".toList then
    ARGV_NEXT argv i arg fun j v =>
      with_stof stof v fun x => .next j { params with temperature := x }
  else if arg = "-tpi".toList ∨ arg = "--temperature-inc".toList then
    ARGV_NEXT argv i arg fun j v =>
      with_stof stof v fun x => .next j { params with temperature_inc := x }
  else if arg = "-pe".toList ∨ arg = "--print-energy".toList then
    .next i { params with print_energy := true }
  else if arg = "-vp".toList ∨ arg = "--verbose-prompt".toList then
    .next i { params with verbose_prompt := true }
  else if arg = "-debug".toList ∨ arg = "--debug-mode".toList then
    .next i { params with debug_mode := true }
  else if arg = "-tr".toList ∨ arg = "--translate".toList then
    .next i { params with translate := true }
  else if arg = "-di".toList ∨ arg = "--diarize".toList then
    .next i { params with diarize := true }
  else if arg = "-tdrz".toList ∨ arg = "--tinydiarize".toList then
    .next i { params with tinydiarize := true }
  else if arg = "-sow".toList ∨ arg = "--split-on-word".toList then
    .next i { params with split_on_word := true }
  else if arg = "-nf".toList ∨ arg = "--no-fallback".toList then
    .next i { params with no_fallback := true }
  else if arg = "-fp".toList ∨ arg = "--font-path".toList then
    ARGV_NEXT argv i arg fun j v => .next j { params with font_path := v }
  else if arg = "-np".toList ∨ arg = "--no-prints".toList then
    .next i { params with no_prints := true }
  else if arg = "-ps".toList ∨ arg = "--print-special".toList then
    .next i { params with print_special := true }
  else if arg = "-pc".toList ∨ arg = "--print-colors".toList then
    .next i { params with print_colors := true }
  else if arg = "--print-confidence".toList then
    .next i { params with print_confidence := true }
  else if arg = "-pp".toList ∨ arg = "--print-progress".toList then
    .next i { params with print_progress := true }
  else if arg = "-nt".toList ∨ arg = "--no-timestamps".toList then
    .next i { params with no_timestamps := true }
  else if arg = "-l".toList ∨ arg = "--language".toList then
    ARGV_NEXT argv i arg fun j v =>
      .next j { params with language := whisper_param_turn_lowercase v }
  else if arg = "-dl".toList ∨ arg = "--detect-language".toList then
    .next i { params with detect_language := true }
  else if arg = "--prompt".toList then
    ARGV_NEXT argv i arg fun j v => .next j { params with prompt := v }
  else if arg = "-oved".toList ∨ arg = "--ov-e-device".toList then
    ARGV_NEXT argv i arg fun j v => .next j { params with openvino_encode_device := v }
  else if arg = "-ls".toList ∨ arg = "--log-score".toList then
    .next i { params with log_score := true }
  else if arg = "-ng".toList ∨ arg = "--no-gpu".toList then
    .next i { params with use_gpu := false }
  else if arg = "-fa".toList ∨ arg = "--flash-attn".toList then
    .next i { params with flash_attn := true }
  else if arg = "-sns".toList ∨ arg = "--suppress-nst".toList then
    .next i { params with suppress_nst := true }
  else if arg = "--suppress-regex".toList then
    ARGV_NEXT argv i arg fun j v => .next j { params with suppress_regex := v }
  else if arg = "--grammar".toList then
    ARGV_NEXT argv i arg fun j v => .next j { params with grammar := v }
  else if arg = "--grammar-rule".toList then
    ARGV_NEXT argv i arg fun j v => .next j { params with grammar_rule := v }
  else if arg = "--grammar-penalty".toList then
    ARGV_NEXT argv i arg fun j v =>
      with_stof stof v fun x => .next j { params with grammar_penalty := x }
  else if arg = "--vad".toList then
    .next i { params with vad := true }
  else if arg = "-vm".toList ∨ arg = "--vad-model".toList then
    ARGV_NEXT argv i arg fun j v => .next j { params with vad_model := v }
  else if arg = "-vt".toList ∨ arg = "--vad-threshold".toList then
    ARGV_NEXT argv i arg fun j v =>
      with_stof stof v fun x => .next j { params with vad_threshold := x }
  else if arg = "-vsd".toList ∨ arg = "--vad-min-speech-duration-ms".toList then
    ARGV_NEXT argv i arg fun j v =>
      with_stoi v fun n => .next j { params with vad_min_speech_duration_ms := n }
  else if arg = "-vsd".toList ∨ arg = "--vad-min-silence-duration-ms".toList then
    ARGV_NEXT argv i arg fun j v =>
      with_stoi v fun n => .next j { params with vad_min_speech_duration_ms := n }
  else if arg = "-vmsd".toList ∨ arg = "--vad-max-speech-duration-s".toList then
    ARGV_NEXT argv i arg fun j v =>
      with_stof stof v fun x => .next j { params with vad_max_speech_duration_s := x }
  else if arg = "-vp".toList ∨ arg = "--vad-speech-pad-ms".toList then
    ARGV_NEXT argv i arg fun j v =>
      with_stoi v fun n => .next j { params with vad_speech_pad_ms := n }
  else if arg = "-vo".toList ∨ arg = "--vad-samples-overlap".toList then
    ARGV_NEXT argv i arg fun j v =>
      with_stof stof v fun x => .next j { params with vad_samples_overlap := x }
  else if arg = "-pn".toList ∨ arg = "--person".toList then
    argv_incr argv i fun j v => .next j { params with person := v }
  else if arg = "-bn".toList ∨ arg = "--bot-name".toList then
    argv_incr argv i fun j v => .next j { params with bot_name := v }
  else if arg = "-mw".toList ∨ arg = "--model-whisper".toList then
    argv_incr argv i fun j v => .next j { params with model_wsp := v }
  else if arg = "-mll".toList ∨ arg = "--model-llama".toList then
    argv_incr argv i fun j v => .next j { params with model_llama := v }
  else if arg = "-s".toList ∨ arg = "--speak".toList then
    argv_incr argv i fun j v => .next j { params with speak := v }
  else if arg = "-sf".toList ∨ arg = "--speak-file".toList then
    argv_incr argv i fun j v => .next j { params with speak_file := v }
  else if arg = "--prompt-file".toList then
    argv_incr argv i fun j v =>
      let prompt := params.prompt ++ read_file v
      match prompt.getLast? with
      | none => .stop .undefined
      | some c =>
        .next j { params with
          prompt := if c = Char.ofNat 10 then prompt.dropLast else prompt }
  else if arg = "--session".toList then
    argv_incr argv i fun j v => .next j { params with path_session := v }
  else .stop (.unknown_argument arg)

/-- Lines 157-240 of talk-llama.cpp: `for (int i = 1; i < argc; i++)` from the index `i` on,
`argc` being the length of `argv`.  Every pass raises `i`, so that a fuel of `argc` passes is
never used up before `i` reaches `argc`. -/
def whisper_params_parse_loop {F : Type} (stof : CppString → Option F)
    (read_file : CppString → CppString) (argv : List CppString) :
    Nat → Nat → whisper_params F → ParseResult (whisper_params F)
  | 0, _, params => .ok params
  | fuel + 1, i, params =>
    match argv[i]? with
    | none => .ok params
    | some arg =>
      match whisper_params_parse_arg stof read_file argv i arg params with
      | .next j params1 => whisper_params_parse_loop stof read_file argv fuel (j + 1) params1
      | .stop r => r

/-- Lines 156-243 of talk-llama.cpp: `whisper_params_parse(argc, argv, params)`. -/
def whisper_params_parse {F : Type} (stof : CppString → Option F)
    (read_file : CppString → CppString) (argv : List CppString) (params : whisper_params F) :
    ParseResult (whisper_params F) :=
  whisper_params_parse_loop stof read_file argv argv.length 1 params

/-- Lines 250-318 of talk-llama.cpp: the option lines that `whisper_print_usage` prints, in
order. -/
def whisper_print_usage : List UsageLine :=
  [ usage_line [("-h", ""), ("--help", "")] "",
    usage_line [("-t", "N"), ("--threads", "N")] "n_threads",
    usage_line [("-p", "N"), ("--processors", "N")] "n_processors",
    usage_line [("-ot", "N"), ("--offset-t", "N")] "offset_t_ms",
    usage_line [("-on", "N"), ("--offset-n", "N")] "offset_n",
    usage_line [("-d", "N"), ("--duration", "N")] "duration_ms",
    usage_line [("-mc", "N"), ("--max-context", "N")] "max_context",
    usage_line [("-ml", "N"), ("--max-len", "N")] "max_len",
    usage_line [("-sow", ""), ("--split-on-word", "")] "split_on_word",
    usage_line [("-bo", "N"), ("--best-of", "N")] "best_of",
    usage_line [("-bs", "N"), ("--beam-size", "N")] "beam_size",
    usage_line [("-ac", "N"), ("--audio-ctx", "N")] "audio_ctx",
    usage_line [("-c", "ID"), ("--capture", "ID")] "capture_id",
    usage_line [("-ngl", "N"), ("--n-gpu-layers", "N")] "n_gpu_layers",
    usage_line [("-vth", "N"), ("--vad-thold", "N")] "vad_thold",
    usage_line [("-fth", "N"), ("--freq-thold", "N")] "freq_thold",
    usage_line [("-wt", "N"), ("--word-thold", "N")] "word_thold",
    usage_line [("-et", "N"), ("--entropy-thold", "N")] "entropy_thold",
    usage_line [("-lpt", "N"), ("--logprob-thold", "N")] "logprob_thold",
    usage_line [("-nth", "N"), ("--no-speech-thold", "N")] "no_speech_thold",
    usage_line [("-tp", ""), ("--temperature", "N")] "temperature",
    usage_line [("-tpi", ""), ("--temperature-inc", "N")] "temperature_inc",
    usage_line [("-pe", ""), ("--print-energy", "")] "print_energy",
    usage_line [("-vp", ""), ("--verbose-prompt", "")] "verbose_prompt",
    usage_line [("-debug", ""), ("--debug-mode", "")] "debug_mode",
    usage_line [("-tr", ""), ("--translate", "")] "translate",
    usage_line [("-di", ""), ("--diarize", "")] "diarize",
    usage_line [("-tdrz", ""), ("--tinydiarize", "")] "tinydiarize",
    usage_line [("-nf", ""), ("--no-fallback", "")] "no_fallback",
    usage_line [("-fp", ""), ("--font-path", "")] "font_path",
    usage_line [("-of", "FNAME"), ("--output-file", "FNAME")] "",
    usage_line [("-np", ""), ("--no-prints", "")] "no_prints",
    usage_line [("-ps", ""), ("--print-special", "")] "print_special",
    usage_line [("-pc", ""), ("--print-colors", "")] "print_colors",
    usage_line [("--print-confidence", "")] "print_confidence",
    usage_line [("-pp", ""), ("--print-progress", "")] "print_progress",
    usage_line [("-nt", ""), ("--no-timestamps", "")] "no_timestamps",
    usage_line [("-l", "LANG"), ("--language", "LANG")] "language",
    usage_line [("-dl", ""), ("--detect-language", "")] "detect_language",
    usage_line [("--prompt", "PROMPT")] "prompt",
    usage_line [("-f", "FNAME"), ("--file", "FNAME")] "",
    usage_line [("-oved", "D"), ("--ov-e-device", "DNAME")] "openvino_encode_device",
    usage_line [("-ls", ""), ("--log-score", "")] "log_score",
    usage_line [("-ng", ""), ("--no-gpu", "")] "use_gpu",
    usage_line [("-fa", ""), ("--flash-attn", "")] "flash_attn",
    usage_line [("-sns", ""), ("--suppress-nst", "")] "suppress_nst",
    usage_line [("--suppress-regex", "REGEX")] "suppress_regex",
    usage_line [("--grammar", "GRAMMAR")] "grammar",
    usage_line [("--grammar-rule", "RULE")] "grammar_rule",
    usage_line [("--grammar-penalty", "N")] "grammar_penalty",
    usage_line [("--vad", "")] "vad",
    usage_line [("-vm", "FNAME"), ("--vad-model", "FNAME")] "vad_model",
    usage_line [("-vt", "N"), ("--vad-threshold", "N")] "vad_threshold",
    usage_line [("-vspd", "N"), ("--vad-min-speech-duration-ms", "N")]
      "vad_min_speech_duration_ms",
    usage_line [("-vsd", "N"), ("--vad-min-silence-duration-ms", "N")]
      "vad_min_silence_duration_ms",
    usage_line [("-vmsd", "N"), ("--vad-max-speech-duration-s", "N")] "vad_max_speech_duration_s",
    usage_line [("-vp", "N"), ("--vad-speech-pad-ms", "N")] "vad_speech_pad_ms",
    usage_line [("-vo", "N"), ("--vad-samples-overlap", "N")] "vad_samples_overlap",
    usage_line [("-pn", "NAME"), ("--person", "NAME")] "person",
    usage_line [("-bn", "NAME"), ("--bot-name", "NAME")] "bot_name",
    usage_line [("-mw", "FILE"), ("--model-whisper", "")] "model_wsp",
    usage_line [("-mll", "FILE"), ("--model-llama", "")] "model_llama",
    usage_line [("-s", "FILE"), ("--speak", "TEXT")] "speak",
    usage_line [("-sf", "FILE"), ("--speak-file", "")] "speak_file",
    usage_line [("--prompt-file", "FNAME")] "",
    usage_line [("--session", "FNAME")] "" ]

/-! ### The command line of `examples/cli/cli.cpp` -/

namespace Cli

/-- Lines 36-111 of cli.cpp: `struct whisper_params`, without the member `grammar_parsed`. -/
structure whisper_params (F : Type) where
  n_threads : Int
  n_processors : Int
  offset_t_ms : Int
  offset_n : Int
  duration_ms : Int
  progress_step : Int
  max_context : Int
  max_len : Int
  best_of : Int
  beam_size : Int
  command_ms : Int
  buffer_ms : Int
  keep_ms : Int
  capture_id : Int
  audio_ctx : Int
  vad_thold : F
  freq_thold : F
  word_thold : F
  entropy_thold : F
  logprob_thold : F
  no_speech_thold : F
  grammar_penalty : F
  temperature : F
  temperature_inc : F
  debug_mode : Bool
  translate : Bool
  detect_language : Bool
  diarize : Bool
  tinydiarize : Bool
  split_on_word : Bool
  no_fallback : Bool
  no_prints : Bool
  print_special : Bool
  print_colors : Bool
  print_confidence : Bool
  print_progress : Bool
  no_timestamps : Bool
  log_score : Bool
  use_gpu : Bool
  flash_attn : Bool
  suppress_nst : Bool
  print_energy : Bool
  language : CppString
  prompt : CppString
  font_path : CppString
  model : CppString
  grammar : CppString
  grammar_rule : CppString
  tdrz_speaker_turn : CppString
  suppress_regex : CppString
  openvino_encode_device : CppString
  vad : Bool
  vad_model : CppString
  vad_threshold : F
  vad_min_speech_duration_ms : Int
  vad_min_silence_duration_ms : Int
  vad_max_speech_duration_s : F
  vad_speech_pad_ms : Int
  vad_samples_overlap : F

/-- Lines 130-192 of cli.cpp: the body of the loop of `whisper_params_parse` for the argument
`arg = argv[i]`. -/
def whisper_params_parse_arg {F : Type} (stof : CppString → Option F)
    (argv : List CppString) (i : Nat) (arg : CppString)
    (params : whisper_params F) : ArgResult (whisper_params F) :=
  if arg = "-h".toList ∨ arg = "--help".toList then .stop .help
  else if arg = "-t".toList ∨ arg = "--threads".toList then
    ARGV_NEXT argv i arg fun j v =>
      with_stoi v fun n => .next j { params with n_threads := n }
  else if arg = "-p".toList ∨ arg = "--processors".toList then
    ARGV_NEXT argv i arg fun j v =>
      with_stoi v fun n => .next j { params with n_processors := n }
  else if arg = "-ot".toList ∨ arg = "--offset-t".toList then
    ARGV_NEXT argv i arg fun j v =>
      with_stoi v fun n => .next j { params with offset_t_ms := n }
  else if arg = "-on".toList ∨ arg = "--offset-n".toList then
    ARGV_NEXT argv i arg fun j v =>
      with_stoi v fun n => .next j { params with offset_n := n }
  else if arg = "-d".toList ∨ arg = "--duration".toList then
    ARGV_NEXT argv i arg fun j v =>
      with_stoi v fun n => .next j { params with duration_ms := n }
  else if arg = "-mc".toList ∨ arg = "--max-context".toList then
    ARGV_NEXT argv i arg fun j v =>
      with_stoi v fun n => .next j { params with max_context := n }
  else if arg = "-ml".toList ∨ arg = "--max-len".toList then
    ARGV_NEXT argv i arg fun j v =>
      with_stoi v fun n => .next j { params with max_len := n }
  else if arg = "-bo".toList ∨ arg = "--best-of".toList then
    ARGV_NEXT argv i arg fun j v =>
      with_stoi v fun n => .next j { params with best_of := n }
  else if arg = "-bs".toList ∨ arg = "--beam-size".toList then
    ARGV_NEXT argv i arg fun j v =>
      with_stoi v fun n => .next j { params with beam_size := n }
  else if arg = "-ac".toList ∨ arg = "--audio-ctx".toList then
    ARGV_NEXT argv i arg fun j v =>
      with_stoi v fun n => .next j { params with audio_ctx := n }
  else if arg = "-wt".toList ∨ arg = "--word-thold".toList then
    ARGV_NEXT argv i arg fun j v =>
      with_stof stof v fun x => .next j { params with word_thold := x }
  else if arg = "-et".toList ∨ arg = "--entropy-thold".toList then
    ARGV_NEXT argv i arg fun j v =>
      with_stof stof v fun x => .next j { params with entropy_thold := x }
  else if arg = "-lpt".toList ∨ arg = "--logprob-thold".toList then
    ARGV_NEXT argv i arg fun j v =>
      with_stof stof v fun x => .next j { params with logprob_thold := x }
  else if arg = "-nth".toList ∨ arg = "--no-speech-thold".toList then
    ARGV_NEXT argv i arg fun j v =>
      with_stof stof v fun x => .next j { params with no_speech_thold := x }
  else if arg = "-tp".toList ∨ arg = "--temperature".toList then
    ARGV_NEXT argv i arg fun j v =>
      with_stof stof v fun x => .next j { params with temperature := x }
  else if arg = "-tpi".toList ∨ arg = "--temperature-inc".toList then
    ARGV_NEXT argv i arg fun j v =>
      with_stof stof v fun x => .next j { params with temperature_inc := x }
  else if arg = "-debug".toList ∨ arg = "--debug-mode".toList then
    .next i { params with debug_mode := true }
  else if arg = "-tr".toList ∨ arg = "--translate".toList then
    .next i { params with translate := true }
  else if arg = "-di".toList ∨ arg = "--diarize".toList then
    .next i { params with diarize := true }
  else if arg = "-tdrz".toList ∨ arg = "--tinydiarize".toList then
    .next i { params with tinydiarize := true }
  else if arg = "-sow".toList ∨ arg = "--split-on-word".toList then
    .next i { params with split_on_word := true }
  else if arg = "-nf".toList ∨ arg = "--no-fallback".toList then
    .next i { params with no_fallback := true }
  else if arg = "-fp".toList ∨ arg = "--font-path".toList then
    ARGV_NEXT argv i arg fun j v => .next j { params with font_path := v }
  else if arg = "-np".toList ∨ arg = "--no-prints".toList then
    .next i { params with no_prints := true }
  else if arg = "-ps".toList ∨ arg = "--print-special".toList then
    .next i { params with print_special := true }
  else if arg = "-pc".toList ∨ arg = "--print-colors".toList then
    .next i { params with print_colors := true }
  else if arg = "--print-confidence".toList then
    .next i { params with print_confidence := true }
  else if arg = "-pp".toList ∨ arg = "--print-progress".toList then
    .next i { params with print_progress := true }
  else if arg = "-nt".toList ∨ arg = "--no-timestamps".toList then
    .next i { params with no_timestamps := true }
  else if arg = "-l".toList ∨ arg = "--language".toList then
    ARGV_NEXT argv i arg fun j v =>
      .next j { params with language := whisper_param_turn_lowercase v }
  else if arg = "-dl".toList ∨ arg = "--detect-language".toList then
    .next i { params with detect_language := true }
  else if arg = "--prompt".toList then
    ARGV_NEXT argv i arg fun j v => .next j { params with prompt := v }
  else if arg = "-m".toList ∨ arg = "--model".toList then
    ARGV_NEXT argv i arg fun j v => .next j { params with model := v }
  else if arg = "-oved".toList ∨ arg = "--ov-e-device".toList then
    ARGV_NEXT argv i arg fun j v => .next j { params with openvino_encode_device := v }
  else if arg = "-ls".toList ∨ arg = "--log-score".toList then
    .next i { params with log_score := true }
  else if arg = "-ng".toList ∨ arg = "--no-gpu".toList then
    .next i { params with use_gpu := false }
  else if arg = "-fa".toList ∨ arg = "--flash-attn".toList then
    .next i { params with flash_attn := true }
  else if arg = "-sns".toList ∨ arg = "--suppress-nst".toList then
    .next i { params with suppress_nst := true }
  else if arg = "--suppress-regex".toList then
    ARGV_NEXT argv i arg fun j v => .next j { params with suppress_regex := v }
  else if arg = "--grammar".toList then
    ARGV_NEXT argv i arg fun j v => .next j { params with grammar := v }
  else if arg = "--grammar-rule".toList then
    ARGV_NEXT argv i arg fun j v => .next j { params with grammar_rule := v }
  else if arg = "--grammar-penalty".toList then
    ARGV_NEXT argv i arg fun j v =>
      with_stof stof v fun x => .next j { params with grammar_penalty := x }
  else if arg = "--vad".toList then
    .next i { params with vad := true }
  else if arg = "-vm".toList ∨ arg = "--vad-model".toList then
    ARGV_NEXT argv i arg fun j v => .next j { params with vad_model := v }
  else if arg = "-vt".toList ∨ arg = "--vad-threshold".toList then
    ARGV_NEXT argv i arg fun j v =>
      with_stof stof v fun x => .next j { params with vad_threshold := x }
  else if arg = "-vsd".toList ∨ arg = "--vad-min-speech-duration-ms".toList then
    ARGV_NEXT argv i arg fun j v =>
      with_stoi v fun n => .next j { params with vad_min_speech_duration_ms := n }
  else if arg = "-vsd".toList ∨ arg = "--vad-min-silence-duration-ms".toList then
    ARGV_NEXT argv i arg fun j v =>
      with_stoi v fun n => .next j { params with vad_min_speech_duration_ms := n }
  else if arg = "-vmsd".toList ∨ arg = "--vad-max-speech-duration-s".toList then
    ARGV_NEXT argv i arg fun j v =>
      with_stof stof v fun x => .next j { params with vad_max_speech_duration_s := x }
  else if arg = "-vp".toList ∨ arg = "--vad-speech-pad-ms".toList then
    ARGV_NEXT argv i arg fun j v =>
      with_stoi v fun n => .next j { params with vad_speech_pad_ms := n }
  else if arg = "-vo".toList ∨ arg = "--vad-samples-overlap".toList then
    ARGV_NEXT argv i arg fun j v =>
      with_stof stof v fun x => .next j { params with vad_samples_overlap := x }
  else .stop (.unknown_argument arg)

/-- Lines 129-193 of cli.cpp: `for (int i = 1; i < argc; i++)` from the index `i` on. -/
def whisper_params_parse_loop {F : Type} (stof : CppString → Option F) (argv : List CppString) :
    Nat → Nat → whisper_params F → ParseResult (whisper_params F)
  | 0, _, params => .ok params
  | fuel + 1, i, params =>
    match argv[i]? with
    | none => .ok params
    | some arg =>
      match whisper_params_parse_arg stof argv i arg params with
      | .next j params1 => whisper_params_parse_loop stof argv fuel (j + 1) params1
      | .stop r => r

/-- Lines 128-196 of cli.cpp: `whisper_params_parse(argc, argv, params)`. -/
def whisper_params_parse {F : Type} (stof : CppString → Option F) (argv : List CppString)
    (params : whisper_params F) : ParseResult (whisper_params F) :=
  whisper_params_parse_loop stof argv argv.length 1 params

/-- Lines 204-260 of cli.cpp: the option lines that `whisper_print_usage` prints, in order. -/
def whisper_print_usage : List UsageLine :=
  [ usage_line [("-h", ""), ("--help", "")] "",
    usage_line [("-t", "N"), ("--threads", "N")] "n_threads",
    usage_line [("-p", "N"), ("--processors", "N")] "n_processors",
    usage_line [("-ot", "N"), ("--offset-t", "N")] "offset_t_ms",
    usage_line [("-on", "N"), ("--offset-n", "N")] "offset_n",
    usage_line [("-d", "N"), ("--duration", "N")] "duration_ms",
    usage_line [("-mc", "N"), ("--max-context", "N")] "max_context",
    usage_line [("-ml", "N"), ("--max-len", "N")] "max_len",
    usage_line [("-sow", ""), ("--split-on-word", "")] "split_on_word",
    usage_line [("-bo", "N"), ("--best-of", "N")] "best_of",
    usage_line [("-bs", "N"), ("--beam-size", "N")] "beam_size",
    usage_line [("-ac", "N"), ("--audio-ctx", "N")] "audio_ctx",
    usage_line [("-wt", "N"), ("--word-thold", "N")] "word_thold",
    usage_line [("-et", "N"), ("--entropy-thold", "N")] "entropy_thold",
    usage_line [("-lpt", "N"), ("--logprob-thold", "N")] "logprob_thold",
    usage_line [("-nth", "N"), ("--no-speech-thold", "N")] "no_speech_thold",
    usage_line [("-tp", ""), ("--temperature", "N")] "temperature",
    usage_line [("-tpi", ""), ("--temperature-inc", "N")] "temperature_inc",
    usage_line [("-debug", ""), ("--debug-mode", "")] "debug_mode",
    usage_line [("-tr", ""), ("--translate", "")] "translate",
    usage_line [("-di", ""), ("--diarize", "")] "diarize",
    usage_line [("-tdrz", ""), ("--tinydiarize", "")] "tinydiarize",
    usage_line [("-nf", ""), ("--no-fallback", "")] "no_fallback",
    usage_line [("-fp", ""), ("--font-path", "")] "font_path",
    usage_line [("-of", "FNAME"), ("--output-file", "FNAME")] "",
    usage_line [("-np", ""), ("--no-prints", "")] "no_prints",
    usage_line [("-ps", ""), ("--print-special", "")] "print_special",
    usage_line [("-pc", ""), ("--print-colors", "")] "print_colors",
    usage_line [("--print-confidence", "")] "print_confidence",
    usage_line [("-pp", ""), ("--print-progress", "")] "print_progress",
    usage_line [("-nt", ""), ("--no-timestamps", "")] "no_timestamps",
    usage_line [("-l", "LANG"), ("--language", "LANG")] "language",
    usage_line [("-dl", ""), ("--detect-language", "")] "detect_language",
    usage_line [("--prompt", "PROMPT")] "prompt",
    usage_line [("-m", "FNAME"), ("--model", "FNAME")] "model",
    usage_line [("-f", "FNAME"), ("--file", "FNAME")] "",
    usage_line [("-oved", "D"), ("--ov-e-device", "DNAME")] "openvino_encode_device",
    usage_line [("-ls", ""), ("--log-score", "")] "log_score",
    usage_line [("-ng", ""), ("--no-gpu", "")] "use_gpu",
    usage_line [("-fa", ""), ("--flash-attn", "")] "flash_attn",
    usage_line [("-sns", ""), ("--suppress-nst", "")] "suppress_nst",
    usage_line [("--suppress-regex", "REGEX")] "suppress_regex",
    usage_line [("--grammar", "GRAMMAR")] "grammar",
    usage_line [("--grammar-rule", "RULE")] "grammar_rule",
    usage_line [("--grammar-penalty", "N")] "grammar_penalty",
    usage_line [("--vad", "")] "vad",
    usage_line [("-vm", "FNAME"), ("--vad-model", "FNAME")] "vad_model",
    usage_line [("-vt", "N"), ("--vad-threshold", "N")] "vad_threshold",
    usage_line [("-vspd", "N"), ("--vad-min-speech-duration-ms", "N")]
      "vad_min_speech_duration_ms",
    usage_line [("-vsd", "N"), ("--vad-min-silence-duration-ms", "N")]
      "vad_min_silence_duration_ms",
    usage_line [("-vmsd", "N"), ("--vad-max-speech-duration-s", "N")] "vad_max_speech_duration_s",
    usage_line [("-vp", "N"), ("--vad-speech-pad-ms", "N")] "vad_speech_pad_ms",
    usage_line [("-vo", "N"), ("--vad-samples-overlap", "N")] "vad_samples_overlap" ]

end Cli

/-! ## The session file -/

/-- Modelled from the spec: the session file, "a raw sequence of fixed-width token identifiers
plus a count" (§6). -/
structure SessionFile where
  count : Nat
  payload : List Token
deriving DecidableEq, Repr

/-- Modelled from the spec: the durable storage, the session file found at each path, if any. -/
abbrev Storage := CppString → Option SessionFile

/-- A storage without files. -/
def empty_storage : Storage := fun _ => none

/-- Modelled from the spec: `save(path, tokens)`, which "overwrites the file" with the tokens and
their count (§4.3).  It stands for `llama_state_save_file(ctx, path, tokens, n_token_count)` of
line 949, whose body is not part of these sources; the model state that the file holds besides
the tokens is left out. -/
def llama_state_save_file (disk : Storage) (path : CppString) (tokens : List Token) : Storage :=
  fun p => if p = path then some { count := tokens.length, payload := tokens } else disk p

/-- Modelled from the spec: `load(path) -> (tokens, count)`, which fails when the file is absent,
"when the stored token count does not match the readable payload length" (§4.3) and when the
"count exceeds capacity" (§6).  It stands for `llama_state_load_file(ctx, path, tokens_out,
n_token_capacity, n_token_count_out)` of line 695, whose body is not part of these sources;
`none` is the answer `false`. -/
def llama_state_load_file (disk : Storage) (path : CppString) (n_token_capacity : Nat) :
    Option (List Token × Nat) :=
  match disk path with
  | none => none
  | some file =>
    if file.count = file.payload.length ∧ file.count ≤ n_token_capacity then
      some (file.payload, file.count)
    else none

/-- The answers of lines 689-699 when the files are those of `disk`: `fopen` finds the file that
is there, and the vector handed to `llama_state_load_file` was resized to `n_ctx` tokens
(line 693) and is cut to the count that was read (line 699). -/
def start_from (disk : Storage) (n_ctx : Nat) (path : CppString) (prompt : List Token) :
    StartInput :=
  start_ok path prompt (disk path).isSome ((llama_state_load_file disk path n_ctx).map Prod.fst)

/-- A recognizer output with a bracketed and a parenthesized span, a second line and white space
at both ends. -/
def noisy_transcript : CppString := " [noise] Hello, (cough) world!\n bye ".toList

/-- The answers of a pass in which the decode succeeds and the end-of-sequence token of
`env_bob` is drawn. -/
def eos_input : IterInput := { decode_fails := false, id := 2, poll := true }

/-- The start of a Turn after a prompt of four tokens, without session file, with a transcript
of one token. -/
def short_history_start : TurnState := turn_start [50] [50] (init_state [] [] [1, 2, 3, 4])

/-- A session file holding five tokens and a prompt that tokenizes to four. -/
def long_session_start : StartInput := start_ok ['s'] [1, 2, 3, 4] true (some [1, 2, 3, 4, 5])

/-- A token sequence one token longer than the context of 2048 tokens. -/
def oversized_session : List Token := List.replicate 2049 1

/-- The body of the loop ends with an index that is not below the one it started with. -/
def Advances {P : Type} (i : Nat) (r : ArgResult P) : Prop :=
  ∀ j params, r = .next j params → i ≤ j

/-- The pass of `bob_turn` with `stdin` open and silent: no word and no end. -/
def waiting_turn : LoopInput := { bob_turn with stdin_eof := false }

/-- A pass of the main loop whose Turn samples the piece `" bye"` in its first pass and the
end-of-sequence token of `env_bob` in its second. -/
def eos_turn : LoopInput :=
  { bob_turn with
    passes := [ { decode_fails := false, id := 44, poll := true }, eos_input ] }

/-- The calls to the collaborators that an outcome of `main` has made, when it has one. -/
def calls : MainResult → Option (List Event)
  | .running s => some s.log
  | .exit _ log => some log
  | .pending s => some s.log
  | .blocked s => some s.log
  | .undefined => none

/-- A vocabulary whose pieces spell: `"hi"` (60), `" hi"` (61), the line feed (62), `"Aura"` (63),
`":"` (64), `"Bob"` (65) and `" la"` (70); every other token has an empty text.  The person is
`Bob`, `n_ctx` is the 2048 of line 477, `n_prev` the 64 of line 769 and `n_keep` the length of a
prompt of sixteen tokens. -/
def env_aura : Env where
  n_keep := 16
  n_ctx := 2048
  n_prev := 64
  person := "Bob".toList
  token_to_piece := fun t =>
    if t = 60 then "hi".toList
    else if t = 61 then " hi".toList
    else if t = 62 then [Char.ofNat 10]
    else if t = 63 then "Aura".toList
    else if t = 64 then ":".toList
    else if t = 65 then "Bob".toList
    else if t = 70 then " la".toList
    else []
  eos := 2

/-- The answers of a pass in which the decode succeeds, the token `id` is drawn and nothing is
cancelled. -/
def draws (id : Token) : IterInput := { decode_fails := false, id := id, poll := true }

/-- A pass of the main loop in which `hi` is heard, with bot name `Aura`: the cleaned transcript
`"hi"` has the token `[60]` and the decorated one, `" hi\nAura:"`, the tokens `[61, 62, 63, 64]`;
`stdin` is at its end, and the first pass of the generation loop draws `" la"`. -/
def hi_turn : LoopInput where
  poll := true
  vad := true
  wsp_ok := true
  text := "hi".toList
  tokens := [60]
  stdin_words := []
  stdin_eof := true
  embd := [61, 62, 63, 64]
  passes := [draws 70]

/-- The reply of the model in the first Turn of the conversation of C10, 2026 tokens: 1962 times
`" la"`, then `"hi"`, 61 times `" la"`, and `"Bob"`, `":"`, which ends the Turn. -/
def long_reply : List Token :=
  List.replicate 1962 70 ++ (60 :: List.replicate 61 70) ++ [65, 64]

/-- The first pass of the main loop in the conversation of C10: `hi` is heard as in `hi_turn`,
each token of `long_reply` is drawn in a pass of its own, and one more pass evaluates the last
token and leaves the generation loop. -/
def long_turn : LoopInput := { hi_turn with passes := long_reply.map draws ++ [draws 0] }

/-- A state of the generation loop in the middle of a reply, as the passes of `long_turn` keep
it: `done` is unset, one sampled token is pending, every token of the history has been
evaluated, the session path is in use with the cursor at the end of the cache, and nothing has
been cancelled. -/
def replying (s : TurnState) : Prop :=
  s.done = false ∧ s.embd.length = 1 ∧ s.n_past = s.embd_inp.length ∧
    s.n_session_consumed = s.session_tokens.length ∧ s.path_session = ['s'] ∧
    16 ≤ s.embd_inp.length ∧ s.is_running = true

/-! ## Lemmas on the longest common prefix -/

theorem lcp_len_nil_right (l : List Token) : lcp_len l [] = 0 := by
  cases l <;> rfl

theorem lcp_len_comm (l m : List Token) : lcp_len l m = lcp_len m l := by
  induction l generalizing m with
  | nil => cases m <;> rfl
  | cons a as ih =>
    cases m with
    | nil => rfl
    | cons b bs =>
      by_cases h : a = b
      · subst h; simp [lcp_len, ih bs]
      · have h2 : ¬ b = a := fun e => h e.symm
        simp [lcp_len, h, h2]

theorem lcp_len_le_left (l m : List Token) : lcp_len l m ≤ l.length := by
  induction l generalizing m with
  | nil => simp [lcp_len]
  | cons a as ih =>
    cases m with
    | nil => simp [lcp_len]
    | cons b bs =>
      by_cases h : a = b
      · have := ih bs
        simp [lcp_len, h]; omega
      · simp [lcp_len, h]

theorem lcp_len_le_right (l m : List Token) : lcp_len l m ≤ m.length := by
  rw [lcp_len_comm]; exact lcp_len_le_left m l

/-- No longer common prefix exists. -/
theorem lcp_len_maximal (l m : List Token) (k : Nat) (hl : k ≤ l.length) (hm : k ≤ m.length)
    (h : l.take k = m.take k) : k ≤ lcp_len l m := by
  induction l generalizing m k with
  | nil => simp at hl; omega
  | cons a as ih =>
    cases m with
    | nil => simp at hm; omega
    | cons b bs =>
      cases k with
      | zero => omega
      | succ k =>
        simp only [List.take_succ_cons, List.cons.injEq] at h
        simp only [List.length_cons] at hl hm
        have := ih bs k (by omega) (by omega) h.2
        simp [lcp_len, h.1]
        omega

/-! ## Session-prefix reuse -/

theorem resize_of_le (v : List Token) (n : Nat) (h : n ≤ v.length) : resize v n = v.take n := by
  simp [resize, Nat.sub_eq_zero_of_le h]

theorem reconcile_loop_eq (rest : List Token) (i : Nat) (sess : List Token) (np nc : Nat)
    (h : nc < sess.length) :
    reconcile_loop rest i sess np nc =
      some (i + lcp_len rest (sess.drop nc),
        (if lcp_len rest (sess.drop nc) < rest.length ∧
            nc + lcp_len rest (sess.drop nc) < sess.length
          then sess.take (nc + lcp_len rest (sess.drop nc)) else sess),
        np + lcp_len rest (sess.drop nc), nc + lcp_len rest (sess.drop nc)) := by
  induction rest generalizing i np nc with
  | nil => simp [reconcile_loop, lcp_len]
  | cons e r ih =>
    have hd : sess.drop nc = sess[nc] :: sess.drop (nc + 1) := List.drop_eq_getElem_cons h
    have hg : sess[nc]? = some sess[nc] := List.getElem?_eq_getElem h
    rw [hd]
    by_cases he : e = sess[nc]
    · by_cases hlast : nc + 1 ≥ sess.length
      · have hnil : sess.drop (nc + 1) = [] := List.drop_eq_nil_of_le hlast
        have hn : ¬ (nc + 1 < sess.length) := by omega
        simp [reconcile_loop, hg, lcp_len, he, hnil, lcp_len_nil_right, hlast, hn]
      · have hlt : nc + 1 < sess.length := by omega
        have e1 : nc + 1 + lcp_len r (sess.drop (nc + 1))
            = nc + (lcp_len r (sess.drop (nc + 1)) + 1) := by omega
        have e2 : i + 1 + lcp_len r (sess.drop (nc + 1))
            = i + (lcp_len r (sess.drop (nc + 1)) + 1) := by omega
        have e3 : np + 1 + lcp_len r (sess.drop (nc + 1))
            = np + (lcp_len r (sess.drop (nc + 1)) + 1) := by omega
        simp [reconcile_loop, hg, lcp_len, he, hlast, ih (i + 1) (np + 1) (nc + 1) hlt, e1, e2, e3]
    · simp [reconcile_loop, hg, lcp_len, he, resize_of_le sess nc (le_of_lt h), h]

/-- Closed form of the reuse step, with `L` the length of the longest common prefix of the
pending tokens and the unconsumed part of the cache. -/
theorem reconcile_with_cache_eq (s : TurnState) :
    reconcile_with_cache s = some { s with
      embd := s.embd.drop (lcp_len s.embd (s.session_tokens.drop s.n_session_consumed))
      session_tokens :=
        if lcp_len s.embd (s.session_tokens.drop s.n_session_consumed) < s.embd.length ∧
            s.n_session_consumed + lcp_len s.embd (s.session_tokens.drop s.n_session_consumed)
              < s.session_tokens.length
        then s.session_tokens.take
          (s.n_session_consumed + lcp_len s.embd (s.session_tokens.drop s.n_session_consumed))
        else s.session_tokens
      n_past := s.n_past + lcp_len s.embd (s.session_tokens.drop s.n_session_consumed)
      n_session_consumed :=
        s.n_session_consumed + lcp_len s.embd (s.session_tokens.drop s.n_session_consumed) } := by
  unfold reconcile_with_cache
  by_cases h : s.n_session_consumed < s.session_tokens.length
  · rw [if_pos h, reconcile_loop_eq _ _ _ _ _ h]
    simp only [Nat.zero_add]
    by_cases h0 : lcp_len s.embd (s.session_tokens.drop s.n_session_consumed) > 0
    · simp [h0]
    · have h1 : lcp_len s.embd (s.session_tokens.drop s.n_session_consumed) = 0 := by omega
      simp [h1]
  · rw [if_neg h]
    have hnil : s.session_tokens.drop s.n_session_consumed = [] :=
      List.drop_eq_nil_of_le (by omega)
    have hn : ¬ (s.n_session_consumed < s.session_tokens.length) := h
    simp [hnil, lcp_len_nil_right, hn]

/-! ## C1-C2: the reuse step -/

/-- C1: for every cache, cursor, pending batch and position counter, the reuse step returns,
moves `n_session_consumed` and `n_past` forward by exactly `L`, the length of the longest common
prefix of the pending batch and the unconsumed part of the cache, and leaves the suffix of the
pending batch from index `L` on as the batch to evaluate; with the cursor at `0`,
`n_session_consumed` becomes the length of the longest common prefix of the cache and the
batch. -/
theorem reconcile_advances_by_lcp (s : TurnState) :
    ∃ s1, reconcile_with_cache s = some s1 ∧
      s1.n_session_consumed =
        s.n_session_consumed + lcp_len s.embd (s.session_tokens.drop s.n_session_consumed) ∧
      s1.n_past = s.n_past + lcp_len s.embd (s.session_tokens.drop s.n_session_consumed) ∧
      s1.embd = s.embd.drop (lcp_len s.embd (s.session_tokens.drop s.n_session_consumed)) ∧
      (s.n_session_consumed = 0 → s1.n_session_consumed = lcp_len s.session_tokens s.embd) := by
  refine ⟨_, reconcile_with_cache_eq s, rfl, rfl, rfl, ?_⟩
  intro h0
  simp [h0, lcp_len_comm s.embd s.session_tokens]

/-- C2: with `L` as in C1, when the pending token at index `L` and the cache token at index
`n_session_consumed + L` both exist and differ, the cache is cut to its first
`n_session_consumed + L` tokens and the cursor stops there; when the pending batch or the
unconsumed cache is used up first, the cache is unchanged. -/
theorem reconcile_truncates_on_mismatch (s : TurnState) :
    ∃ s1, reconcile_with_cache s = some s1 ∧
      ((∃ p c, s.embd[lcp_len s.embd (s.session_tokens.drop s.n_session_consumed)]? = some p ∧
          s.session_tokens[s.n_session_consumed +
            lcp_len s.embd (s.session_tokens.drop s.n_session_consumed)]? = some c ∧ p ≠ c) →
        s1.session_tokens = s.session_tokens.take
          (s.n_session_consumed + lcp_len s.embd (s.session_tokens.drop s.n_session_consumed)) ∧
        s1.n_session_consumed = s1.session_tokens.length) ∧
      ((s.embd.length ≤ lcp_len s.embd (s.session_tokens.drop s.n_session_consumed) ∨
          s.session_tokens.length ≤ s.n_session_consumed +
            lcp_len s.embd (s.session_tokens.drop s.n_session_consumed)) →
        s1.session_tokens = s.session_tokens) := by
  refine ⟨_, reconcile_with_cache_eq s, ?_, ?_⟩
  · rintro ⟨p, c, hp, hc, -⟩
    have h1 := (List.getElem?_eq_some_iff.mp hp).1
    have h2 := (List.getElem?_eq_some_iff.mp hc).1
    simp only [h1, h2, and_self, if_true]
    simp [List.length_take]
    omega
  · intro h
    have hn : ¬ (lcp_len s.embd (s.session_tokens.drop s.n_session_consumed) < s.embd.length ∧
        s.n_session_consumed + lcp_len s.embd (s.session_tokens.drop s.n_session_consumed)
          < s.session_tokens.length) := by omega
    simp only [hn, if_false]

/-- An instance of C1: cache `[1,2,3,4]`, cursor `0`, pending `[1,2,3,9]`; the longest common
prefix has length 3. -/
theorem reconcile_advances_by_lcp_witness :
    (∃ s1, reconcile_with_cache reconcile_scenario = some s1 ∧
      s1.n_session_consumed = 0 + 3 ∧ s1.n_past = 0 + 3 ∧ s1.embd = [9] ∧
      (reconcile_scenario.n_session_consumed = 0 → s1.n_session_consumed = 3)) ∧
    lcp_len [1, 2, 3, 4] [1, 2, 3, 9] = 3 :=
  ⟨reconcile_advances_by_lcp reconcile_scenario, by decide⟩

/-- The scenario of C2: cache `[1,2,3,4]`, cursor `0`, pending `[1,2,3,9]` give
`n_session_consumed = 3`, residual `[9]` and cache `[1,2,3]`. -/
theorem reconcile_truncates_on_mismatch_witness :
    (∃ s1, reconcile_with_cache reconcile_scenario = some s1 ∧
      s1.session_tokens = [1, 2, 3] ∧ s1.n_session_consumed = s1.session_tokens.length) ∧
    reconcile_with_cache reconcile_scenario =
      some { reconcile_scenario with
        embd := [9], session_tokens := [1, 2, 3], n_past := 3, n_session_consumed := 3 } := by
  obtain ⟨s1, h, hcut, -⟩ := reconcile_truncates_on_mismatch reconcile_scenario
  exact ⟨⟨s1, h, hcut ⟨9, 4, by decide, by decide, by decide⟩⟩, by decide⟩

/-! ## C3: the overflow step -/

/-- C3: in every state with `n_past + len(embd) > n_ctx` and at least `n_prev` tokens of history,
the overflow step returns with `n_past = n_keep`, the pending batch is the last `n_prev` tokens
of the history followed by the original pending tokens (length `n_prev` plus the original
length), and the history, so also its first `n_keep` tokens, is the same as before. -/
theorem overflow_eviction (env : Env) (s : TurnState)
    (hover : s.n_past + s.embd.length > env.n_ctx) (hprev : env.n_prev ≤ s.embd_inp.length) :
    ∃ s1, prepare_for_overflow env s = some s1 ∧ s1.n_past = env.n_keep ∧
      (∃ older tail, s.embd_inp = older ++ tail ∧ tail.length = env.n_prev ∧
        s1.embd = tail ++ s.embd) ∧
      s1.embd.length = env.n_prev + s.embd.length ∧
      s1.embd_inp = s.embd_inp ∧
      s1.embd_inp.take env.n_keep = s.embd_inp.take env.n_keep := by
  have h : prepare_for_overflow env s = some { s with
      n_past := env.n_keep
      embd := s.embd_inp.drop (s.embd_inp.length - env.n_prev) ++ s.embd
      path_session := [] } := by
    simp [prepare_for_overflow, hover, hprev]
  refine ⟨_, h, rfl, ?_, ?_, rfl, rfl⟩
  · refine ⟨s.embd_inp.take (s.embd_inp.length - env.n_prev),
      s.embd_inp.drop (s.embd_inp.length - env.n_prev), ?_, ?_, rfl⟩
    · exact (List.take_append_drop _ _).symm
    · simp [List.length_drop]; omega
  · simp [List.length_drop]; omega

/-- The scenario of C3: history `[10,11,12,13,14]`, `n_keep = 5`, `n_ctx = 8`, `n_prev = 2` and
five new tokens give `n_past = 5` and the pending batch `[13,14]` followed by the five new
tokens, of length 7. -/
theorem overflow_eviction_witness :
    (∃ s1, prepare_for_overflow (env_plain 5 8 2) overflow_scenario = some s1 ∧
      s1.n_past = 5 ∧
      (∃ older tail, [10, 11, 12, 13, 14] = older ++ tail ∧ tail.length = 2 ∧
        s1.embd = tail ++ [20, 21, 22, 23, 24]) ∧
      s1.embd.length = 2 + 5 ∧
      s1.embd_inp = [10, 11, 12, 13, 14] ∧
      s1.embd_inp.take 5 = [10, 11, 12, 13, 14]) ∧
    prepare_for_overflow (env_plain 5 8 2) overflow_scenario =
      some { overflow_scenario with n_past := 5, embd := [13, 14, 20, 21, 22, 23, 24] } :=
  ⟨overflow_eviction (env_plain 5 8 2) overflow_scenario (by decide) (by decide), by decide⟩

/-! ## C4: the window at a decode step -/

theorem batch_from_length (n np i : Nat) (l : List Token) :
    (batch_from n np i l).length = l.length := by
  induction l generalizing i with
  | nil => rfl
  | cons t ts ih => simp [batch_from, ih]

theorem prepare_batch_length (np : Nat) (l : List Token) :
    (prepare_batch np l).length = l.length := batch_from_length _ _ _ _

theorem long_prompt_length : long_prompt.length = 2000 := List.length_replicate _ _

/-- The decode that follows an eviction, when no session cache is in use: the batch holds the
`n_prev` spliced tokens and the pending ones, and is placed at `n_keep`. -/
theorem predict_after_eviction (env : Env) (s : TurnState) (hne : s.embd.length > 0)
    (hover : s.n_past + s.embd.length > env.n_ctx) (hprev : env.n_prev ≤ s.embd_inp.length)
    (hsess : s.session_tokens = [])
    (hcap : env.n_prev + s.embd.length ≤ env.n_ctx) :
    ∃ s1 batch, predict env false s = .ok s1 ∧ s1.log = s.log ++ [Event.decode batch] ∧
      s1.n_past = env.n_keep ∧ batch.length = env.n_prev + s.embd.length := by
  have hlen : (s.embd_inp.drop (s.embd_inp.length - env.n_prev) ++ s.embd).length
      = env.n_prev + s.embd.length := by
    simp [List.length_drop]; omega
  refine ⟨{ s with
      n_past := env.n_keep
      embd := s.embd_inp.drop (s.embd_inp.length - env.n_prev) ++ s.embd
      path_session := []
      log := s.log ++ [Event.decode (prepare_batch env.n_keep
        (s.embd_inp.drop (s.embd_inp.length - env.n_prev) ++ s.embd))] }, _, ?_, rfl, rfl, ?_⟩
  · have h1 : ¬ (env.n_ctx < env.n_prev + s.embd.length) := by omega
    have h2 : ¬ (env.n_ctx <
        s.embd_inp.length - (s.embd_inp.length - env.n_prev) + s.embd.length) := by omega
    simp [predict, prepare_for_overflow, reconcile_with_cache, commit_evaluated, decode_block,
      hne, hover, hprev, hsess, hlen, h1, h2]
  · rw [prepare_batch_length, hlen]

theorem decode_block_cases (env : Env) (fails : Bool) (s : TurnState) :
    decode_block env fails s = .undefined ∨
    (fails = false ∧ decode_block env fails s =
      .ok { s with log := s.log ++ [Event.decode (prepare_batch s.n_past s.embd)] }) ∨
    (fails = true ∧ decode_block env fails s =
      .fatal { s with log := s.log ++ [Event.decode (prepare_batch s.n_past s.embd)] }) := by
  unfold decode_block
  by_cases h : s.embd.length > env.n_ctx
  · left; simp [h]
  · cases fails <;> simp [h]

/-- The shape of a predict block that goes on: overflow step, reuse step, commit, one decode. -/
theorem predict_shape (env : Env) (fails : Bool) (s s1 : TurnState) (hne : s.embd.length > 0)
    (h : predict env fails s = .ok s1) :
    ∃ t u, prepare_for_overflow env s = some t ∧ reconcile_with_cache t = some u ∧
      s1 = { commit_evaluated u with
        log := (commit_evaluated u).log ++
          [Event.decode (prepare_batch (commit_evaluated u).n_past (commit_evaluated u).embd)] } := by
  unfold predict at h
  simp only [hne, if_true] at h
  cases h1 : prepare_for_overflow env s with
  | none => simp [h1] at h
  | some t =>
    obtain ⟨u, h2⟩ : ∃ u, reconcile_with_cache t = some u := ⟨_, reconcile_with_cache_eq t⟩
    simp only [h1, h2] at h
    refine ⟨t, u, rfl, h2, ?_⟩
    rcases decode_block_cases env fails (commit_evaluated u) with h3 | ⟨-, h3⟩ | ⟨-, h3⟩ <;>
      rw [h3] at h <;> cases h
    rfl

/-- The reuse step keeps `n_past + len(embd)` and the log. -/
theorem reconcile_window (t u : TurnState) (h : reconcile_with_cache t = some u) :
    u.n_past + u.embd.length = t.n_past + t.embd.length ∧ u.log = t.log := by
  rw [reconcile_with_cache_eq] at h
  cases h
  have hL := lcp_len_le_left t.embd (t.session_tokens.drop t.n_session_consumed)
  refine ⟨?_, rfl⟩
  simp only [List.length_drop]
  omega

theorem commit_evaluated_fields (t : TurnState) :
    (commit_evaluated t).n_past = t.n_past ∧ (commit_evaluated t).embd = t.embd ∧
      (commit_evaluated t).log = t.log := by
  unfold commit_evaluated
  split_ifs <;> exact ⟨rfl, rfl, rfl⟩

/-- The decode of a pass in which the overflow step does not fire: whatever the reuse step
skips, the batch ends at `n_past + len(embd)` as they were on entry, within `n_ctx`. -/
theorem decode_window_without_eviction (env : Env) (fails : Bool) (s s1 : TurnState)
    (hne : s.embd.length > 0) (hfit : s.n_past + s.embd.length ≤ env.n_ctx)
    (h : predict env fails s = .ok s1) :
    ∃ batch, s1.log = s.log ++ [Event.decode batch] ∧
      s1.n_past + batch.length = s.n_past + s.embd.length ∧
      s1.n_past + batch.length ≤ env.n_ctx := by
  obtain ⟨t, u, h1, h2, h3⟩ := predict_shape env fails s s1 hne h
  have hno : ¬ (s.n_past + s.embd.length > env.n_ctx) := by omega
  simp only [prepare_for_overflow, hno, if_false, Option.some.injEq] at h1
  subst h1
  obtain ⟨hw, hlog⟩ := reconcile_window _ _ h2
  obtain ⟨c1, c2, c3⟩ := commit_evaluated_fields u
  subst h3
  refine ⟨prepare_batch (commit_evaluated u).n_past (commit_evaluated u).embd, ?_, ?_, ?_⟩
  · simp only [c3, hlog]
  · simp only [prepare_batch_length, c1, c2]
    exact hw
  · simp only [prepare_batch_length, c1, c2]
    omega

/-- C4, the code at a failing input: with `n_ctx = 2048`, `n_prev = 64`, a prompt of 2000 tokens
(`n_keep = n_past = 2000`) and a transcript of 49 tokens, the overflow step fires and the one
decode of the pass gets a batch of 113 tokens at `n_past = 2000`, so that
`n_past + n_tokens = 2113` exceeds `n_ctx`. -/
theorem context_window_exceeded_after_eviction :
    ∃ s1 batch, predict (env_plain 2000 2048 64) false long_prompt_state = .ok s1 ∧
      s1.log = [Event.decode batch] ∧ s1.n_past = 2000 ∧ batch.length = 113 ∧
      ¬ (s1.n_past + batch.length ≤ (env_plain 2000 2048 64).n_ctx) := by
  obtain ⟨s1, batch, h, hlog, hp, hb⟩ := predict_after_eviction (env_plain 2000 2048 64)
    long_prompt_state (by decide)
    (by simp [long_prompt_state, init_state, env_plain, long_prompt_length])
    (by simp [long_prompt_state, init_state, env_plain, long_prompt_length])
    rfl (by decide)
  refine ⟨s1, batch, h, hlog, hp, hb, ?_⟩
  rw [hp, hb]
  decide

/-! ## The generation loop moves by atomic steps -/

/-- The predict block ends in a state reached by atomic steps, and is fatal only when
`llama_decode` fails. -/
theorem predict_reach (env : Env) (fails : Bool) (s : TurnState) :
    predict env fails s = .undefined ∨
    (∃ s1, predict env fails s = .ok s1 ∧ Reach env s s1) ∨
    (∃ s1, predict env fails s = .fatal s1 ∧ Reach env s s1 ∧ fails = true) := by
  unfold predict
  by_cases h0 : s.embd.length > 0
  · simp only [h0, if_true]
    cases h1 : prepare_for_overflow env s with
    | none => left; rfl
    | some s1 =>
      obtain ⟨s2, h2⟩ : ∃ s2, reconcile_with_cache s1 = some s2 :=
        ⟨_, reconcile_with_cache_eq s1⟩
      simp only [h2]
      have r2 : Reach env s (commit_evaluated s2) :=
        ((Relation.ReflTransGen.single (Step.overflow h1)).tail (Step.reconcile h2)).tail
          (Step.commit s2)
      rcases decode_block_cases env fails (commit_evaluated s2) with h | ⟨-, h⟩ | ⟨hf, h⟩
      · left; exact h
      · right; left; exact ⟨_, h, r2.tail (Step.decode_ok fails h)⟩
      · right; right; exact ⟨_, h, r2.tail (Step.decode_fatal fails h), hf⟩
  · right; left
    exact ⟨s, by simp [h0], Relation.ReflTransGen.refl⟩

/-- What one pass of the loop body can end in. -/
theorem iter_cases (env : Env) (inp : IterInput) (s : TurnState) :
    iter env inp s = .undefined ∨
    (∃ s1, iter env inp s = .fatal s1 ∧ Reach env s s1 ∧ inp.decode_fails = true) ∨
    (∃ s1, iter env inp s = .leave s1 ∧ Reach env s s1 ∧
      (s1.done = true ∨ s1.is_running = false)) ∨
    (∃ s1, iter env inp s = .ok s1 ∧ Reach env s s1) := by
  unfold iter
  rcases predict_reach env inp.decode_fails s with h | ⟨s1, h, r⟩ | ⟨s1, h, r, hf⟩
  · left; rw [h]
  · rw [h]
    simp only
    have r2 : Reach env s (advance s1) := r.tail (Step.advance s1)
    by_cases hd : (advance s1).done = true
    · right; right; left
      exact ⟨_, by simp [hd], r2, Or.inl hd⟩
    · simp only [hd, if_false]
      cases hc : check_stop env (sample env inp.id (save_session (advance s1))) with
      | none => left; rfl
      | some s3 =>
        have r3 : Reach env s s3 :=
          ((r2.tail (Step.save _)).tail (Step.sample inp.id _)).tail (Step.check_stop hc)
        have r4 : Reach env s { s3 with is_running := inp.poll } := r3.tail (Step.poll _ _)
        by_cases hp : inp.poll = false
        · right; right; left
          exact ⟨_, by simp [hp], r4, Or.inr hp⟩
        · right; right; right
          exact ⟨_, by simp [hp], r4⟩
  · right; left
    rw [h]
    exact ⟨s1, rfl, r, hf⟩

theorem iter_reach (env : Env) (inp : IterInput) (s s1 : TurnState)
    (h : iter env inp s = .ok s1 ∨ iter env inp s = .leave s1 ∨ iter env inp s = .fatal s1) :
    Reach env s s1 := by
  rcases iter_cases env inp s with hu | ⟨t, ht, r, -⟩ | ⟨t, ht, r, -⟩ | ⟨t, ht, r⟩ <;>
    rcases h with h | h | h <;> simp_all

/-- What the generation loop can end in, for any answers of the environment. -/
theorem generation_loop_cases (env : Env) (inps : List IterInput) (s : TurnState) :
    generation_loop env inps s = .undefined ∨
    (∃ s1, generation_loop env inps s = .fatal s1 ∧ Reach env s s1 ∧
      ∃ inp ∈ inps, inp.decode_fails = true) ∨
    (∃ s1, generation_loop env inps s = .leave s1 ∧ Reach env s s1 ∧
      (s1.done = true ∨ s1.is_running = false)) ∨
    (∃ s1, generation_loop env inps s = .ok s1 ∧ Reach env s s1) := by
  induction inps generalizing s with
  | nil => right; right; right; exact ⟨s, rfl, Relation.ReflTransGen.refl⟩
  | cons inp rest ih =>
    unfold generation_loop
    rcases iter_cases env inp s with h | ⟨t, h, r, hf⟩ | ⟨t, h, r, hc⟩ | ⟨t, h, r⟩
    · left; rw [h]
    · right; left; rw [h]
      exact ⟨t, rfl, r, inp, List.mem_cons_self _ _, hf⟩
    · right; right; left; rw [h]
      exact ⟨t, rfl, r, hc⟩
    · rw [h]
      simp only
      rcases ih t with h2 | ⟨u, h2, r2, i2, hi2, hf2⟩ | ⟨u, h2, r2, hc2⟩ | ⟨u, h2, r2⟩
      · left; exact h2
      · right; left
        exact ⟨u, h2, r.trans r2, i2, List.mem_cons_of_mem _ hi2, hf2⟩
      · right; right; left
        exact ⟨u, h2, r.trans r2, hc2⟩
      · right; right; right
        exact ⟨u, h2, r.trans r2⟩

/-! ## C5: no cache growth and no save after an eviction -/

theorem antiprompt_loop_cases (t : CppString) (as : List CppString) (s : TurnState) :
    antiprompt_loop t as s = s ∨
    ∃ a ∈ as, find t a (size_sub t.length a.length) ≠ npos ∧
      antiprompt_loop t as s = { s with
        done := true
        text_to_speak := replace s.text_to_speak a []
        need_to_save_session := true } := by
  induction as with
  | nil => left; rfl
  | cons a rest ih =>
    by_cases h : find t a (size_sub t.length a.length) ≠ npos
    · right
      exact ⟨a, List.mem_cons_self _ _, h, by simp [antiprompt_loop, h]⟩
    · rcases ih with h2 | ⟨b, hb, hf, h2⟩
      · left; simp [antiprompt_loop, h, h2]
      · right
        exact ⟨b, List.mem_cons_of_mem _ hb, hf, by simp [antiprompt_loop, h, h2]⟩

theorem check_stop_cases (env : Env) (s s1 : TurnState) (h : check_stop env s = some s1) :
    ∃ t, last_output env s = some t ∧
      (s1 = s ∨ ∃ a ∈ antiprompts env, find t a (size_sub t.length a.length) ≠ npos ∧
        s1 = { s with
          done := true
          text_to_speak := replace s.text_to_speak a []
          need_to_save_session := true }) := by
  unfold check_stop at h
  cases ht : last_output env s with
  | none => simp [ht] at h
  | some t =>
    simp only [ht, Option.some.injEq] at h
    refine ⟨t, rfl, ?_⟩
    rcases antiprompt_loop_cases t (antiprompts env) s with h2 | ⟨a, ha, hf, h2⟩
    · left; rw [← h, h2]
    · right; exact ⟨a, ha, hf, by rw [← h, h2]⟩

theorem saves_append (l m : List Event) : saves (l ++ m) = saves l ++ saves m := by
  simp [saves]

/-- Once the session path is empty, an atomic step keeps it empty, does not lengthen the session
cache and does not save. -/
theorem step_after_eviction (env : Env) (s s1 : TurnState) (h : Step env s s1)
    (hp : s.path_session = []) :
    s1.path_session = [] ∧ s1.session_tokens.length ≤ s.session_tokens.length ∧
      saves s1.log = saves s.log := by
  cases h with
  | turn_start tokens embd => simp [turn_start, hp]
  | overflow h =>
    unfold prepare_for_overflow at h
    split_ifs at h <;> cases h <;> simp [hp]
  | reconcile h =>
    rw [reconcile_with_cache_eq] at h
    cases h
    refine ⟨hp, ?_, rfl⟩
    simp only
    split_ifs
    · simp [List.length_take]
    · exact le_refl _
  | commit => simp [commit_evaluated, hp]
  | decode_ok fails h =>
    rcases decode_block_cases env fails s with h2 | ⟨-, h2⟩ | ⟨-, h2⟩ <;> rw [h2] at h <;>
      cases h
    simp [hp, saves_append, saves]
  | decode_fatal fails h =>
    rcases decode_block_cases env fails s with h2 | ⟨-, h2⟩ | ⟨-, h2⟩ <;> rw [h2] at h <;>
      cases h
    simp [hp, saves_append, saves]
  | advance => simp [advance, hp]
  | save => simp [save_session, hp]
  | sample id =>
    unfold sample
    split_ifs <;> simp [hp, saves_append, saves]
  | check_stop h =>
    obtain ⟨t, -, h2 | ⟨a, -, -, h2⟩⟩ := check_stop_cases env s s1 h <;> subst h2 <;> simp [hp]
  | poll b => simp [hp]
  | speak => simp [speak, hp, saves_append, saves]

/-- C5: once the overflow step has evicted (it fired in a state `s0` and left state `s`), every
state `s1` reached from `s` by any number of later steps of the run has an empty session path, a
session cache no longer than it was at the eviction, and the same `llama_state_save_file` calls
in its log as at the eviction. -/
theorem cache_invalidation_one_way (env : Env) (s0 s s1 : TurnState)
    (hover : s0.n_past + s0.embd.length > env.n_ctx)
    (hev : prepare_for_overflow env s0 = some s) (hreach : Reach env s s1) :
    s1.path_session = [] ∧ s1.session_tokens.length ≤ s.session_tokens.length ∧
      saves s1.log = saves s.log := by
  have hp : s.path_session = [] := by
    unfold prepare_for_overflow at hev
    split_ifs at hev
    cases hev
    rfl
  induction hreach with
  | refl => exact ⟨hp, le_refl _, rfl⟩
  | tail _ hstep ih =>
    obtain ⟨h1, h2, h3⟩ := ih
    obtain ⟨k1, k2, k3⟩ := step_after_eviction env _ _ hstep h1
    exact ⟨k1, le_trans k2 h2, k3.trans h3⟩

/-- An instance of C5: after the eviction in `eviction_state`, finishing the pass, starting the
next Turn and committing its batch leave the session path empty, the cache at its sixteen
tokens and the log without a save. -/
theorem cache_invalidation_one_way_witness :
    (commit_evaluated (turn_start [7] [7, 8] (advance evicted_state))).path_session = [] ∧
    (commit_evaluated (turn_start [7] [7, 8] (advance evicted_state))).session_tokens.length
      ≤ evicted_state.session_tokens.length ∧
    saves (commit_evaluated (turn_start [7] [7, 8] (advance evicted_state))).log
      = saves evicted_state.log :=
  cache_invalidation_one_way (env_plain 16 20 2) eviction_state evicted_state _
    (by decide) (by decide)
    (((Relation.ReflTransGen.single (Step.advance _)).tail (Step.turn_start [7] [7, 8] _)).tail
      (Step.commit _))

/-! ## C6: the cursor stays inside the session cache -/

theorem init_state_cursor (path : CppString) (sess prompt : List Token) :
    (init_state path sess prompt).n_session_consumed
      ≤ (init_state path sess prompt).session_tokens.length := by
  simp only [init_state]
  split_ifs <;> simp

theorem step_cursor (env : Env) (s s1 : TurnState) (h : Step env s s1)
    (hinv : s.n_session_consumed ≤ s.session_tokens.length) :
    s1.n_session_consumed ≤ s1.session_tokens.length := by
  cases h with
  | turn_start tokens embd =>
    simp only [turn_start]
    split_ifs
    · simp only [List.length_append]; omega
    · exact hinv
  | overflow h =>
    unfold prepare_for_overflow at h
    split_ifs at h <;> cases h <;> exact hinv
  | reconcile h =>
    rw [reconcile_with_cache_eq] at h
    cases h
    have hL := lcp_len_le_right s.embd (s.session_tokens.drop s.n_session_consumed)
    simp only [List.length_drop] at hL
    simp only
    split_ifs with hc
    · simp only [List.length_take]; omega
    · omega
  | commit =>
    unfold commit_evaluated
    split_ifs
    · exact le_refl _
    · exact hinv
  | decode_ok fails h =>
    rcases decode_block_cases env fails s with h2 | ⟨-, h2⟩ | ⟨-, h2⟩ <;> rw [h2] at h <;>
      cases h
    exact hinv
  | decode_fatal fails h =>
    rcases decode_block_cases env fails s with h2 | ⟨-, h2⟩ | ⟨-, h2⟩ <;> rw [h2] at h <;>
      cases h
    exact hinv
  | advance => exact hinv
  | save =>
    unfold save_session
    split_ifs <;> exact hinv
  | sample id =>
    unfold sample
    split_ifs <;> exact hinv
  | check_stop h =>
    obtain ⟨t, -, h2 | ⟨a, -, -, h2⟩⟩ := check_stop_cases env s s1 h <;> subst h2 <;> exact hinv
  | poll b => exact hinv
  | speak => exact hinv

/-- C6: `n_session_consumed ≤ len(session_tokens)` holds in the state in which the main loop is
entered, every atomic step of the loop preserves it, hence it holds in every state reached from
the start-up state; and the reuse step, where `session_tokens[n_session_consumed]` is read,
is defined in every state (no read outside the cache). -/
theorem cursor_invariant (env : Env) :
    (∀ path sess prompt, (init_state path sess prompt).n_session_consumed
      ≤ (init_state path sess prompt).session_tokens.length) ∧
    (∀ s s1, Step env s s1 → s.n_session_consumed ≤ s.session_tokens.length →
      s1.n_session_consumed ≤ s1.session_tokens.length) ∧
    (∀ path sess prompt s1, Reach env (init_state path sess prompt) s1 →
      s1.n_session_consumed ≤ s1.session_tokens.length) ∧
    (∀ s, ∃ s1, reconcile_with_cache s = some s1) := by
  refine ⟨init_state_cursor, step_cursor env, ?_, fun s => ⟨_, reconcile_with_cache_eq s⟩⟩
  intro path sess prompt s1 h
  induction h with
  | refl => exact init_state_cursor path sess prompt
  | tail _ hstep ih => exact step_cursor env _ _ hstep ih

/-- An instance of C6: with a session path in use, the start of a Turn lengthens the cache by
the transcript tokens and the cursor, here `0`, stays within it. -/
theorem cursor_invariant_witness :
    (turn_start [7] [7, 8] fresh_session_state).n_session_consumed
      ≤ (turn_start [7] [7, 8] fresh_session_state).session_tokens.length ∧
    (turn_start [7] [7, 8] fresh_session_state).session_tokens = [7] :=
  ⟨(cursor_invariant (env_plain 16 2048 64)).2.1 fresh_session_state _
      (Step.turn_start [7] [7, 8] _)
      ((cursor_invariant (env_plain 16 2048 64)).1 ['s'] [] prompt16),
    by decide⟩

/-! ## C7: the stop condition is a suffix test -/

theorem startsWith_iff (t p : CppString) : startsWith t p = true ↔ p <+: t := by
  induction t generalizing p with
  | nil =>
    cases p with
    | nil => simp [startsWith]
    | cons a as => simp [startsWith]
  | cons c t ih =>
    cases p with
    | nil => simp [startsWith]
    | cons a as =>
      simp only [startsWith, Bool.and_eq_true, beq_iff_eq, ih as, List.cons_prefix_cons]
      constructor
      · rintro ⟨h1, h2⟩; exact ⟨h1.symm, h2⟩
      · rintro ⟨h1, h2⟩; exact ⟨h1.symm, h2⟩

theorem startsWith_short (t p : CppString) (h : t.length < p.length) : startsWith t p = false := by
  cases hs : startsWith t p with
  | false => rfl
  | true =>
    have := ((startsWith_iff t p).mp hs).length_le
    omega

theorem find_at_short (p t : CppString) (x : Nat) (h : t.length < p.length) :
    find_at p t x = npos := by
  induction t generalizing x with
  | nil => simp [find_at, startsWith_short [] p h]
  | cons c t ih =>
    have h2 : t.length < p.length := by simp at h; omega
    simp [find_at, startsWith_short (c :: t) p h, ih (x + 1) h2]

theorem find_at_same_length (p t : CppString) (x : Nat) (h : t.length = p.length) :
    find_at p t x = if t = p then x else npos := by
  cases t with
  | nil =>
    have hp : p = [] := List.length_eq_zero.mp h.symm
    subst hp
    simp [find_at, startsWith]
  | cons c t =>
    have h2 : t.length < p.length := by simp at h; omega
    by_cases he : c :: t = p
    · have hs : startsWith (c :: t) p = true := (startsWith_iff _ _).mpr (by rw [he])
      rw [find_at, if_pos hs, if_pos he]
    · have hs : startsWith (c :: t) p = false := by
        cases hs : startsWith (c :: t) p with
        | false => rfl
        | true =>
          exact absurd ((List.IsPrefix.eq_of_length ((startsWith_iff _ _).mp hs) h.symm).symm) he
      simp [find_at, hs, he, find_at_short p t (x + 1) h2]

theorem find_ne_npos_iff (t a : CppString) (ht : t.length < 2 ^ 64) (ha : a.length < 2 ^ 64)
    (hne : a ≠ []) : find t a (size_sub t.length a.length) ≠ npos ↔ a <:+ t := by
  have hpos : 0 < a.length := List.length_pos.mpr hne
  by_cases hle : a.length ≤ t.length
  · have hsub : size_sub t.length a.length = t.length - a.length := by
      unfold size_sub
      rw [Nat.mod_eq_of_lt ha]
      omega
    have hlen : (t.drop (t.length - a.length)).length = a.length := by
      simp [List.length_drop]; omega
    have hx : t.length - a.length ≠ npos := by unfold npos; omega
    rw [hsub, find, if_pos (Nat.sub_le _ _), find_at_same_length _ _ _ hlen,
      List.suffix_iff_eq_drop]
    by_cases he : t.drop (t.length - a.length) = a
    · simp [he, hx]
    · have he2 : ¬ a = t.drop (t.length - a.length) := fun e => he e.symm
      simp [he, he2]
  · have hsub : t.length < size_sub t.length a.length := by
      unfold size_sub
      rw [Nat.mod_eq_of_lt ha]
      omega
    have hns : ¬ a <:+ t := fun hs => hle hs.length_le
    simp [find, Nat.not_le.mpr hsub, hns]

/-- C7: in a pass that samples a token other than end-of-sequence, with at least sixteen tokens of
history, let `T` be the pieces of the last sixteen history tokens followed by the piece of the
sampled token and `A` the antiprompt (person name followed by `:`).  The check returns, and
`done` is set iff `A` is a suffix of `T`; so it is not set when `A` occurs in `T` without being a
suffix, when `T` is shorter than `A`, or when `T` is `A` without its last character. -/
theorem antiprompt_exact_suffix (env : Env) (s : TurnState) (id : Token)
    (hdone : s.done = false) (hembd : s.embd = []) (hid : id ≠ env.eos)
    (hhist : 16 ≤ s.embd_inp.length)
    (hT : (pieces env (s.embd_inp.drop (s.embd_inp.length - 16))
      ++ env.token_to_piece id).length < 2 ^ 64)
    (hA : (env.person ++ chat_symb).length < 2 ^ 64) :
    ∃ s1, check_stop env (sample env id s) = some s1 ∧
      (s1.done = true ↔ (env.person ++ chat_symb) <:+
        (pieces env (s.embd_inp.drop (s.embd_inp.length - 16)) ++ env.token_to_piece id)) ∧
      ((env.person ++ chat_symb) <:+:
          (pieces env (s.embd_inp.drop (s.embd_inp.length - 16)) ++ env.token_to_piece id) →
        ¬ (env.person ++ chat_symb) <:+
          (pieces env (s.embd_inp.drop (s.embd_inp.length - 16)) ++ env.token_to_piece id) →
        s1.done = false) ∧
      ((pieces env (s.embd_inp.drop (s.embd_inp.length - 16)) ++ env.token_to_piece id).length
          < (env.person ++ chat_symb).length → s1.done = false) ∧
      (pieces env (s.embd_inp.drop (s.embd_inp.length - 16)) ++ env.token_to_piece id
          = (env.person ++ chat_symb).dropLast → s1.done = false) := by
  have hne : env.person ++ chat_symb ≠ [] := by simp [chat_symb]
  have hiff := find_ne_npos_iff _ _ hT hA hne
  have hlast : last_output env (sample env id s) =
      some (pieces env (s.embd_inp.drop (s.embd_inp.length - 16)) ++ env.token_to_piece id) := by
    have h16 : ¬ s.embd_inp.length < 16 := by omega
    simp [last_output, sample, hid, hembd, h16]
  have hd : (sample env id s).done = false := by
    simp [sample, hid, hdone]
  have key : ∀ s1, check_stop env (sample env id s) = some s1 →
      (s1.done = true ↔ (env.person ++ chat_symb) <:+
        (pieces env (s.embd_inp.drop (s.embd_inp.length - 16)) ++ env.token_to_piece id)) := by
    intro s1 h1
    simp only [check_stop, hlast, antiprompts, antiprompt_loop, Option.some.injEq] at h1
    rw [← hiff]
    split_ifs at h1 with hf
    · subst h1
      exact ⟨fun _ => hf, fun _ => rfl⟩
    · subst h1
      exact ⟨fun h => absurd (hd.symm.trans h) (by decide), fun h => absurd h hf⟩
  have hcs : check_stop env (sample env id s) =
      some (antiprompt_loop
        (pieces env (s.embd_inp.drop (s.embd_inp.length - 16)) ++ env.token_to_piece id)
        (antiprompts env) (sample env id s)) := by
    simp only [check_stop, hlast]
  have hk := key _ hcs
  refine ⟨_, hcs, hk, ?_, ?_, ?_⟩
  · intro _ hns
    simpa using hk.not.mpr hns
  · intro hlt
    have hns : ¬ (env.person ++ chat_symb) <:+
        (pieces env (s.embd_inp.drop (s.embd_inp.length - 16)) ++ env.token_to_piece id) :=
      fun hs => absurd hs.length_le (by omega)
    simpa using hk.not.mpr hns
  · intro heq
    have hns : ¬ (env.person ++ chat_symb) <:+
        (pieces env (s.embd_inp.drop (s.embd_inp.length - 16)) ++ env.token_to_piece id) := by
      intro hs
      have h1 := hs.length_le
      rw [heq, List.length_dropLast] at h1
      have h2 : 0 < (env.person ++ chat_symb).length := List.length_pos.mpr hne
      omega
    simpa using hk.not.mpr hns

/-- An instance of C7: person `Bob`, the reply so far is `"...see you soon"`, `"Bob"`, and the
token `":"` is sampled; the tail ends with `Bob:` and `done` is set. -/
theorem antiprompt_exact_suffix_witness :
    (∃ s1, check_stop env_bob (sample env_bob 42 see_you_soon_state) = some s1 ∧
      (s1.done = true ↔ "Bob:".toList <:+ "...see you soonBob:".toList)) ∧
    "Bob:".toList <:+ "...see you soonBob:".toList := by
  obtain ⟨s1, h, hiff, -⟩ := antiprompt_exact_suffix env_bob see_you_soon_state 42
    (by decide) (by decide) (by decide) (by decide) (by decide) (by decide)
  exact ⟨⟨s1, h, hiff⟩, by decide⟩

/-! ## C8: what is stripped when the stop condition fires -/

theorem replace_fuel_nil (pat repl : CppString) (fuel : Nat) :
    replace_fuel pat repl fuel [] = [] := by
  cases fuel <;> rfl

/-- When the antiprompt ends the text and starts at no earlier index, replacing it by the empty
string removes exactly that suffix. -/
theorem replace_trailing (a pre : CppString) (ha : a ≠ [])
    (hfirst : ∀ k, k < pre.length → startsWith ((pre ++ a).drop k) a = false) :
    replace (pre ++ a) a [] = pre := by
  have key : ∀ (pre : CppString) (fuel : Nat), (pre ++ a).length ≤ fuel →
      (∀ k, k < pre.length → startsWith ((pre ++ a).drop k) a = false) →
      replace_fuel a [] fuel (pre ++ a) = pre := by
    intro pre
    induction pre with
    | nil =>
      intro fuel hfuel _
      obtain ⟨c, t, hct⟩ := List.exists_cons_of_ne_nil ha
      cases fuel with
      | zero => rw [hct] at hfuel; simp at hfuel
      | succ n =>
        have hs : startsWith (c :: t) (c :: t) = true := (startsWith_iff _ _).mpr (List.prefix_refl _)
        rw [List.nil_append, hct, replace_fuel, if_pos hs, List.drop_length, replace_fuel_nil]
        rfl
    | cons c pre ih =>
      intro fuel hfuel hk
      cases fuel with
      | zero => simp at hfuel
      | succ n =>
        have h0 : startsWith (c :: (pre ++ a)) a = false := by
          have := hk 0 (by simp)
          simpa using this
        have hrest : ∀ k, k < pre.length → startsWith ((pre ++ a).drop k) a = false := by
          intro k hlt
          have := hk (k + 1) (by simp; omega)
          simpa using this
        have hlen : (pre ++ a).length ≤ n := by
          simp only [List.cons_append, List.length_cons] at hfuel
          omega
        rw [List.cons_append, replace_fuel]
        simp only [h0, Bool.false_eq_true, if_false]
        rw [ih n hlen hrest]
  unfold replace
  rw [if_neg ha]
  exact key pre _ (le_refl _) hfirst

theorem predict_text (env : Env) (fails : Bool) (s s1 : TurnState)
    (h : predict env fails s = .ok s1) :
    s1.text_to_speak = s.text_to_speak ∧ s1.done = s.done := by
  unfold predict at h
  by_cases h0 : s.embd.length > 0
  · simp only [h0, if_true] at h
    cases h1 : prepare_for_overflow env s with
    | none => simp [h1] at h
    | some t =>
      have ht : t.text_to_speak = s.text_to_speak ∧ t.done = s.done := by
        unfold prepare_for_overflow at h1
        split_ifs at h1 <;> cases h1 <;> exact ⟨rfl, rfl⟩
      simp only [h1, reconcile_with_cache_eq] at h
      rcases decode_block_cases env fails (commit_evaluated
        { t with
          embd := t.embd.drop (lcp_len t.embd (t.session_tokens.drop t.n_session_consumed))
          session_tokens :=
            if lcp_len t.embd (t.session_tokens.drop t.n_session_consumed) < t.embd.length ∧
                t.n_session_consumed + lcp_len t.embd (t.session_tokens.drop t.n_session_consumed)
                  < t.session_tokens.length
            then t.session_tokens.take
              (t.n_session_consumed + lcp_len t.embd (t.session_tokens.drop t.n_session_consumed))
            else t.session_tokens
          n_past := t.n_past + lcp_len t.embd (t.session_tokens.drop t.n_session_consumed)
          n_session_consumed :=
            t.n_session_consumed + lcp_len t.embd (t.session_tokens.drop t.n_session_consumed) })
        with h2 | ⟨-, h2⟩ | ⟨-, h2⟩ <;> rw [h2] at h <;> cases h
      unfold commit_evaluated
      split_ifs <;> exact ht
  · simp only [h0, if_false] at h
    cases h
    exact ⟨rfl, rfl⟩

/-- C8, the claim as stated fails: person `Bob`, a Turn in which the pieces `"Bob"`, `":)"`,
`" bye"`, `"Bob"`, `":"` are sampled.  The stop condition fires at the last one, the text
accumulated in the Turn is `"Bob:) bye"` followed by `"Bob:"`, and the text handed to the speech
sink is `") bye"`, not `"Bob:) bye"`. -/
theorem stop_strip_counterexample :
    ∃ s1, generation_loop env_bob strip_inputs strip_start = .leave s1 ∧
      s1.done = true ∧
      pieces env_bob (samples s1.log) = "Bob:) bye".toList ++ "Bob:".toList ∧
      (speak s1).log.getLast? = some (Event.speak ") bye".toList) ∧
      s1.text_to_speak ≠ "Bob:) bye".toList :=
  ⟨_, rfl, by decide, by decide, by decide, by decide⟩

/-- C8 as amended: whenever the stop condition fires for the antiprompt `A` in a state whose
accumulated text is `text`, the text becomes `replace(text, A, "")`; when `text` ends with `A`
and `A` starts at no earlier index of it, that is `text` with its trailing `A` removed; and the
pass that then leaves the loop hands exactly this text to `speak_with_file`. -/
theorem stop_strips_antiprompt (env : Env) (s s1 : TurnState) (hdone : s.done = false)
    (h : check_stop env s = some s1) (hfire : s1.done = true) :
    s1.text_to_speak = replace s.text_to_speak (env.person ++ chat_symb) [] ∧
    (∀ pre, s.text_to_speak = pre ++ (env.person ++ chat_symb) →
      (∀ k, k < pre.length →
        startsWith ((pre ++ (env.person ++ chat_symb)).drop k) (env.person ++ chat_symb) = false) →
      s1.text_to_speak = pre) ∧
    (∀ inp s2, iter env inp s1 = .leave s2 →
      (speak s2).log = s2.log ++ [Event.speak s1.text_to_speak]) := by
  have hne : env.person ++ chat_symb ≠ [] := by simp [chat_symb]
  have h1 : s1.text_to_speak = replace s.text_to_speak (env.person ++ chat_symb) [] := by
    obtain ⟨t, -, h2 | ⟨a, ha, -, h2⟩⟩ := check_stop_cases env s s1 h
    · subst h2
      rw [hdone] at hfire
      exact absurd hfire (by decide)
    · simp only [antiprompts, List.mem_singleton] at ha
      subst h2 ha
      rfl
  refine ⟨h1, ?_, ?_⟩
  · intro pre hpre hfirst
    rw [h1, hpre]
    exact replace_trailing _ _ hne hfirst
  · intro inp s2 hleave
    unfold iter at hleave
    cases hp : predict env inp.decode_fails s1 with
    | ok t =>
      obtain ⟨ht, hd⟩ := predict_text env _ _ _ hp
      have hadv : (advance t).done = true := by simp [advance, hd, hfire]
      simp only [hp, hadv, if_true, Result.leave.injEq] at hleave
      subst hleave
      simp [speak, advance, ht]
    | leave t => rcases predict_reach env inp.decode_fails s1 with h | ⟨u, h, -⟩ | ⟨u, h, -⟩ <;>
        rw [hp] at h <;> cases h
    | fatal t => simp [hp] at hleave
    | undefined => simp [hp] at hleave

/-- The scenario of C8: antiprompt `Bob:` and accumulated text `"...see you soonBob:"`; the stop
condition fires and the text becomes `"...see you soon"`. -/
theorem stop_strips_antiprompt_witness :
    ∃ s1, check_stop env_bob (sample env_bob 42 see_you_soon_state) = some s1 ∧
      s1.done = true ∧
      (sample env_bob 42 see_you_soon_state).text_to_speak = "...see you soonBob:".toList ∧
      s1.text_to_speak = "...see you soon".toList :=
  ⟨_, rfl, by decide, by decide,
    (stop_strips_antiprompt env_bob (sample env_bob 42 see_you_soon_state) _
      (by decide) rfl (by decide)).2.1 "...see you soon".toList (by decide) (by decide)⟩

/-! ## Where `done` is set -/

/-- An atomic step sets `done` only by the antiprompt check, in a state whose tail text matches
an antiprompt. -/
theorem step_sets_done (env : Env) (s s1 : TurnState) (h : Step env s s1)
    (hd : s.done = false) (hd1 : s1.done = true) :
    ∃ t a, last_output env s = some t ∧ a ∈ antiprompts env ∧
      find t a (size_sub t.length a.length) ≠ npos ∧ check_stop env s = some s1 := by
  have absurd_of : ∀ {p : Prop}, s1.done = s.done → p := by
    intro p he
    rw [he, hd] at hd1
    exact absurd hd1 (by decide)
  cases h with
  | turn_start tokens embd => exact absurd hd1 (by simp [turn_start])
  | overflow h =>
    unfold prepare_for_overflow at h
    split_ifs at h <;> cases h <;> exact absurd_of rfl
  | reconcile h =>
    rw [reconcile_with_cache_eq] at h
    cases h
    exact absurd_of rfl
  | commit =>
    apply absurd_of
    unfold commit_evaluated
    split_ifs <;> rfl
  | decode_ok fails h =>
    rcases decode_block_cases env fails s with h2 | ⟨-, h2⟩ | ⟨-, h2⟩ <;> rw [h2] at h <;>
      cases h
    exact absurd_of rfl
  | decode_fatal fails h =>
    rcases decode_block_cases env fails s with h2 | ⟨-, h2⟩ | ⟨-, h2⟩ <;> rw [h2] at h <;>
      cases h
    exact absurd_of rfl
  | advance => exact absurd_of rfl
  | save =>
    apply absurd_of
    unfold save_session
    split_ifs <;> rfl
  | sample id =>
    apply absurd_of
    unfold sample
    split_ifs <;> rfl
  | check_stop h =>
    obtain ⟨t, ht, h2 | ⟨a, ha, hf, h2⟩⟩ := check_stop_cases env s s1 h
    · subst h2; exact absurd_of rfl
    · exact ⟨t, a, ht, ha, hf, h⟩
  | poll b => exact absurd_of rfl
  | speak => exact absurd_of rfl

/-- A run that turns `done` from false to true passes through a state in which the stop condition
fires. -/
theorem reach_sets_done (env : Env) (s s1 : TurnState) (h : Reach env s s1)
    (hd : s.done = false) (hd1 : s1.done = true) :
    ∃ u t a, Reach env s u ∧ u.done = false ∧ last_output env u = some t ∧
      a ∈ antiprompts env ∧ find t a (size_sub t.length a.length) ≠ npos := by
  induction h with
  | refl =>
    rw [hd] at hd1
    exact absurd hd1 (by decide)
  | @tail b c hsb hstep ih =>
    cases hb : b.done with
    | true => exact ih hb
    | false =>
      obtain ⟨t, a, ht, ha, hf, -⟩ := step_sets_done env b c hstep hb hd1
      exact ⟨b, t, a, hsb, hb, ht, ha, hf⟩

/-! ## C11: the matching length at start-up -/

theorem n_matching_loop_eq (embd_inp session : List Token) (n : Nat) :
    n_matching_loop embd_inp session n = n + lcp_len session (embd_inp.drop n) := by
  induction session generalizing n with
  | nil => simp [n_matching_loop, lcp_len]
  | cons id rest ih =>
    by_cases h : n < embd_inp.length
    · have hd : embd_inp.drop n = embd_inp[n] :: embd_inp.drop (n + 1) :=
        List.drop_eq_getElem_cons h
      have hg : embd_inp[n]? = some embd_inp[n] := List.getElem?_eq_getElem h
      rw [n_matching_loop, hg, hd]
      by_cases he : id = embd_inp[n]
      · simp only [lcp_len, he, ne_eq, not_true_eq_false, if_false, if_true, ih (n + 1)]
        omega
      · simp only [lcp_len, he, ne_eq, not_false_eq_true, if_true, if_false]
        rfl
    · have hnil : embd_inp.drop n = [] := List.drop_eq_nil_of_le (by omega)
      have hg : embd_inp[n]? = none := List.getElem?_eq_none (by omega)
      rw [n_matching_loop, hg, hnil, lcp_len_nil_right]
      rfl

/-- The loop of lines 738-743 computes the longest common prefix of the two vectors it is
given. -/
theorem n_matching_eq_lcp_len (session embd_inp : List Token) :
    n_matching_session_tokens session embd_inp = lcp_len session embd_inp := by
  unfold n_matching_session_tokens
  split_ifs with h
  · simp [n_matching_loop_eq]
  · have hs : session = [] := List.length_eq_zero.mp (by simpa using h)
    subst hs
    simp [lcp_len]

theorem lcp_len_append_self (l m : List Token) : lcp_len l (l ++ m) = l.length := by
  induction l with
  | nil => simp [lcp_len]
  | cons a as ih => simp [lcp_len, ih]

theorem overwrite_loop_eq (embd_inp rest : List Token) (i : Nat)
    (h : i + rest.length ≤ embd_inp.length) :
    overwrite_loop embd_inp rest i =
      some (embd_inp.take i ++ rest ++ embd_inp.drop (i + rest.length)) := by
  induction rest generalizing embd_inp i with
  | nil => simp [overwrite_loop]
  | cons t rest ih =>
    simp only [List.length_cons] at h
    have hi : i < embd_inp.length := by omega
    have hlen : i + 1 + rest.length ≤ (embd_inp.set i t).length := by
      simp only [List.length_set]; omega
    have h1 : (embd_inp.set i t).take (i + 1) = embd_inp.take i ++ [t] := by
      rw [List.set_eq_take_append_cons_drop, if_pos hi, List.take_append_eq_append_take]
      simp [List.length_take, Nat.min_eq_left (Nat.le_of_lt hi)]
    have h2 : (embd_inp.set i t).drop (i + 1 + rest.length) =
        embd_inp.drop (i + (rest.length + 1)) := by
      rw [List.drop_set_of_lt t embd_inp (by omega)]
      congr 1
      omega
    rw [overwrite_loop, if_pos hi, ih (embd_inp.set i t) (i + 1) hlen, h1, h2]
    simp

/-- The copy loop of lines 700-702 is defined only when the cache is no longer than the
prompt. -/
theorem overwrite_loop_defined (embd_inp rest : List Token) (i : Nat) (e1 : List Token)
    (h : overwrite_loop embd_inp rest i = some e1) :
    rest = [] ∨ i + rest.length ≤ embd_inp.length := by
  induction rest generalizing embd_inp i with
  | nil => left; rfl
  | cons t r ih =>
    right
    rw [overwrite_loop] at h
    split_ifs at h with hi
    rcases ih _ _ h with h3 | h3
    · subst h3
      simp only [List.length_cons, List.length_nil]
      omega
    · simp only [List.length_set] at h3
      simp only [List.length_cons]
      omega

/-- After a session load that goes on, the matching length is the length of the loaded cache,
whatever the prompt holds. -/
theorem matching_length_after_load (n_ctx : Nat) (inp : StartInput) (calls : List FileCall)
    (session embd_inp : List Token) (h : load_session n_ctx inp = .cont calls session embd_inp) :
    n_matching_session_tokens session embd_inp = session.length := by
  rw [n_matching_eq_lcp_len]
  unfold load_session at h
  split_ifs at h with hp ho
  · cases hl : inp.loaded with
    | none => simp [hl] at h
    | some toks =>
      simp only [hl] at h
      split_ifs at h with hc
      by_cases hle : toks.length ≤ inp.prompt.length
      · rw [overwrite_loop_eq _ _ _ (by simpa using hle)] at h
        simp only [LoadResult.cont.injEq] at h
        obtain ⟨-, hs, he⟩ := h
        subst hs
        rw [← he]
        simp [lcp_len_append_self]
      · cases ho2 : overwrite_loop inp.prompt toks 0 with
        | none => simp [ho2] at h
        | some e =>
          exfalso
          rcases overwrite_loop_defined _ _ _ _ ho2 with h3 | h3
          · subst h3
            simp at hle
          · omega
  · cases h
    simp [lcp_len]
  · cases h
    simp [lcp_len]

/-- C11, the code at a failing input: the session file holds `[1,2,3]` and the prompt tokenizes
to `[9,9,9,9]`.  The loop of lines 700-702 first copies the cache over the prompt tokens, so the
matching length is computed against `[1,2,3,9]` and is 3, while the longest common prefix of
the loaded cache and the freshly tokenized prompt is empty. -/
theorem matching_length_not_lcp_of_prompt :
    load_session 2048 stale_session_start =
      .cont [.fopen ['s'], .state_load_file ['s']] [1, 2, 3] [1, 2, 3, 9] ∧
    n_matching_session_tokens [1, 2, 3] [1, 2, 3, 9] = 3 ∧
    lcp_len [1, 2, 3] stale_session_start.prompt = 0 := by
  refine ⟨by decide, by decide, by decide⟩

/-! ## C12: the reuse-quality message -/

/-- C12, the claim as stated fails: a session file of two tokens and a prompt of five give
`m = 2` and `n = 5`; `2 * m < n`, so the claim says "low similarity", and the code prints the
"matches m / n tokens" message, since `n / 2` is the integer `2`. -/
theorem similarity_counterexample :
    load_session 2048 short_session_start =
      .cont [.fopen ['s'], .state_load_file ['s']] [1, 2] [1, 2, 3, 4, 5] ∧
    n_matching_session_tokens [1, 2] [1, 2, 3, 4, 5] = 2 ∧
    2 * 2 < ([1, 2, 3, 4, 5] : List Token).length ∧
    session_similarity [1, 2] [1, 2, 3, 4, 5] = some .partial_match := by
  refine ⟨by decide, by decide, by decide, by decide⟩

/-- C12 as amended: with a non-empty loaded cache a message is printed; for the matching length
`m` (which never exceeds the prompt length `n`) it is "exact match" iff `m = n`, "low
similarity" iff `m` is below the integer quotient `n / 2`, i.e. `2 * m + 1 < n`, and the
"matches m / n" message otherwise. -/
theorem similarity_classes (session embd_inp : List Token) (h : session ≠ []) :
    n_matching_session_tokens session embd_inp ≤ embd_inp.length ∧
    ∃ c, session_similarity session embd_inp = some c ∧
      (c = .exact_match ↔ n_matching_session_tokens session embd_inp = embd_inp.length) ∧
      (c = .low_similarity ↔
        2 * n_matching_session_tokens session embd_inp + 1 < embd_inp.length) ∧
      (c = .partial_match ↔
        n_matching_session_tokens session embd_inp < embd_inp.length ∧
        embd_inp.length ≤ 2 * n_matching_session_tokens session embd_inp + 1) := by
  have hm : n_matching_session_tokens session embd_inp ≤ embd_inp.length := by
    rw [n_matching_eq_lcp_len]; exact lcp_len_le_right _ _
  have hl : session.length ≠ 0 := fun h0 => h (List.length_eq_zero.mp h0)
  have hs : session_similarity session embd_inp = some (similarity_class
      (n_matching_session_tokens session embd_inp) embd_inp.length) := by
    simp [session_similarity, hl]
  refine ⟨hm, _, hs, ?_, ?_, ?_⟩ <;> unfold similarity_class <;> split_ifs <;> simp <;> omega

/-- An instance of C12: two matching tokens out of five are a partial match, three out of
three an exact one, one out of five a low similarity. -/
theorem similarity_classes_witness :
    (n_matching_session_tokens [1, 2] [1, 2, 3, 4, 5] ≤ 5 ∧
      ∃ c, session_similarity [1, 2] [1, 2, 3, 4, 5] = some c ∧
        (c = .exact_match ↔ n_matching_session_tokens [1, 2] [1, 2, 3, 4, 5] = 5) ∧
        (c = .low_similarity ↔ 2 * n_matching_session_tokens [1, 2] [1, 2, 3, 4, 5] + 1 < 5) ∧
        (c = .partial_match ↔ n_matching_session_tokens [1, 2] [1, 2, 3, 4, 5] < 5 ∧
          5 ≤ 2 * n_matching_session_tokens [1, 2] [1, 2, 3, 4, 5] + 1)) ∧
    session_similarity [1, 2, 3] [1, 2, 3] = some .exact_match ∧
    session_similarity [1] [1, 2, 3, 4, 5] = some .low_similarity :=
  ⟨similarity_classes [1, 2] [1, 2, 3, 4, 5] (by decide), by decide, by decide⟩

/-! ## C13: the save flag at start-up -/

/-- C13, the claim as stated fails: with a session path, a cache of two tokens and a prompt of
three, `m = 2` and `4 * m < 3 * n`, yet `need_to_save_session` starts false, since
`n * 3 / 4` is the integer `2`. -/
theorem threshold_rounding_counterexample :
    load_session 2048 (start_ok ['s'] [1, 2, 3] true (some [1, 2])) =
      .cont [.fopen ['s'], .state_load_file ['s']] [1, 2] [1, 2, 3] ∧
    n_matching_session_tokens [1, 2] [1, 2, 3] = 2 ∧
    4 * 2 < 3 * ([1, 2, 3] : List Token).length ∧
    (init_state ['s'] [1, 2] [1, 2, 3]).need_to_save_session = false := by
  refine ⟨by decide, by decide, by decide, by decide⟩

/-- C13 as amended: at start-up `need_to_save_session` is true exactly when a session path is
configured and `m` is below the integer quotient `3 * n / 4`, i.e. `4 * m + 4 ≤ 3 * n`. -/
theorem save_threshold (path : CppString) (session embd_inp : List Token) :
    (init_state path session embd_inp).need_to_save_session = true ↔
      path ≠ [] ∧ 4 * n_matching_session_tokens session embd_inp + 4 ≤ 3 * embd_inp.length := by
  simp only [init_state, decide_eq_true_eq]
  constructor
  · rintro ⟨hp, hm⟩
    exact ⟨hp, by omega⟩
  · rintro ⟨hp, hm⟩
    exact ⟨hp, by omega⟩

/-- An instance of C13: one matching token out of four arms the flag, three out of four do
not. -/
theorem save_threshold_witness :
    ((init_state ['s'] [1] [1, 2, 3, 4]).need_to_save_session = true ↔
      (['s'] : CppString) ≠ [] ∧ 4 * n_matching_session_tokens [1] [1, 2, 3, 4] + 4 ≤ 3 * 4) ∧
    (init_state ['s'] [1] [1, 2, 3, 4]).need_to_save_session = true ∧
    (init_state ['s'] [1, 2, 3] [1, 2, 3, 4]).need_to_save_session = false :=
  ⟨save_threshold ['s'] [1] [1, 2, 3, 4], by decide, by decide⟩

/-! ## C15: the decode of the prompt -/

/-- Whenever start-up enters the main loop, it has submitted the whole of `embd_inp` in one
batch, whatever the session cache holds. -/
theorem startup_decodes_whole_prompt (n_ctx : Nat) (inp : StartInput) (s : TurnState)
    (h : startup n_ctx inp = .running s) :
    s.log = [Event.decode (prepare_batch 0 s.embd_inp)] ∧
      (prepare_batch 0 s.embd_inp).length = s.embd_inp.length ∧
      s.n_past = s.embd_inp.length := by
  unfold startup at h
  cases ha : inp.args_exit with
  | some c => simp [ha] at h
  | none =>
    simp only [ha] at h
    cases hl : load_session n_ctx inp with
    | fatal c => simp only [hl] at h; split_ifs at h
    | undefined => simp only [hl] at h; split_ifs at h
    | cont calls sess e =>
      simp only [hl] at h
      split_ifs at h
      cases h
      exact ⟨rfl, prepare_batch_length _ _, rfl⟩

/-- C15, the code at a failing input: the session file holds exactly the prompt `[1,2,3,4]`, so
`m = 4 = len(prompt_tokens)` and the "exact match" message is printed; the decode of lines
713-729 still submits all four prompt tokens, at positions 0 to 3. -/
theorem prompt_decoded_despite_exact_match :
    ∃ s, startup 2048 exact_session_start = .running s ∧
      n_matching_session_tokens s.session_tokens s.embd_inp = 4 ∧
      s.embd_inp.length = 4 ∧
      session_similarity s.session_tokens s.embd_inp = some .exact_match ∧
      decodes s.log =
        [[{ token := 1, pos := 0, n_seq_id := 1, seq_id := 0, logits := false },
          { token := 2, pos := 1, n_seq_id := 1, seq_id := 0, logits := false },
          { token := 3, pos := 2, n_seq_id := 1, seq_id := 0, logits := false },
          { token := 4, pos := 3, n_seq_id := 1, seq_id := 0, logits := true }]] :=
  ⟨_, rfl, by decide, by decide, by decide, by decide⟩

/-! ## C16: the outcomes of the session load -/

theorem startup_of_cont (n_ctx : Nat) (inp : StartInput) (calls : List FileCall)
    (session embd_inp : List Token) (hr : reaches_session inp = true)
    (hl : load_session n_ctx inp = .cont calls session embd_inp)
    (hfit : embd_inp.length ≤ n_ctx) :
    startup n_ctx inp =
      if inp.decode_fails = true then .exit 1 [Event.decode (prepare_batch 0 embd_inp)]
      else .running { init_state inp.path_session session embd_inp with
        log := [Event.decode (prepare_batch 0 embd_inp)] } := by
  simp only [reaches_session, Bool.and_eq_true, Option.isNone_iff_eq_none,
    Bool.not_eq_true'] at hr
  obtain ⟨⟨⟨⟨h1, h2⟩, h3⟩, h4⟩, h5⟩ := hr
  have hn : ¬ embd_inp.length > n_ctx := by omega
  simp [startup, h1, h2, h3, h4, h5, hl, hn]

theorem startup_of_fatal (n_ctx : Nat) (inp : StartInput) (calls : List FileCall)
    (hr : reaches_session inp = true) (hl : load_session n_ctx inp = .fatal calls) :
    startup n_ctx inp = .exit 1 [] := by
  simp only [reaches_session, Bool.and_eq_true, Option.isNone_iff_eq_none,
    Bool.not_eq_true'] at hr
  obtain ⟨⟨⟨⟨h1, h2⟩, h3⟩, h4⟩, h5⟩ := hr
  simp [startup, h1, h2, h3, h4, h5, hl]

/-- C16: (1) with a session path whose file cannot be opened, only `fopen` is called, control
goes on with an empty cache and the prompt as tokenized, and the main loop is entered with
`n_session_consumed = 0`; (2) with a session path whose file opens and fails to load, `main`
returns 1 and the main loop is not entered, whatever would be answered later; (3) without
session path no file call is made and the cache is empty. -/
theorem session_load_outcomes (env : Env) (inp : StartInput) (hr : reaches_session inp = true) :
    (inp.path_session ≠ [] → inp.file_opens = false →
      load_session env.n_ctx inp = .cont [.fopen inp.path_session] [] inp.prompt ∧
      (inp.prompt.length ≤ env.n_ctx → inp.decode_fails = false →
        ∃ s, startup env.n_ctx inp = .running s ∧ s.session_tokens = [] ∧
          s.n_session_consumed = 0)) ∧
    (inp.path_session ≠ [] → inp.file_opens = true → inp.loaded = none →
      load_session env.n_ctx inp =
        .fatal [.fopen inp.path_session, .state_load_file inp.path_session] ∧
      ∀ inps, main_run env inp inps = .exit 1 []) ∧
    (inp.path_session = [] →
      load_session env.n_ctx inp = .cont [] [] inp.prompt ∧
      (inp.prompt.length ≤ env.n_ctx → inp.decode_fails = false →
        ∃ s, startup env.n_ctx inp = .running s ∧ s.session_tokens = [] ∧
          s.n_session_consumed = 0)) := by
  refine ⟨?_, ?_, ?_⟩
  · intro hp ho
    have hl : load_session env.n_ctx inp = .cont [.fopen inp.path_session] [] inp.prompt := by
      simp [load_session, hp, ho]
    refine ⟨hl, fun hfit hd => ?_⟩
    rw [startup_of_cont _ _ _ _ _ hr hl hfit]
    simp [hd, init_state]
  · intro hp ho hn
    have hl : load_session env.n_ctx inp =
        .fatal [.fopen inp.path_session, .state_load_file inp.path_session] := by
      simp [load_session, hp, ho, hn]
    refine ⟨hl, fun inps => ?_⟩
    simp [main_run, startup_of_fatal _ _ _ hr hl]
  · intro hp
    have hl : load_session env.n_ctx inp = .cont [] [] inp.prompt := by
      simp [load_session, hp]
    refine ⟨hl, fun hfit hd => ?_⟩
    rw [startup_of_cont _ _ _ _ _ hr hl hfit]
    simp [hd, init_state]

/-- Instances of C16: a session path without file, a file that fails to load, and no session
path. -/
theorem session_load_outcomes_witness :
    (∃ s, startup env_bob.n_ctx absent_session_start = .running s ∧ s.session_tokens = [] ∧
      s.n_session_consumed = 0) ∧
    (∀ inps, main_run env_bob corrupt_session_start inps = .exit 1 []) ∧
    load_session env_bob.n_ctx no_session_start = .cont [] [] [1, 2, 3, 4] :=
  ⟨((session_load_outcomes env_bob absent_session_start (by decide)).1 (by decide)
      (by decide)).2 (by decide) (by decide),
    ((session_load_outcomes env_bob corrupt_session_start (by decide)).2.1 (by decide)
      (by decide) (by decide)).2,
    ((session_load_outcomes env_bob no_session_start (by decide)).2.2 (by decide)).1⟩

/-! ## What a pass of the generation loop logs -/

theorem speaks_append (l m : List Event) : speaks (l ++ m) = speaks l ++ speaks m := by
  induction l with
  | nil => rfl
  | cons e rest ih => cases e <;> simp [speaks, ih]

theorem keeps_flags_refl (s : TurnState) : keeps_flags s s :=
  ⟨rfl, rfl, rfl, rfl, Or.inl rfl⟩

theorem overflow_keeps_flags (env : Env) (s t : TurnState)
    (h : prepare_for_overflow env s = some t) : keeps_flags s t ∧ t.log = s.log := by
  unfold prepare_for_overflow at h
  split_ifs at h <;> cases h
  · exact ⟨⟨rfl, rfl, rfl, rfl, Or.inr rfl⟩, rfl⟩
  · exact ⟨keeps_flags_refl s, rfl⟩

theorem reconcile_keeps_flags (t u : TurnState) (h : reconcile_with_cache t = some u) :
    keeps_flags t u ∧ u.path_session = t.path_session ∧ u.log = t.log := by
  rw [reconcile_with_cache_eq] at h
  cases h
  exact ⟨⟨rfl, rfl, rfl, rfl, Or.inl rfl⟩, rfl, rfl⟩

theorem commit_keeps_flags (u : TurnState) :
    keeps_flags u (commit_evaluated u) ∧ (commit_evaluated u).path_session = u.path_session ∧
      (commit_evaluated u).log = u.log := by
  unfold commit_evaluated
  split_ifs <;> exact ⟨⟨rfl, rfl, rfl, rfl, Or.inl rfl⟩, rfl, rfl⟩

/-- What the predict block can end in: an access outside a vector; or, with nothing pending, the
state as it was; or one call of `llama_decode`, after which control goes on, or `main` returns 1
when the call failed. -/
theorem predict_cases (env : Env) (fails : Bool) (s : TurnState) :
    predict env fails s = .undefined ∨
    (s.embd.length = 0 ∧ predict env fails s = .ok s) ∨
    ∃ x batch, keeps_flags s x ∧ x.log = s.log ++ [Event.decode batch] ∧
      ((fails = false ∧ predict env fails s = .ok x) ∨
        (fails = true ∧ predict env fails s = .fatal x)) := by
  unfold predict
  by_cases h0 : s.embd.length > 0
  · simp only [h0, if_true]
    cases h1 : prepare_for_overflow env s with
    | none => left; rfl
    | some t =>
      obtain ⟨u, h2⟩ : ∃ u, reconcile_with_cache t = some u := ⟨_, reconcile_with_cache_eq t⟩
      simp only [h2]
      obtain ⟨f1, l1⟩ := overflow_keeps_flags env s t h1
      obtain ⟨f2, p2, l2⟩ := reconcile_keeps_flags t u h2
      obtain ⟨f3, p3, l3⟩ := commit_keeps_flags u
      have hk : keeps_flags s (commit_evaluated u) := by
        obtain ⟨a1, a2, a3, a4, a5⟩ := f1
        obtain ⟨b1, b2, b3, b4, -⟩ := f2
        obtain ⟨c1, c2, c3, c4, -⟩ := f3
        refine ⟨by rw [c1, b1, a1], by rw [c2, b2, a2], by rw [c3, b3, a3],
          by rw [c4, b4, a4], ?_⟩
        rw [p3, p2]
        exact a5
      have hlog : (commit_evaluated u).log = s.log := by rw [l3, l2, l1]
      rcases decode_block_cases env fails (commit_evaluated u) with h | ⟨hf, h⟩ | ⟨hf, h⟩
      · left; exact h
      · right; right
        refine ⟨{ commit_evaluated u with
            log := (commit_evaluated u).log ++ [Event.decode
              (prepare_batch (commit_evaluated u).n_past (commit_evaluated u).embd)] },
          prepare_batch (commit_evaluated u).n_past (commit_evaluated u).embd, hk, ?_,
          Or.inl ⟨hf, h⟩⟩
        simp only [hlog]
      · right; right
        refine ⟨{ commit_evaluated u with
            log := (commit_evaluated u).log ++ [Event.decode
              (prepare_batch (commit_evaluated u).n_past (commit_evaluated u).embd)] },
          prepare_batch (commit_evaluated u).n_past (commit_evaluated u).embd, hk, ?_,
          Or.inr ⟨hf, h⟩⟩
        simp only [hlog]
  · right; left
    exact ⟨by omega, by simp [h0]⟩

/-- The saves and the speech calls of one pass of the generation loop: nothing is spoken; at most
one save is made, and only from a state where `done` is unset, the flag is up and the session
path is non-empty; a pass that goes on ends in a state from which no save is possible. -/
theorem iter_saves (env : Env) (inp : IterInput) (s s1 : TurnState)
    (h : iter env inp s = .ok s1 ∨ iter env inp s = .leave s1 ∨ iter env inp s = .fatal s1) :
    speaks s1.log = speaks s.log ∧
    (saves s1.log = saves s.log ∨
      (s.done = false ∧ s.need_to_save_session = true ∧ s.path_session ≠ [] ∧
        ∃ toks, saves s1.log = saves s.log ++ [Event.save s.path_session toks])) ∧
    (iter env inp s = .ok s1 → save_blocked s1) := by
  have hdec : ∀ (x : TurnState) (batch : List BatchEntry),
      x.log = s.log ++ [Event.decode batch] →
      speaks x.log = speaks s.log ∧ saves x.log = saves s.log := by
    intro x batch hx
    rw [hx, speaks_append, saves_append]
    simp [speaks, saves]
  -- the part of the pass after the predict block, from a state `x`
  have tail : ∀ x : TurnState, keeps_flags s x →
      speaks x.log = speaks s.log → saves x.log = saves s.log →
      ∀ r, (if (advance x).done = true then Result.leave (advance x)
        else
          match check_stop env (sample env inp.id (save_session (advance x))) with
          | none => Result.undefined
          | some s3 =>
            if ({ s3 with is_running := inp.poll } : TurnState).is_running = false then
              Result.leave { s3 with is_running := inp.poll }
            else Result.ok { s3 with is_running := inp.poll }) = r →
      (r = .ok s1 ∨ r = .leave s1 ∨ r = .fatal s1) →
      speaks s1.log = speaks s.log ∧
      (saves s1.log = saves s.log ∨
        (s.done = false ∧ s.need_to_save_session = true ∧ s.path_session ≠ [] ∧
          ∃ toks, saves s1.log = saves s.log ++ [Event.save s.path_session toks])) ∧
      (r = .ok s1 → save_blocked s1) := by
    intro x ⟨k1, k2, k3, k4, k5⟩ hsp hsv r hr hres
    by_cases hd : (advance x).done = true
    · rw [if_pos hd] at hr
      subst hr
      rcases hres with h1 | h1 | h1 <;> cases h1
      exact ⟨hsp, Or.inl hsv, fun h2 => by cases h2⟩
    · rw [if_neg hd] at hr
      have hxd : x.done = false := by simpa [advance] using hd
      cases hc : check_stop env (sample env inp.id (save_session (advance x))) with
      | none =>
        rw [hc] at hr
        subst hr
        rcases hres with h1 | h1 | h1 <;> cases h1
      | some s3 =>
        rw [hc] at hr
        dsimp only at hr
        -- the state after the save block and the sample
        have hsave : (speaks (save_session (advance x)).log = speaks s.log) ∧
            (save_session (advance x)).done = false ∧
            ((saves (save_session (advance x)).log = saves s.log ∧
                ((save_session (advance x)).path_session = [] ∨
                  (save_session (advance x)).need_to_save_session = false)) ∨
              (s.need_to_save_session = true ∧ s.path_session ≠ [] ∧
                (save_session (advance x)).need_to_save_session = false ∧
                ∃ toks, saves (save_session (advance x)).log
                  = saves s.log ++ [Event.save s.path_session toks])) := by
          unfold save_session
          split_ifs with hcond
          · obtain ⟨hp, hn⟩ := hcond
            simp only [advance] at hp hn
            have hpath : x.path_session = s.path_session := by
              rcases k5 with h5 | h5
              · exact h5
              · exact absurd h5 hp
            refine ⟨?_, by simpa [advance] using hxd, Or.inr ⟨?_, ?_, rfl, x.session_tokens, ?_⟩⟩
            · simp only [advance, speaks_append, hsp]
              simp [speaks]
            · rw [← k1]; exact hn
            · rw [← hpath]; exact hp
            · simp only [advance, saves_append, hsv, hpath]
              simp [saves]
          · refine ⟨by simpa [advance] using hsp, by simpa [advance] using hxd, Or.inl ⟨?_, ?_⟩⟩
            · simpa [advance] using hsv
            · by_cases hp : (advance x).path_session = []
              · exact Or.inl hp
              · right
                have : ¬ (advance x).need_to_save_session = true := fun hn => hcond ⟨hp, hn⟩
                simpa using this
        have hsample : ∀ y : TurnState,
            speaks (sample env inp.id y).log = speaks y.log ∧
            saves (sample env inp.id y).log = saves y.log ∧
            (sample env inp.id y).done = y.done ∧
            (sample env inp.id y).path_session = y.path_session ∧
            (sample env inp.id y).need_to_save_session = y.need_to_save_session := by
          intro y
          unfold sample
          split_ifs <;> simp [speaks_append, saves_append, speaks, saves]
        obtain ⟨q1, q2, q3, q4, q5⟩ := hsample (save_session (advance x))
        obtain ⟨hsp2, hd2, hsv2⟩ := hsave
        -- the antiprompt check
        have hstop : speaks s3.log = speaks s.log ∧
            saves s3.log = saves (save_session (advance x)).log ∧
            (s3.done = true ∨
              (s3.path_session = (save_session (advance x)).path_session ∧
                s3.need_to_save_session = (save_session (advance x)).need_to_save_session)) := by
          obtain ⟨t, -, h2 | ⟨a, -, -, h2⟩⟩ := check_stop_cases env _ s3 hc
          · subst h2
            exact ⟨by rw [q1, hsp2], q2, Or.inr ⟨q4, q5⟩⟩
          · subst h2
            exact ⟨by simp only [q1, hsp2], by simp only [q2], Or.inl rfl⟩
        obtain ⟨r1, r2, r3⟩ := hstop
        have hfin : s1 = { s3 with is_running := inp.poll } := by
          split_ifs at hr <;> subst hr <;> rcases hres with h1 | h1 | h1 <;> cases h1 <;> rfl
        subst hfin
        refine ⟨r1, ?_, ?_⟩
        · rcases hsv2 with ⟨e1, -⟩ | ⟨e1, e2, -, toks, e4⟩
          · left
            simp only [r2, e1]
          · right
            refine ⟨?_, e1, e2, toks, by simp only [r2, e4]⟩
            rw [← k2]; exact hxd
        · intro _
          rcases r3 with r3 | ⟨r3, r4⟩
          · exact Or.inl r3
          · right
            rcases hsv2 with ⟨-, e2 | e2⟩ | ⟨-, -, e3, -⟩
            · left; simp only [r3, e2]
            · right; simp only [r4, e2]
            · right; simp only [r4, e3]
  unfold iter at h ⊢
  rcases predict_cases env inp.decode_fails s with hu | ⟨-, hp⟩ | ⟨x, batch, hk, hlog, hp⟩
  · rw [hu] at h
    rcases h with h | h | h <;> cases h
  · rw [hp] at h ⊢
    exact tail s (keeps_flags_refl s) rfl rfl _ rfl h
  · obtain ⟨hsp, hsv⟩ := hdec x batch hlog
    rcases hp with ⟨-, hp⟩ | ⟨-, hp⟩
    · rw [hp] at h ⊢
      exact tail x hk hsp hsv _ rfl h
    · rw [hp] at h ⊢
      rcases h with h | h | h <;> cases h
      exact ⟨hsp, Or.inl hsv, fun h2 => by cases h2⟩

/-- The saves and the speech calls of a generation loop: nothing is spoken, and at most one save
is made, only when the loop starts with the flag up and a session path. -/
theorem generation_loop_saves (env : Env) (inps : List IterInput) (s s1 : TurnState)
    (h : generation_loop env inps s = .ok s1 ∨ generation_loop env inps s = .leave s1 ∨
      generation_loop env inps s = .fatal s1) :
    speaks s1.log = speaks s.log ∧
    (saves s1.log = saves s.log ∨
      (s.done = false ∧ s.need_to_save_session = true ∧ s.path_session ≠ [] ∧
        ∃ toks, saves s1.log = saves s.log ++ [Event.save s.path_session toks])) := by
  induction inps generalizing s with
  | nil =>
    simp only [generation_loop] at h
    rcases h with h | h | h <;> cases h
    exact ⟨rfl, Or.inl rfl⟩
  | cons inp rest ih =>
    unfold generation_loop at h
    cases hi : iter env inp s with
    | ok t =>
      simp only [hi] at h
      obtain ⟨a1, a2, a3⟩ := iter_saves env inp s t (Or.inl hi)
      obtain ⟨b1, b2⟩ := ih t h
      have hblocked := a3 hi
      have hsame : saves s1.log = saves t.log := by
        rcases b2 with b2 | ⟨c1, c2, c3, -⟩
        · exact b2
        · rcases hblocked with hb | hb | hb
          · rw [hb] at c1; exact absurd c1 (by decide)
          · exact absurd hb c3
          · rw [hb] at c2; exact absurd c2 (by decide)
      refine ⟨b1.trans a1, ?_⟩
      rcases a2 with a2 | ⟨d1, d2, d3, toks, d4⟩
      · exact Or.inl (hsame.trans a2)
      · exact Or.inr ⟨d1, d2, d3, toks, hsame.trans d4⟩
    | leave t =>
      simp only [hi] at h
      rcases h with h | h | h <;> cases h
      obtain ⟨a1, a2, -⟩ := iter_saves env inp s s1 (Or.inr (Or.inl hi))
      exact ⟨a1, a2⟩
    | fatal t =>
      simp only [hi] at h
      rcases h with h | h | h <;> cases h
      obtain ⟨a1, a2, -⟩ := iter_saves env inp s s1 (Or.inr (Or.inr hi))
      exact ⟨a1, a2⟩
    | undefined =>
      simp only [hi] at h
      rcases h with h | h | h <;> cases h

/-- An atomic step raises the save flag only by the antiprompt check, in a state whose tail text
matches an antiprompt. -/
theorem step_sets_save_flag (env : Env) (s s1 : TurnState) (h : Step env s s1)
    (hd : s.need_to_save_session = false) (hd1 : s1.need_to_save_session = true) :
    ∃ t a, last_output env s = some t ∧ a ∈ antiprompts env ∧
      find t a (size_sub t.length a.length) ≠ npos ∧ check_stop env s = some s1 := by
  have absurd_of : ∀ {p : Prop}, s1.need_to_save_session = s.need_to_save_session → p := by
    intro p he
    rw [he, hd] at hd1
    exact absurd hd1 (by decide)
  cases h with
  | turn_start tokens embd => exact absurd_of rfl
  | overflow h =>
    unfold prepare_for_overflow at h
    split_ifs at h <;> cases h <;> exact absurd_of rfl
  | reconcile h =>
    rw [reconcile_with_cache_eq] at h
    cases h
    exact absurd_of rfl
  | commit =>
    apply absurd_of
    unfold commit_evaluated
    split_ifs <;> rfl
  | decode_ok fails h =>
    rcases decode_block_cases env fails s with h2 | ⟨-, h2⟩ | ⟨-, h2⟩ <;> rw [h2] at h <;>
      cases h
    exact absurd_of rfl
  | decode_fatal fails h =>
    rcases decode_block_cases env fails s with h2 | ⟨-, h2⟩ | ⟨-, h2⟩ <;> rw [h2] at h <;>
      cases h
    exact absurd_of rfl
  | advance => exact absurd_of rfl
  | save =>
    unfold save_session at hd1
    split_ifs at hd1
    rw [hd] at hd1
    exact absurd hd1 (by decide)
  | sample id =>
    apply absurd_of
    unfold sample
    split_ifs <;> rfl
  | check_stop h =>
    obtain ⟨t, ht, h2 | ⟨a, ha, hf, h2⟩⟩ := check_stop_cases env s s1 h
    · subst h2; exact absurd_of rfl
    · exact ⟨t, a, ht, ha, hf, h⟩
  | poll b => exact absurd_of rfl
  | speak => exact absurd_of rfl

/-! ## The passes of the main loop -/

/-- A pass of the main loop either starts no Turn and only records the poll, or goes through the
loop on `stdin` and, when that loop is left, runs the generation loop of a Turn and, when that
loop is left by `break`, calls the speech sink. -/
theorem main_iter_cases (env : Env) (inp : LoopInput) (s : TurnState) :
    ((inp.vad = false ∨ transcript inp = [] ∨ inp.tokens = []) ∧
      main_iter env inp s = .running { s with is_running := inp.poll }) ∨
    (inp.vad = true ∧ transcript inp ≠ [] ∧ inp.tokens ≠ [] ∧
      ((stdin_loop inp.stdin_eof inp.stdin_words = .blocked ∧
          main_iter env inp s = .blocked { s with is_running := inp.poll }) ∨
        (stdin_loop inp.stdin_eof inp.stdin_words = .undefined ∧
          main_iter env inp s = .undefined) ∨
        (stdin_loop inp.stdin_eof inp.stdin_words = .ended ∧
          main_iter env inp s =
            match generation_loop env inp.passes
              (turn_start inp.tokens inp.embd { s with is_running := inp.poll }) with
            | .leave s2 => .running (speak s2)
            | .fatal s2 => .exit 1 s2.log
            | .ok s2 => .pending s2
            | .undefined => .undefined))) := by
  unfold main_iter transcript
  by_cases hv : inp.vad = true
  · by_cases hr : cleanup (if inp.wsp_ok = true then inp.text else []) = [] ∨ inp.tokens = []
    · left
      refine ⟨Or.inr hr, ?_⟩
      simp only [hv, if_true, hr]
    · right
      have h1 : cleanup (if inp.wsp_ok = true then inp.text else []) ≠ [] := fun h => hr (Or.inl h)
      have h2 : inp.tokens ≠ [] := fun h => hr (Or.inr h)
      refine ⟨hv, h1, h2, ?_⟩
      simp only [hv, if_true, hr, if_false]
      cases hs : stdin_loop inp.stdin_eof inp.stdin_words with
      | blocked => exact Or.inl ⟨rfl, rfl⟩
      | undefined => exact Or.inr (Or.inl ⟨rfl, rfl⟩)
      | ended => exact Or.inr (Or.inr ⟨rfl, rfl⟩)
  · left
    refine ⟨Or.inl (by simpa using hv), ?_⟩
    simp only [hv, if_false]
    rfl

theorem cleanup_nil : cleanup [] = [] := by decide

/-! ## C14: when the session file is saved -/

/-- C14, the claim as stated fails: the session file holds exactly the prompt, so the matching
length is the whole prompt and `need_to_save_session` starts false; three Turns are completed by
an antiprompt match.  Each match raises the flag again (line 976), and the second and the third
Turn each save the session file: two saves in the run. -/
theorem save_repeats_counterexample :
    ∃ s0 s, startup env_bob.n_ctx session_hit_start = .running s0 ∧
      n_matching_session_tokens s0.session_tokens s0.embd_inp = s0.embd_inp.length ∧
      s0.need_to_save_session = false ∧
      main_run env_bob session_hit_start [bob_turn, bob_turn, bob_turn] = .running s ∧
      (speaks s.log).length = 3 ∧
      (saves s.log).length = 2 :=
  ⟨_, _, rfl, by decide, by decide, rfl, by decide, by decide⟩

/-- What a pass whose predict block goes on does about the session file: with `done` unset, the
flag up and the session path still non-empty after the predict block, it saves the whole session
cache exactly once. -/
theorem iter_saves_forward (env : Env) (inp : IterInput) (s x s1 : TurnState)
    (hp : predict env inp.decode_fails s = .ok x) (hd : s.done = false)
    (hf : s.need_to_save_session = true) (hpath : x.path_session ≠ [])
    (h : iter env inp s = .ok s1 ∨ iter env inp s = .leave s1) :
    saves s1.log = saves s.log ++ [Event.save x.path_session x.session_tokens] := by
  have hx : x.done = false ∧ x.need_to_save_session = true ∧ saves x.log = saves s.log := by
    rcases predict_cases env inp.decode_fails s with hu | ⟨-, h0⟩ | ⟨y, batch, hk, hlog, hy⟩
    · rw [hu] at hp; cases hp
    · rw [h0] at hp; cases hp
      exact ⟨hd, hf, rfl⟩
    · rcases hy with ⟨-, hy⟩ | ⟨-, hy⟩
      · rw [hy] at hp; cases hp
        obtain ⟨k1, k2, -, -, -⟩ := hk
        refine ⟨by rw [k2, hd], by rw [k1, hf], ?_⟩
        rw [hlog, saves_append]
        simp [saves]
      · rw [hy] at hp; cases hp
  obtain ⟨xd, xf, xs⟩ := hx
  have hsave : (save_session (advance x)).log
      = x.log ++ [Event.save x.path_session x.session_tokens] := by
    simp [save_session, advance, hpath, xf]
  have hsample : saves (sample env inp.id (save_session (advance x))).log
      = saves s.log ++ [Event.save x.path_session x.session_tokens] := by
    have e : (sample env inp.id (save_session (advance x))).log
        = (save_session (advance x)).log ++ [Event.sample inp.id] := by
      unfold sample
      split_ifs <;> rfl
    rw [e, hsave, saves_append, saves_append, xs]
    simp [saves]
  unfold iter at h
  rw [hp] at h
  dsimp only at h
  have hd2 : ¬ (advance x).done = true := by
    simp [advance, xd]
  rw [if_neg hd2] at h
  cases hc : check_stop env (sample env inp.id (save_session (advance x))) with
  | none => rw [hc] at h; rcases h with h | h <;> cases h
  | some s3 =>
    rw [hc] at h
    dsimp only at h
    have hs3 : saves s3.log = saves s.log ++ [Event.save x.path_session x.session_tokens] := by
      obtain ⟨_, _, h3 | ⟨_, _, _, h3⟩⟩ := check_stop_cases env _ _ hc
      · rw [h3]; exact hsample
      · rw [h3]; exact hsample
    by_cases hpoll : inp.poll = false
    · rw [if_pos hpoll] at h
      rcases h with h | h <;> cases h
      exact hs3
    · rw [if_neg hpoll] at h
      rcases h with h | h <;> cases h
      exact hs3

/-- C14 as amended: (1) a pass of the main loop (one Turn) saves the session file at most once,
and only if, when the pass starts, a session path is in use and `need_to_save_session` is set;
(2) an atomic step raises the flag only by an antiprompt match; (3) the save block of lines
947-950 saves the whole session cache to the session path and clears the flag when the path is
non-empty and the flag is set, and does nothing otherwise; (4) a pass of the generation loop
whose predict block goes on with `done` unset, the flag set and the path still non-empty makes
that save; (5) so does the Turn of a pass of the main loop that starts with the flag set, in
its first pass, when `stdin` is at its end, the first predict block goes on and leaves the path
non-empty.  (The flag at start-up is the subject of C13.) -/
theorem save_once_per_turn (env : Env) :
    (∀ inp s s1, (main_iter env inp s = .running s1 ∨ main_iter env inp s = .pending s1) →
      (saves s1.log = saves s.log ∨
        (s.need_to_save_session = true ∧ s.path_session ≠ [] ∧
          ∃ toks, saves s1.log = saves s.log ++ [Event.save s.path_session toks]))) ∧
    (∀ s s1, Step env s s1 → s.need_to_save_session = false →
      s1.need_to_save_session = true →
      ∃ t a, last_output env s = some t ∧ a ∈ antiprompts env ∧
        find t a (size_sub t.length a.length) ≠ npos ∧ check_stop env s = some s1) ∧
    (∀ y : TurnState, y.path_session ≠ [] → y.need_to_save_session = true →
      (save_session y).log = y.log ++ [Event.save y.path_session y.session_tokens] ∧
      (save_session y).need_to_save_session = false) ∧
    (∀ y : TurnState, y.path_session = [] ∨ y.need_to_save_session = false →
      save_session y = y) ∧
    (∀ inp s x s1, predict env inp.decode_fails s = .ok x → s.done = false →
      s.need_to_save_session = true → x.path_session ≠ [] →
      (iter env inp s = .ok s1 ∨ iter env inp s = .leave s1) →
      saves s1.log = saves s.log ++ [Event.save x.path_session x.session_tokens]) ∧
    (∀ (turn : LoopInput) s first rest x s1, turn.vad = true → transcript turn ≠ [] →
      turn.tokens ≠ [] → stdin_loop turn.stdin_eof turn.stdin_words = .ended →
      turn.passes = first :: rest → s.need_to_save_session = true →
      predict env first.decode_fails
        (turn_start turn.tokens turn.embd { s with is_running := turn.poll }) = .ok x →
      x.path_session ≠ [] →
      (main_iter env turn s = .running s1 ∨ main_iter env turn s = .pending s1) →
      saves s1.log = saves s.log ++ [Event.save x.path_session x.session_tokens]) := by
  refine ⟨?_, step_sets_save_flag env, ?_, ?_, ?_, ?_⟩
  · intro inp s s1 h
    rcases main_iter_cases env inp s with ⟨-, h0⟩ | ⟨-, -, -, ⟨-, h0⟩ | ⟨-, h0⟩ | ⟨-, h0⟩⟩
    · rw [h0] at h
      rcases h with h | h <;> cases h
      exact Or.inl rfl
    · rw [h0] at h
      rcases h with h | h <;> cases h
    · rw [h0] at h
      rcases h with h | h <;> cases h
    · rw [h0] at h
      cases hg : generation_loop env inp.passes
          (turn_start inp.tokens inp.embd { s with is_running := inp.poll }) with
      | leave s2 =>
        simp only [hg] at h
        rcases h with h | h <;> cases h
        obtain ⟨-, h2⟩ := generation_loop_saves env _ _ s2 (Or.inr (Or.inl hg))
        rcases h2 with h2 | ⟨-, c2, c3, toks, c4⟩
        · left
          simp only [speak, saves_append, h2]
          simp [saves, turn_start]
        · right
          refine ⟨c2, c3, toks, ?_⟩
          simp only [speak, saves_append, c4]
          simp [saves, turn_start]
      | ok s2 =>
        simp only [hg] at h
        rcases h with h | h <;> cases h
        obtain ⟨-, h2⟩ := generation_loop_saves env _ _ s1 (Or.inl hg)
        rcases h2 with h2 | ⟨-, c2, c3, toks, c4⟩
        · exact Or.inl h2
        · exact Or.inr ⟨c2, c3, toks, c4⟩
      | fatal s2 =>
        simp only [hg] at h
        rcases h with h | h <;> cases h
      | undefined =>
        simp only [hg] at h
        rcases h with h | h <;> cases h
  · intro y hp hf
    simp [save_session, hp, hf]
  · intro y h
    unfold save_session
    rcases h with h | h
    · simp [h]
    · simp [h]
  · intro inp s x s1 hp hd hf hpath h
    exact iter_saves_forward env inp s x s1 hp hd hf hpath h
  · intro turn s first rest x s1 hv ht htok hstd hpass hf hp hpath h
    rcases main_iter_cases env turn s with ⟨h1 | h1 | h1, -⟩ |
      ⟨-, -, -, ⟨h1, -⟩ | ⟨h1, -⟩ | ⟨-, h0⟩⟩
    · rw [hv] at h1; exact absurd h1 (by decide)
    · exact absurd h1 ht
    · exact absurd h1 htok
    · rw [hstd] at h1; cases h1
    · rw [hstd] at h1; cases h1
    · rw [h0, hpass] at h
      unfold generation_loop at h
      have hlog0 : (turn_start turn.tokens turn.embd { s with is_running := turn.poll }).log
          = s.log := rfl
      have hd0 : (turn_start turn.tokens turn.embd { s with is_running := turn.poll }).done
          = false := rfl
      have hf0 : (turn_start turn.tokens turn.embd
          { s with is_running := turn.poll }).need_to_save_session = true := hf
      cases hi : iter env first
          (turn_start turn.tokens turn.embd { s with is_running := turn.poll }) with
      | undefined =>
        simp only [hi] at h
        rcases h with h | h <;> cases h
      | fatal t =>
        simp only [hi] at h
        rcases h with h | h <;> cases h
      | leave t =>
        simp only [hi] at h
        rcases h with h | h <;> cases h
        have e := iter_saves_forward env first _ x t hp hd0 hf0 hpath (Or.inr hi)
        rw [hlog0] at e
        simp only [speak, saves_append, e]
        simp [saves]
      | ok t =>
        simp only [hi] at h
        have e := iter_saves_forward env first _ x t hp hd0 hf0 hpath (Or.inl hi)
        rw [hlog0] at e
        obtain ⟨-, -, hb⟩ := iter_saves env first _ t (Or.inl hi)
        have hblocked := hb hi
        have rest_same : ∀ u, (generation_loop env rest t = .ok u ∨
            generation_loop env rest t = .leave u ∨ generation_loop env rest t = .fatal u) →
            saves u.log = saves t.log := by
          intro u hu
          obtain ⟨-, b2⟩ := generation_loop_saves env rest t u hu
          rcases b2 with b2 | ⟨c1, c2, c3, -⟩
          · exact b2
          · rcases hblocked with hb1 | hb1 | hb1
            · rw [hb1] at c1; exact absurd c1 (by decide)
            · exact absurd hb1 c3
            · rw [hb1] at c2; exact absurd c2 (by decide)
        cases hg : generation_loop env rest t with
        | undefined =>
          simp only [hg] at h
          rcases h with h | h <;> cases h
        | fatal u =>
          simp only [hg] at h
          rcases h with h | h <;> cases h
        | leave u =>
          simp only [hg] at h
          rcases h with h | h <;> cases h
          have e2 := rest_same u (Or.inr (Or.inl hg))
          simp only [speak, saves_append, e2, e]
          simp [saves]
        | ok u =>
          simp only [hg] at h
          rcases h with h | h <;> cases h
          rw [rest_same _ (Or.inl hg), e]

/-- Instances of C14: a Turn that starts with the flag down saves nothing; a Turn that starts
with the flag up and a session path saves once, in its first pass, the cache as the commit left
it. -/
theorem save_once_per_turn_witness :
    (∃ s1, main_iter env_bob bob_turn (init_state ['s'] prompt16 prompt16) = .running s1 ∧
      (init_state ['s'] prompt16 prompt16).need_to_save_session = false ∧
      saves s1.log = [] ∧
      (saves s1.log = saves (init_state ['s'] prompt16 prompt16).log ∨
        ((init_state ['s'] prompt16 prompt16).need_to_save_session = true ∧
          (init_state ['s'] prompt16 prompt16).path_session ≠ [] ∧
          ∃ toks, saves s1.log = saves (init_state ['s'] prompt16 prompt16).log
            ++ [Event.save (init_state ['s'] prompt16 prompt16).path_session toks]))) ∧
    (∃ s1 x, main_iter env_bob bob_turn fresh_session_state = .running s1 ∧
      predict env_bob false
        (turn_start bob_turn.tokens bob_turn.embd
          { fresh_session_state with is_running := bob_turn.poll }) = .ok x ∧
      x.path_session = ['s'] ∧ x.session_tokens = [50] ∧
      saves s1.log = saves fresh_session_state.log
        ++ [Event.save x.path_session x.session_tokens]) :=
  ⟨⟨_, rfl, by decide, by decide,
      (save_once_per_turn env_bob).1 bob_turn (init_state ['s'] prompt16 prompt16) _
        (Or.inl rfl)⟩,
    ⟨_, _, rfl, rfl, by decide, by decide,
      (save_once_per_turn env_bob).2.2.2.2.2 bob_turn fresh_session_state _ _ _ _
        (by decide) (by decide) (by decide) (by decide) rfl (by decide) rfl (by decide)
        (Or.inl rfl)⟩⟩

/-! ## C17: an abandoned Turn -/

/-- C17: in a pass of the main loop, when the recognizer returns a non-zero status, or the
cleaned text is empty, or it tokenizes to no tokens, the pass ends without a Turn (by `continue`
when speech was heard): `main` does not return, nothing is added to the log (no decode, no
sampling, no speech), and `n_past`, the history, the session cache, `n_session_consumed`, the
session path and `need_to_save_session` are as before; the main loop then goes on from that
state. -/
theorem abandoned_turn_changes_nothing (env : Env) (inp : LoopInput) (s : TurnState)
    (h : inp.wsp_ok = false ∨ cleanup inp.text = [] ∨ inp.tokens = []) :
    ∃ s1, main_iter env inp s = .running s1 ∧
      s1.log = s.log ∧ s1.n_past = s.n_past ∧ s1.embd_inp = s.embd_inp ∧
      s1.session_tokens = s.session_tokens ∧ s1.n_session_consumed = s.n_session_consumed ∧
      s1.path_session = s.path_session ∧ s1.need_to_save_session = s.need_to_save_session ∧
      (∀ rest, s.is_running = true → main_loop env (inp :: rest) s = main_loop env rest s1) := by
  have habandon : transcript inp = [] ∨ inp.tokens = [] := by
    rcases h with h | h | h
    · left; simp [transcript, h, cleanup_nil]
    · left
      unfold transcript
      split_ifs
      · exact h
      · exact cleanup_nil
    · right; exact h
  have hm : main_iter env inp s = .running { s with is_running := inp.poll } := by
    rcases main_iter_cases env inp s with ⟨-, h0⟩ | ⟨-, h1, h2, -⟩
    · exact h0
    · rcases habandon with h3 | h3
      · exact absurd h3 h1
      · exact absurd h3 h2
  refine ⟨_, hm, rfl, rfl, rfl, rfl, rfl, rfl, rfl, ?_⟩
  intro rest hrun
  simp [main_loop, hrun, hm]

/-- Instances of C17: the recognizer fails, and the recognized text is only a bracketed
annotation. -/
theorem abandoned_turn_changes_nothing_witness :
    (∃ s1, main_iter env_bob failed_transcription fresh_session_state = .running s1 ∧
      s1.log = fresh_session_state.log ∧ s1.n_past = fresh_session_state.n_past ∧
      s1.embd_inp = fresh_session_state.embd_inp ∧
      s1.session_tokens = fresh_session_state.session_tokens ∧
      s1.n_session_consumed = fresh_session_state.n_session_consumed ∧
      s1.path_session = fresh_session_state.path_session ∧
      s1.need_to_save_session = fresh_session_state.need_to_save_session ∧
      (∀ rest, fresh_session_state.is_running = true →
        main_loop env_bob (failed_transcription :: rest) fresh_session_state
          = main_loop env_bob rest s1)) ∧
    cleanup " [BLANK_AUDIO] (silence)".toList = [] :=
  ⟨abandoned_turn_changes_nothing env_bob failed_transcription fresh_session_state
    (Or.inl (by decide)), by decide⟩

/-! ## C18: cancellation -/

/-- C18, the code at a failing input: `sdl_poll_events` returns false at line 790 of a pass in
which speech is heard and transcribed.  The pass goes on: a Turn is started, three batches are
decoded and two tokens sampled after that poll, the polls of line 982 set `is_running` back to
true, and the main loop runs the next pass, with a second Turn. -/
theorem cancellation_poll_ignored :
    ∃ s1 s2, main_iter env_bob cancelled_turn (init_state [] [] prompt16) = .running s1 ∧
      cancelled_turn.poll = false ∧
      (init_state [] [] prompt16).log = [] ∧
      (decodes s1.log).length = 3 ∧ samples s1.log = [41, 42] ∧
      s1.is_running = true ∧
      main_loop env_bob [cancelled_turn, bob_turn] (init_state [] [] prompt16) = .running s2 ∧
      (decodes s2.log).length = 6 ∧ samples s2.log = [41, 42, 41, 42] :=
  ⟨_, _, rfl, by decide, by decide, by decide, by decide, by decide, rfl, by decide, by decide⟩

/-! ## C19: the calls of the speech sink -/

/-- C19, the claim as stated fails: the Turn of `interrupted_turn` is cancelled by the poll of
line 982 after the piece `" bye"`, with no antiprompt match (`done` unset, `is_running` false),
and the speech sink is still called, with the text `" bye"`. -/
theorem speech_after_cancellation_counterexample :
    ∃ s1, main_iter env_bob interrupted_turn (init_state [] [] prompt16) = .running s1 ∧
      s1.done = false ∧ s1.is_running = false ∧
      speaks s1.log = [" bye".toList] :=
  ⟨_, rfl, by decide, by decide, by decide⟩

/-- C19 as amended: in a pass of the main loop the speech sink is called exactly once when the
generation loop of the Turn is left by `break`, be it after an antiprompt match or after a
cancellation, with the output text as it is then, the loop on `stdin` of lines 844-855 having
been left before the Turn; it is not called in a pass that starts no Turn or abandons it, nor
in a pass that waits on `stdin`, nor when `main` returns after a failed decode. -/
theorem speech_once_per_left_turn (env : Env) (inp : LoopInput) (s : TurnState) :
    (∀ s1, main_iter env inp s = .running s1 →
      speaks s1.log = speaks s.log ∨
      ∃ s2, generation_loop env inp.passes
          (turn_start inp.tokens inp.embd { s with is_running := inp.poll }) = .leave s2 ∧
        (s2.done = true ∨ s2.is_running = false) ∧
        speaks s1.log = speaks s.log ++ [s2.text_to_speak]) ∧
    (∀ s2, inp.vad = true → transcript inp ≠ [] → inp.tokens ≠ [] →
      stdin_loop inp.stdin_eof inp.stdin_words = .ended →
      generation_loop env inp.passes
        (turn_start inp.tokens inp.embd { s with is_running := inp.poll }) = .leave s2 →
      main_iter env inp s = .running (speak s2) ∧
        speaks (speak s2).log = speaks s.log ++ [s2.text_to_speak]) ∧
    ((inp.vad = false ∨ transcript inp = [] ∨ inp.tokens = []) →
      ∃ s1, main_iter env inp s = .running s1 ∧ speaks s1.log = speaks s.log) ∧
    (∀ code log, main_iter env inp s = .exit code log → speaks log = speaks s.log) ∧
    (inp.vad = true → transcript inp ≠ [] → inp.tokens ≠ [] →
      stdin_loop inp.stdin_eof inp.stdin_words = .blocked →
      main_iter env inp s = .blocked { s with is_running := inp.poll }) := by
  have hleave : ∀ s2, generation_loop env inp.passes
      (turn_start inp.tokens inp.embd { s with is_running := inp.poll }) = .leave s2 →
      speaks (speak s2).log = speaks s.log ++ [s2.text_to_speak] := by
    intro s2 hg
    obtain ⟨h1, -⟩ := generation_loop_saves env _ _ s2 (Or.inr (Or.inl hg))
    simp only [speak, speaks_append, h1]
    simp [speaks, turn_start]
  refine ⟨?_, ?_, ?_, ?_, ?_⟩
  · intro s1 h
    rcases main_iter_cases env inp s with ⟨-, h0⟩ | ⟨-, -, -, ⟨-, h0⟩ | ⟨-, h0⟩ | ⟨-, h0⟩⟩
    · rw [h0] at h
      cases h
      exact Or.inl rfl
    · rw [h0] at h; cases h
    · rw [h0] at h; cases h
    · rw [h0] at h
      cases hg : generation_loop env inp.passes
          (turn_start inp.tokens inp.embd { s with is_running := inp.poll }) with
      | leave s2 =>
        simp only [hg] at h
        cases h
        right
        refine ⟨s2, rfl, ?_, hleave s2 hg⟩
        rcases generation_loop_cases env inp.passes
            (turn_start inp.tokens inp.embd { s with is_running := inp.poll })
          with h2 | ⟨u, h2, -⟩ | ⟨u, h2, -, hc⟩ | ⟨u, h2, -⟩ <;> rw [hg] at h2 <;> cases h2
        exact hc
      | ok s2 => simp only [hg] at h; cases h
      | fatal s2 => simp only [hg] at h; cases h
      | undefined => simp only [hg] at h; cases h
  · intro s2 hv ht htok hstd hg
    rcases main_iter_cases env inp s with ⟨h1 | h1 | h1, -⟩ |
      ⟨-, -, -, ⟨h1, -⟩ | ⟨h1, -⟩ | ⟨-, h0⟩⟩
    · rw [hv] at h1; exact absurd h1 (by decide)
    · exact absurd h1 ht
    · exact absurd h1 htok
    · rw [hstd] at h1; cases h1
    · rw [hstd] at h1; cases h1
    · rw [h0, hg]
      exact ⟨rfl, hleave s2 hg⟩
  · intro h
    rcases main_iter_cases env inp s with ⟨-, h0⟩ | ⟨hv, ht, htok, -⟩
    · exact ⟨_, h0, rfl⟩
    · rcases h with h | h | h
      · rw [hv] at h; exact absurd h (by decide)
      · exact absurd h ht
      · exact absurd h htok
  · intro code log h
    rcases main_iter_cases env inp s with ⟨-, h0⟩ | ⟨-, -, -, ⟨-, h0⟩ | ⟨-, h0⟩ | ⟨-, h0⟩⟩
    · rw [h0] at h
      cases h
    · rw [h0] at h; cases h
    · rw [h0] at h; cases h
    · rw [h0] at h
      cases hg : generation_loop env inp.passes
          (turn_start inp.tokens inp.embd { s with is_running := inp.poll }) with
      | fatal s2 =>
        simp only [hg] at h
        cases h
        obtain ⟨h1, -⟩ := generation_loop_saves env _ _ s2 (Or.inr (Or.inr hg))
        rw [h1]
        simp [turn_start]
      | ok s2 => simp only [hg] at h; cases h
      | leave s2 => simp only [hg] at h; cases h
      | undefined => simp only [hg] at h; cases h
  · intro hv ht htok hstd
    rcases main_iter_cases env inp s with ⟨h1 | h1 | h1, -⟩ |
      ⟨-, -, -, ⟨-, h0⟩ | ⟨h1, -⟩ | ⟨h1, -⟩⟩
    · rw [hv] at h1; exact absurd h1 (by decide)
    · exact absurd h1 ht
    · exact absurd h1 htok
    · exact h0
    · rw [hstd] at h1; cases h1
    · rw [hstd] at h1; cases h1

/-- Instances of C19: the Turn of `bob_turn` ends by the antiprompt `Bob:`; the sink is called
once, with the sampled text `"Bob:"` stripped of the antiprompt, the empty text.  With `stdin`
open and silent the same pass waits before the Turn, and nothing is spoken. -/
theorem speech_once_per_left_turn_witness :
    (∃ s2, generation_loop env_bob bob_turn.passes
        (turn_start bob_turn.tokens bob_turn.embd
          { init_state [] [] prompt16 with is_running := bob_turn.poll }) = .leave s2 ∧
      s2.done = true ∧
      main_iter env_bob bob_turn (init_state [] [] prompt16) = .running (speak s2) ∧
      speaks (speak s2).log = speaks (init_state [] [] prompt16).log ++ [s2.text_to_speak] ∧
      speaks (speak s2).log = [[]]) ∧
    main_iter env_bob waiting_turn (init_state [] [] prompt16)
      = .blocked { init_state [] [] prompt16 with is_running := waiting_turn.poll } :=
  ⟨⟨_, rfl, by decide,
      ((speech_once_per_left_turn env_bob bob_turn (init_state [] [] prompt16)).2.1 _
        (by decide) (by decide) (by decide) (by decide) rfl).1,
      ((speech_once_per_left_turn env_bob bob_turn (init_state [] [] prompt16)).2.1 _
        (by decide) (by decide) (by decide) (by decide) rfl).2,
      by decide⟩,
    (speech_once_per_left_turn env_bob waiting_turn (init_state [] [] prompt16)).2.2.2.2
      (by decide) (by decide) (by decide) (by decide)⟩

/-! ## What a pass does to the history and the log -/

theorem decodes_append (l m : List Event) : decodes (l ++ m) = decodes l ++ decodes m := by
  induction l with
  | nil => rfl
  | cons e l ih => cases e <;> simp [decodes, ih]

/-- Slot `j` of the batch filled from index `i` on. -/
theorem batch_from_get (n p : Nat) (l : List Token) (i j : Nat) :
    (batch_from n p i l)[j]? = l[j]?.map fun t =>
      { token := t, pos := p + (i + j), n_seq_id := 1, seq_id := 0,
        logits := decide (i + j = n - 1) } := by
  induction l generalizing i j with
  | nil => simp [batch_from]
  | cons t ts ih =>
    cases j with
    | zero => simp [batch_from]
    | succ j =>
      simp only [batch_from, List.getElem?_cons_succ, ih]
      have e : i + 1 + j = i + (j + 1) := by omega
      rw [e]

/-- The overflow step, the reuse step and the commit leave the history and the log alone. -/
theorem predict_history (env : Env) (s t u : TurnState)
    (h1 : prepare_for_overflow env s = some t) (h2 : reconcile_with_cache t = some u) :
    (commit_evaluated u).embd_inp = s.embd_inp ∧ (commit_evaluated u).log = s.log ∧
      (commit_evaluated u).embd = u.embd ∧ (commit_evaluated u).n_past = u.n_past := by
  have a : t.embd_inp = s.embd_inp ∧ t.log = s.log := by
    unfold prepare_for_overflow at h1
    split_ifs at h1 <;> cases h1 <;> exact ⟨rfl, rfl⟩
  have b : u.embd_inp = t.embd_inp ∧ u.log = t.log := by
    rw [reconcile_with_cache_eq] at h2
    cases h2
    exact ⟨rfl, rfl⟩
  have c : (commit_evaluated u).embd_inp = u.embd_inp := by
    unfold commit_evaluated
    split_ifs <;> rfl
  obtain ⟨c1, c2, c3⟩ := commit_evaluated_fields u
  exact ⟨by rw [c, b.1, a.1], by rw [c3, b.2, a.2], c2, c1⟩

/-- The save and the sampling keep the history and `n_past` and call no `llama_decode`. -/
theorem sample_save_fields (env : Env) (id : Token) (a : TurnState) :
    (sample env id (save_session a)).embd_inp = a.embd_inp ∧
      (sample env id (save_session a)).n_past = a.n_past ∧
      decodes (sample env id (save_session a)).log = decodes a.log := by
  unfold sample save_session
  split_ifs <;> simp [decodes_append, decodes]

/-- What follows the predict block in a pass that goes on or leaves the loop (lines 938-986):
the history grows by the pending tokens, `n_past` by their number, and no `llama_decode` is
called. -/
theorem iter_tail (env : Env) (inp : IterInput) (s x s1 : TurnState)
    (hp : predict env inp.decode_fails s = .ok x)
    (h : iter env inp s = .ok s1 ∨ iter env inp s = .leave s1) :
    s1.embd_inp = x.embd_inp ++ x.embd ∧ s1.n_past = x.n_past + x.embd.length ∧
      decodes s1.log = decodes x.log := by
  unfold iter at h
  rw [hp] at h
  dsimp only at h
  by_cases hd : (advance x).done = true
  · rw [if_pos hd] at h
    rcases h with h | h <;> cases h
    exact ⟨rfl, rfl, rfl⟩
  · rw [if_neg hd] at h
    cases hc : check_stop env (sample env inp.id (save_session (advance x))) with
    | none => rw [hc] at h; rcases h with h | h <;> cases h
    | some s3 =>
      rw [hc] at h
      dsimp only at h
      obtain ⟨f1, f2, f3⟩ := sample_save_fields env inp.id (advance x)
      have hs3 : s3.embd_inp = x.embd_inp ++ x.embd ∧ s3.n_past = x.n_past + x.embd.length ∧
          decodes s3.log = decodes x.log := by
        obtain ⟨_, _, h3 | ⟨_, _, _, h3⟩⟩ := check_stop_cases env _ _ hc
        · rw [h3]; exact ⟨f1, f2, f3⟩
        · rw [h3]; exact ⟨f1, f2, f3⟩
      by_cases hpoll : inp.poll = false
      · rw [if_pos hpoll] at h
        rcases h with h | h <;> cases h
        exact hs3
      · rw [if_neg hpoll] at h
        rcases h with h | h <;> cases h
        exact hs3

/-- The predict block with tokens pending: an access outside a vector, or the overflow step, the
reuse step, the commit and one `llama_decode`, whose answer decides between going on and
`return 1`. -/
theorem predict_eq (env : Env) (fails : Bool) (s : TurnState) (hne : s.embd.length > 0) :
    predict env fails s = .undefined ∨
    ∃ t u x, prepare_for_overflow env s = some t ∧ reconcile_with_cache t = some u ∧
      x.embd_inp = s.embd_inp ∧ x.embd = u.embd ∧ x.n_past = u.n_past ∧
      x.log = s.log ++ [Event.decode (prepare_batch u.n_past u.embd)] ∧
      ((fails = false ∧ predict env fails s = .ok x) ∨
        (fails = true ∧ predict env fails s = .fatal x)) := by
  unfold predict
  simp only [hne, if_true]
  cases h1 : prepare_for_overflow env s with
  | none => left; rfl
  | some t =>
    obtain ⟨u, h2⟩ : ∃ u, reconcile_with_cache t = some u := ⟨_, reconcile_with_cache_eq t⟩
    simp only [h2]
    obtain ⟨e1, e2, e3, e4⟩ := predict_history env s t u h1 h2
    rcases decode_block_cases env fails (commit_evaluated u) with h | ⟨hf, h⟩ | ⟨hf, h⟩
    · left; exact h
    · right
      refine ⟨t, u, { commit_evaluated u with
          log := (commit_evaluated u).log ++ [Event.decode
            (prepare_batch (commit_evaluated u).n_past (commit_evaluated u).embd)] },
        rfl, h2, e1, e3, e4, ?_, Or.inl ⟨hf, h⟩⟩
      simp only [e2, e3, e4]
    · right
      refine ⟨t, u, { commit_evaluated u with
          log := (commit_evaluated u).log ++ [Event.decode
            (prepare_batch (commit_evaluated u).n_past (commit_evaluated u).embd)] },
        rfl, h2, e1, e3, e4, ?_, Or.inr ⟨hf, h⟩⟩
      simp only [e2, e3, e4]

/-! ## C20: fatal errors -/

/-- A pass of the generation loop ends by `return 1` only when its `llama_decode` failed, and
then that call is the one entry that the pass adds to the log. -/
theorem iter_fatal (env : Env) (inp : IterInput) (s s1 : TurnState)
    (h : iter env inp s = .fatal s1) :
    inp.decode_fails = true ∧ ∃ batch, s1.log = s.log ++ [Event.decode batch] := by
  have tail : ∀ x : TurnState, iter env inp s = (if (advance x).done = true
      then Result.leave (advance x)
      else
        match check_stop env (sample env inp.id (save_session (advance x))) with
        | none => Result.undefined
        | some s3 =>
          if ({ s3 with is_running := inp.poll } : TurnState).is_running = false then
            Result.leave { s3 with is_running := inp.poll }
          else Result.ok { s3 with is_running := inp.poll }) → False := by
    intro x hx
    rw [h] at hx
    by_cases hd : (advance x).done = true
    · rw [if_pos hd] at hx
      cases hx
    · rw [if_neg hd] at hx
      cases hc : check_stop env (sample env inp.id (save_session (advance x))) with
      | none => rw [hc] at hx; cases hx
      | some s3 =>
        rw [hc] at hx
        dsimp only at hx
        by_cases hpoll : inp.poll = false
        · rw [if_pos hpoll] at hx
          cases hx
        · rw [if_neg hpoll] at hx
          cases hx
  rcases predict_cases env inp.decode_fails s with hu | ⟨-, hp⟩ | ⟨x, batch, -, hlog, hp⟩
  · unfold iter at h
    rw [hu] at h
    cases h
  · exact absurd (tail s (by unfold iter; rw [hp])) id
  · rcases hp with ⟨-, hp⟩ | ⟨hf, hp⟩
    · exact absurd (tail x (by unfold iter; rw [hp])) id
    · unfold iter at h
      rw [hp] at h
      cases h
      exact ⟨hf, batch, hlog⟩

/-- A generation loop that ends by `return 1` ends right after a failed `llama_decode`: the call
is the last entry of the log. -/
theorem generation_loop_fatal (env : Env) (inps : List IterInput) (s s1 : TurnState)
    (h : generation_loop env inps s = .fatal s1) :
    ∃ batch, s1.log.getLast? = some (Event.decode batch) := by
  induction inps generalizing s with
  | nil => simp [generation_loop] at h
  | cons inp rest ih =>
    unfold generation_loop at h
    cases hi : iter env inp s with
    | ok t => simp only [hi] at h; exact ih t h
    | leave t => simp only [hi] at h; cases h
    | undefined => simp only [hi] at h; cases h
    | fatal t =>
      simp only [hi] at h
      cases h
      obtain ⟨-, batch, hlog⟩ := iter_fatal env inp s _ hi
      exact ⟨batch, by rw [hlog]; simp⟩

/-! ## A failing decode -/

/-- The reuse step only drops pending tokens. -/
theorem reconcile_embd_length (t u : TurnState) (h : reconcile_with_cache t = some u) :
    u.embd.length ≤ t.embd.length := by
  rw [reconcile_with_cache_eq] at h
  cases h
  simp only [List.length_drop]
  omega

/-- A pass with tokens pending in which `llama_decode` fails, the overflow step being defined
and its batch within the `n_ctx` slots of the buffer: the pass ends by `return 1` right after
that one call, which gets the residual batch; the history is as before. -/
theorem iter_decode_fails (env : Env) (inp : IterInput) (s t : TurnState)
    (hne : s.embd.length > 0) (hf : inp.decode_fails = true)
    (h1 : prepare_for_overflow env s = some t) (hfit : t.embd.length ≤ env.n_ctx) :
    ∃ u x, reconcile_with_cache t = some u ∧ iter env inp s = .fatal x ∧
      x.log = s.log ++ [Event.decode (prepare_batch u.n_past u.embd)] ∧
      x.embd_inp = s.embd_inp := by
  obtain ⟨u, h2⟩ : ∃ u, reconcile_with_cache t = some u := ⟨_, reconcile_with_cache_eq t⟩
  obtain ⟨e1, e2, e3, e4⟩ := predict_history env s t u h1 h2
  have hlen := reconcile_embd_length t u h2
  have hnot : ¬ ((commit_evaluated u).embd.length > env.n_ctx) := by
    rw [e3]; omega
  refine ⟨u, { commit_evaluated u with
      log := (commit_evaluated u).log ++ [Event.decode
        (prepare_batch (commit_evaluated u).n_past (commit_evaluated u).embd)] },
    h2, ?_, ?_, e1⟩
  · unfold iter predict
    simp only [hne, if_true, h1, h2, decode_block, hnot, if_false, hf]
  · simp only [e2, e3, e4]

/-- The generation loop run against two lists of answers in a row. -/
theorem generation_loop_append (env : Env) (pre post : List IterInput) (s : TurnState) :
    generation_loop env (pre ++ post) s =
      match generation_loop env pre s with
      | .ok u => generation_loop env post u
      | r => r := by
  induction pre generalizing s with
  | nil => rfl
  | cons inp pre ih =>
    simp only [List.cons_append, generation_loop]
    cases iter env inp s with
    | ok t => exact ih t
    | leave t => rfl
    | fatal t => rfl
    | undefined => rfl

/-- A decode that fails inside a Turn, after any number of passes that went on: the generation
loop is left by `return 1` right after that call, whatever answers would follow, and the pass of
the main loop, hence `main`, returns 1. -/
theorem main_loop_decode_fails (env : Env) (turn : LoopInput) (later : List LoopInput)
    (s u t : TurnState) (pre post : List IterInput) (inp : IterInput)
    (hrun : s.is_running = true) (hv : turn.vad = true) (ht : transcript turn ≠ [])
    (htok : turn.tokens ≠ []) (hstd : stdin_loop turn.stdin_eof turn.stdin_words = .ended)
    (hpass : turn.passes = pre ++ inp :: post)
    (hpre : generation_loop env pre
      (turn_start turn.tokens turn.embd { s with is_running := turn.poll }) = .ok u)
    (hne : u.embd.length > 0) (hf : inp.decode_fails = true)
    (h1 : prepare_for_overflow env u = some t) (hfit : t.embd.length ≤ env.n_ctx) :
    ∃ w x, reconcile_with_cache t = some w ∧
      generation_loop env turn.passes
        (turn_start turn.tokens turn.embd { s with is_running := turn.poll }) = .fatal x ∧
      x.log = u.log ++ [Event.decode (prepare_batch w.n_past w.embd)] ∧
      x.embd_inp = u.embd_inp ∧
      main_iter env turn s = .exit 1 x.log ∧
      main_loop env (turn :: later) s = .exit 1 x.log := by
  obtain ⟨w, x, h2, hi, hlog, hemb⟩ := iter_decode_fails env inp u t hne hf h1 hfit
  have hg : generation_loop env turn.passes
      (turn_start turn.tokens turn.embd { s with is_running := turn.poll }) = .fatal x := by
    rw [hpass, generation_loop_append, hpre]
    simp only [generation_loop, hi]
  have hm : main_iter env turn s = .exit 1 x.log := by
    rcases main_iter_cases env turn s with ⟨h3 | h3 | h3, -⟩ |
      ⟨-, -, -, ⟨h3, -⟩ | ⟨h3, -⟩ | ⟨-, h0⟩⟩
    · rw [hv] at h3; exact absurd h3 (by decide)
    · exact absurd h3 ht
    · exact absurd h3 htok
    · rw [hstd] at h3; cases h3
    · rw [hstd] at h3; cases h3
    · rw [h0, hg]
  refine ⟨w, x, h2, hg, hlog, hemb, hm, ?_⟩
  simp [main_loop, hrun, hm]

/-- C20: `main` returns a non-zero status, with no second attempt, (1) when the speech model
fails to load (status 3), (2) when the language model fails to load (status 1), (3) when an
existing session file fails to load (status 1), (4) when the decode of the prompt fails
(status 1, after that one `llama_decode` call), and when a decode fails inside a Turn: (5) a
pass with tokens pending whose `llama_decode` fails ends by `return 1` right after that one
call, whatever answers would follow; (6) a pass ends by `return 1` in no other way; (7) when
this happens in any pass of the generation loop of a Turn, `main` returns 1 with that call as
the last one.  In (5) and (7) the overflow step of the pass is taken to be defined and its
batch to fit the `n_ctx` slots of the buffer, and in (7) the loop on `stdin` to have been
left. -/
theorem fatal_errors_exit_nonzero (env : Env) :
    (∀ start inps, start.args_exit = none → start.wsp_loaded = false →
      main_run env start inps = .exit 3 []) ∧
    (∀ start inps, start.args_exit = none → start.wsp_loaded = true →
      start.grammar_fails = false → start.llama_loaded = false →
      main_run env start inps = .exit 1 []) ∧
    (∀ start inps, reaches_session start = true → start.path_session ≠ [] →
      start.file_opens = true → start.loaded = none →
      main_run env start inps = .exit 1 []) ∧
    (∀ start inps calls session embd_inp, reaches_session start = true →
      load_session env.n_ctx start = .cont calls session embd_inp →
      embd_inp.length ≤ env.n_ctx → start.decode_fails = true →
      main_run env start inps = .exit 1 [Event.decode (prepare_batch 0 embd_inp)]) ∧
    (∀ inp rest s t, s.embd.length > 0 → inp.decode_fails = true →
      prepare_for_overflow env s = some t → t.embd.length ≤ env.n_ctx →
      ∃ s1 batch, iter env inp s = .fatal s1 ∧
        generation_loop env (inp :: rest) s = .fatal s1 ∧
        s1.log = s.log ++ [Event.decode batch]) ∧
    (∀ inp s s1, iter env inp s = .fatal s1 →
      inp.decode_fails = true ∧ ∃ batch, s1.log = s.log ++ [Event.decode batch]) ∧
    (∀ (turn : LoopInput) later s u t pre inp post, s.is_running = true → turn.vad = true →
      transcript turn ≠ [] → turn.tokens ≠ [] →
      stdin_loop turn.stdin_eof turn.stdin_words = .ended →
      turn.passes = pre ++ inp :: post →
      generation_loop env pre
        (turn_start turn.tokens turn.embd { s with is_running := turn.poll }) = .ok u →
      u.embd.length > 0 → inp.decode_fails = true →
      prepare_for_overflow env u = some t → t.embd.length ≤ env.n_ctx →
      ∃ batch, main_loop env (turn :: later) s = .exit 1 (u.log ++ [Event.decode batch])) := by
  refine ⟨?_, ?_, ?_, ?_, ?_, ?_, ?_⟩
  · intro start inps h1 h2
    simp [main_run, startup, h1, h2]
  · intro start inps h1 h2 h3 h4
    simp [main_run, startup, h1, h2, h3, h4]
  · intro start inps hr hp ho hn
    have hl : load_session env.n_ctx start =
        .fatal [.fopen start.path_session, .state_load_file start.path_session] := by
      simp [load_session, hp, ho, hn]
    simp [main_run, startup_of_fatal _ _ _ hr hl]
  · intro start inps calls session embd_inp hr hl hfit hd
    simp [main_run, startup_of_cont _ _ _ _ _ hr hl hfit, hd]
  · intro inp rest s t hne hf h1 hfit
    obtain ⟨u, x, -, hi, hlog, -⟩ := iter_decode_fails env inp s t hne hf h1 hfit
    refine ⟨x, _, hi, ?_, hlog⟩
    simp only [generation_loop, hi]
  · intro inp s s1 h
    exact iter_fatal env inp s s1 h
  · intro turn later s u t pre inp post hrun hv ht htok hstd hpass hpre hne hf h1 hfit
    obtain ⟨w, x, -, -, hlog, -, -, hm⟩ := main_loop_decode_fails env turn later s u t pre post
      inp hrun hv ht htok hstd hpass hpre hne hf h1 hfit
    exact ⟨_, by rw [← hlog]; exact hm⟩

/-- Instances of C20: the speech model fails to load; an existing session file fails to load; a
decode fails in the second pass of a Turn, after the prompt and the transcript were decoded and
the token `41` was sampled: `main` returns 1, and the failed call is the second and last decode
of the Turn. -/
theorem fatal_errors_exit_nonzero_witness :
    main_run env_bob no_speech_model_start [bob_turn] = .exit 3 [] ∧
    main_run env_bob corrupt_session_start [bob_turn] = .exit 1 [] ∧
    (∃ u, generation_loop env_bob [{ decode_fails := false, id := 41, poll := true }]
        (turn_start failing_turn.tokens failing_turn.embd
          { init_state [] [] prompt16 with is_running := failing_turn.poll }) = .ok u ∧
      ∃ batch, main_loop env_bob [failing_turn, bob_turn] (init_state [] [] prompt16)
        = .exit 1 (u.log ++ [Event.decode batch])) ∧
    (∃ log, main_loop env_bob [failing_turn, bob_turn] (init_state [] [] prompt16)
        = .exit 1 log ∧
      decodes log =
        [[{ token := 50, pos := 16, n_seq_id := 1, seq_id := 0, logits := true }],
          [{ token := 41, pos := 17, n_seq_id := 1, seq_id := 0, logits := true }]]) :=
  ⟨(fatal_errors_exit_nonzero env_bob).1 no_speech_model_start [bob_turn] (by decide)
      (by decide),
    (fatal_errors_exit_nonzero env_bob).2.2.1 corrupt_session_start [bob_turn] (by decide)
      (by decide) (by decide) (by decide),
    ⟨_, rfl,
      (fatal_errors_exit_nonzero env_bob).2.2.2.2.2.2 failing_turn [bob_turn]
        (init_state [] [] prompt16) _ _ [{ decode_fails := false, id := 41, poll := true }]
        { decode_fails := true, id := 42, poll := true }
        [{ decode_fails := false, id := 0, poll := true }]
        (by decide) (by decide) (by decide) (by decide) (by decide) rfl rfl (by decide) rfl
        rfl (by decide)⟩,
    ⟨_, rfl, by decide⟩⟩

/-! ## The loop of `whisper_params_parse` ends -/

theorem advances_next {P : Type} (i j : Nat) (params : P) (h : i ≤ j) :
    Advances i (ArgResult.next j params) := by
  intro j1 p1 e
  cases e
  exact h

theorem advances_stop {P : Type} (i : Nat) (r : ParseResult P) :
    Advances i (ArgResult.stop r) := by
  intro j1 p1 e
  cases e

theorem advances_ARGV_NEXT {P : Type} (argv : List CppString) (i : Nat) (arg : CppString)
    (k : Nat → CppString → ArgResult P) (h : ∀ v, Advances i (k (i + 1) v)) :
    Advances i (ARGV_NEXT argv i arg k) := by
  unfold ARGV_NEXT
  cases argv[i + 1]? with
  | none => exact advances_stop _ _
  | some v => exact h v

theorem advances_argv_incr {P : Type} (argv : List CppString) (i : Nat)
    (k : Nat → CppString → ArgResult P) (h : ∀ v, Advances i (k (i + 1) v)) :
    Advances i (argv_incr argv i k) := by
  unfold argv_incr
  cases argv[i + 1]? with
  | none => exact advances_stop _ _
  | some v => exact h v

theorem advances_with_stoi {P : Type} (i : Nat) (v : CppString) (k : Int → ArgResult P)
    (h : ∀ n, Advances i (k n)) : Advances i (with_stoi v k) := by
  unfold with_stoi
  cases stoi v with
  | none => exact advances_stop _ _
  | some n => exact h n

theorem advances_with_stof {P F : Type} (stof : CppString → Option F) (i : Nat) (v : CppString)
    (k : F → ArgResult P) (h : ∀ x, Advances i (k x)) : Advances i (with_stof stof v k) := by
  unfold with_stof
  cases stof v with
  | none => exact advances_stop _ _
  | some x => exact h x

theorem advances_ite {P : Type} (c : Prop) [Decidable c] (i : Nat) (a b : ArgResult P)
    (ha : Advances i a) (hb : Advances i b) : Advances i (if c then a else b) := by
  split <;> assumption

/-- The body of the loop of talk-llama.cpp never lowers `i`. -/
theorem whisper_params_parse_arg_advances {F : Type} (stof : CppString → Option F)
    (read_file : CppString → CppString) (argv : List CppString) (i : Nat) (arg : CppString)
    (params : whisper_params F) :
    Advances i (whisper_params_parse_arg stof read_file argv i arg params) := by
  unfold whisper_params_parse_arg
  repeat' first
    | apply advances_ite
    | exact advances_stop _ _
    | exact advances_next _ _ _ (Nat.le_refl _)
    | exact advances_ARGV_NEXT _ _ _ _ fun v => advances_next _ _ _ (Nat.le_succ _)
    | exact advances_argv_incr _ _ _ fun v => advances_next _ _ _ (Nat.le_succ _)
    | exact advances_ARGV_NEXT _ _ _ _ fun v =>
        advances_with_stoi _ _ _ fun n => advances_next _ _ _ (Nat.le_succ _)
    | exact advances_ARGV_NEXT _ _ _ _ fun v =>
        advances_with_stof _ _ _ _ fun x => advances_next _ _ _ (Nat.le_succ _)
    | (refine advances_argv_incr _ _ _ fun v => ?_
       dsimp only
       split
       · exact advances_stop _ _
       · exact advances_next _ _ _ (Nat.le_succ _))

/-- More fuel than the arguments left does not change the outcome of the loop of
talk-llama.cpp: the fuel `argc` of `whisper_params_parse` is never used up. -/
theorem whisper_params_parse_loop_fuel {F : Type} (stof : CppString → Option F)
    (read_file : CppString → CppString) (argv : List CppString) (fuel k i : Nat)
    (params : whisper_params F) (h : argv.length ≤ fuel + i) :
    whisper_params_parse_loop stof read_file argv (fuel + k) i params =
      whisper_params_parse_loop stof read_file argv fuel i params := by
  induction fuel generalizing i params with
  | zero =>
    have hn : argv[i]? = none := List.getElem?_eq_none (by omega)
    cases k with
    | zero => rfl
    | succ k =>
      rw [Nat.zero_add]
      unfold whisper_params_parse_loop
      rw [hn]
  | succ fuel ih =>
    have e : fuel + 1 + k = (fuel + k) + 1 := by omega
    rw [e]
    unfold whisper_params_parse_loop
    cases ha : argv[i]? with
    | none => rfl
    | some arg =>
      dsimp only
      cases hr : whisper_params_parse_arg stof read_file argv i arg params with
      | stop r => rfl
      | next j params1 =>
        dsimp only
        have hj := whisper_params_parse_arg_advances stof read_file argv i arg params j params1 hr
        exact ih (j + 1) params1 (by omega)

/-- The body of the loop of cli.cpp never lowers `i`. -/
theorem cli_parse_arg_advances {F : Type} (stof : CppString → Option F)
    (argv : List CppString) (i : Nat) (arg : CppString) (params : Cli.whisper_params F) :
    Advances i (Cli.whisper_params_parse_arg stof argv i arg params) := by
  unfold Cli.whisper_params_parse_arg
  repeat' first
    | apply advances_ite
    | exact advances_stop _ _
    | exact advances_next _ _ _ (Nat.le_refl _)
    | exact advances_ARGV_NEXT _ _ _ _ fun v => advances_next _ _ _ (Nat.le_succ _)
    | exact advances_ARGV_NEXT _ _ _ _ fun v =>
        advances_with_stoi _ _ _ fun n => advances_next _ _ _ (Nat.le_succ _)
    | exact advances_ARGV_NEXT _ _ _ _ fun v =>
        advances_with_stof _ _ _ _ fun x => advances_next _ _ _ (Nat.le_succ _)

/-- More fuel than the arguments left does not change the outcome of the loop of cli.cpp. -/
theorem cli_parse_loop_fuel {F : Type} (stof : CppString → Option F) (argv : List CppString)
    (fuel k i : Nat) (params : Cli.whisper_params F) (h : argv.length ≤ fuel + i) :
    Cli.whisper_params_parse_loop stof argv (fuel + k) i params =
      Cli.whisper_params_parse_loop stof argv fuel i params := by
  induction fuel generalizing i params with
  | zero =>
    have hn : argv[i]? = none := List.getElem?_eq_none (by omega)
    cases k with
    | zero => rfl
    | succ k =>
      rw [Nat.zero_add]
      unfold Cli.whisper_params_parse_loop
      rw [hn]
  | succ fuel ih =>
    have e : fuel + 1 + k = (fuel + k) + 1 := by omega
    rw [e]
    unfold Cli.whisper_params_parse_loop
    cases ha : argv[i]? with
    | none => rfl
    | some arg =>
      dsimp only
      cases hr : Cli.whisper_params_parse_arg stof argv i arg params with
      | stop r => rfl
      | next j params1 =>
        dsimp only
        have hj := cli_parse_arg_advances stof argv i arg params j params1 hr
        exact ih (j + 1) params1 (by omega)

/-! ## C21: the option `--vad-min-silence-duration-ms` -/

/-- C21, the code at a failing input: in both programs the usage text lists `-vsd N,
--vad-min-silence-duration-ms N` on the line that prints `vad_min_silence_duration_ms`, and the
command line `--vad-min-silence-duration-ms 500` is parsed by writing 500 to
`vad_min_speech_duration_ms`, while `vad_min_silence_duration_ms` keeps the value it had. -/
theorem silence_option_writes_speech_duration {F : Type} (stof : CppString → Option F)
    (read_file : CppString → CppString) (p : whisper_params F) (q : Cli.whisper_params F) :
    usage_line [("-vsd", "N"), ("--vad-min-silence-duration-ms", "N")]
        "vad_min_silence_duration_ms" ∈ whisper_print_usage ∧
    usage_line [("-vsd", "N"), ("--vad-min-silence-duration-ms", "N")]
        "vad_min_silence_duration_ms" ∈ Cli.whisper_print_usage ∧
    (∃ r, whisper_params_parse stof read_file
        ["talk-llama".toList, "--vad-min-silence-duration-ms".toList, "500".toList] p = .ok r ∧
      r.vad_min_speech_duration_ms = 500 ∧
      r.vad_min_silence_duration_ms = p.vad_min_silence_duration_ms) ∧
    (∃ r, Cli.whisper_params_parse stof
        ["whisper-cli".toList, "--vad-min-silence-duration-ms".toList, "500".toList] q = .ok r ∧
      r.vad_min_speech_duration_ms = 500 ∧
      r.vad_min_silence_duration_ms = q.vad_min_silence_duration_ms) :=
  ⟨by decide, by decide, ⟨_, rfl, rfl, rfl⟩, ⟨_, rfl, rfl, rfl⟩⟩

/-! ## C22: the options of the usage text -/

/-- C22, the code at failing inputs: the usage text of both programs lists `-of FNAME,
--output-file FNAME`, `-f FNAME, --file FNAME` and the short form `-vspd N`; used as the text
shows them, each of these options reaches the branch "unknown argument" of
`whisper_params_parse`.  In talk-llama.cpp the usage also lists `-vp N` for
`vad_speech_pad_ms`: the argument `-vp` sets `verbose_prompt` and takes no value, so that in
`-vp 30` the value `30` is the unknown argument. -/
theorem listed_options_rejected {F : Type} (stof : CppString → Option F)
    (read_file : CppString → CppString) (p : whisper_params F) (q : Cli.whisper_params F) :
    (usage_line [("-of", "FNAME"), ("--output-file", "FNAME")] "" ∈ Cli.whisper_print_usage ∧
      usage_line [("-f", "FNAME"), ("--file", "FNAME")] "" ∈ Cli.whisper_print_usage ∧
      usage_line [("-vspd", "N"), ("--vad-min-speech-duration-ms", "N")]
        "vad_min_speech_duration_ms" ∈ Cli.whisper_print_usage) ∧
    (Cli.whisper_params_parse stof
        (command_line "whisper-cli".toList ⟨"-of".toList, "FNAME".toList⟩ "out".toList) q
        = .unknown_argument "-of".toList ∧
      Cli.whisper_params_parse stof
        (command_line "whisper-cli".toList ⟨"--output-file".toList, "FNAME".toList⟩
          "out".toList) q
        = .unknown_argument "--output-file".toList ∧
      Cli.whisper_params_parse stof
        (command_line "whisper-cli".toList ⟨"-f".toList, "FNAME".toList⟩ "a.wav".toList) q
        = .unknown_argument "-f".toList ∧
      Cli.whisper_params_parse stof
        (command_line "whisper-cli".toList ⟨"--file".toList, "FNAME".toList⟩ "a.wav".toList) q
        = .unknown_argument "--file".toList ∧
      Cli.whisper_params_parse stof
        (command_line "whisper-cli".toList ⟨"-vspd".toList, "N".toList⟩ "250".toList) q
        = .unknown_argument "-vspd".toList) ∧
    (usage_line [("-of", "FNAME"), ("--output-file", "FNAME")] "" ∈ whisper_print_usage ∧
      usage_line [("-f", "FNAME"), ("--file", "FNAME")] "" ∈ whisper_print_usage ∧
      usage_line [("-vspd", "N"), ("--vad-min-speech-duration-ms", "N")]
        "vad_min_speech_duration_ms" ∈ whisper_print_usage ∧
      usage_line [("-vp", "N"), ("--vad-speech-pad-ms", "N")] "vad_speech_pad_ms"
        ∈ whisper_print_usage) ∧
    (whisper_params_parse stof read_file
        (command_line "talk-llama".toList ⟨"-of".toList, "FNAME".toList⟩ "out".toList) p
        = .unknown_argument "-of".toList ∧
      whisper_params_parse stof read_file
        (command_line "talk-llama".toList ⟨"-f".toList, "FNAME".toList⟩ "a.wav".toList) p
        = .unknown_argument "-f".toList ∧
      whisper_params_parse stof read_file
        (command_line "talk-llama".toList ⟨"-vspd".toList, "N".toList⟩ "250".toList) p
        = .unknown_argument "-vspd".toList ∧
      whisper_params_parse stof read_file
        (command_line "talk-llama".toList ⟨"-vp".toList, "N".toList⟩ "30".toList) p
        = .unknown_argument "30".toList ∧
      whisper_params_parse_arg stof read_file
        (command_line "talk-llama".toList ⟨"-vp".toList, "N".toList⟩ "30".toList) 1
        "-vp".toList p = .next 1 { p with verbose_prompt := true }) :=
  ⟨⟨by decide, by decide, by decide⟩, ⟨rfl, rfl, rfl, rfl, rfl⟩,
    ⟨by decide, by decide, by decide, by decide⟩, ⟨rfl, rfl, rfl, rfl, rfl⟩⟩

/-! ## C23: the round trip through the session file -/

theorem oversized_session_length : oversized_session.length = 2049 :=
  List.length_replicate _ _

/-- C23, a sequence that does not come back: 2049 tokens are saved, and the load into the
buffer of `n_ctx = 2048` tokens fails; at start-up `main` then returns 1. -/
theorem round_trip_counterexample :
    oversized_session.length = 2049 ∧
    llama_state_load_file (llama_state_save_file empty_storage ['s'] oversized_session) ['s']
      2048 = none ∧
    startup 2048 (start_from (llama_state_save_file empty_storage ['s'] oversized_session) 2048
      ['s'] prompt16) = .exit 1 [] := by
  have hload : llama_state_load_file
      (llama_state_save_file empty_storage ['s'] oversized_session) ['s'] 2048 = none := by
    simp [llama_state_load_file, llama_state_save_file, oversized_session_length]
  refine ⟨oversized_session_length, hload, ?_⟩
  simp [startup, load_session, start_from, start_ok, hload, llama_state_save_file]

/-- C23, amended: a token sequence that is saved to a session path and holds no more tokens than
the buffer of the load (`n_ctx` tokens in `main`) is what a load of that path yields, with its
count.  In `main`, the save of lines 947-950 hands over the whole of `session_tokens`, and the
load block of a later run that finds the saved file goes on with exactly these tokens as its
`session_tokens`, provided the prompt is at least as long. -/
theorem session_round_trip (disk : Storage) (path : CppString) (tokens : List Token)
    (n_ctx : Nat) (h : tokens.length ≤ n_ctx) :
    llama_state_load_file (llama_state_save_file disk path tokens) path n_ctx
      = some (tokens, tokens.length) ∧
    (∀ s : TurnState, s.path_session = path → s.session_tokens = tokens → path ≠ [] →
      s.need_to_save_session = true →
      (save_session s).log = s.log ++ [Event.save path tokens]) ∧
    (∀ prompt : List Token, path ≠ [] → tokens.length ≤ prompt.length →
      ∃ embd_inp,
        load_session n_ctx (start_from (llama_state_save_file disk path tokens) n_ctx path prompt)
          = .cont [.fopen path, .state_load_file path] tokens embd_inp) := by
  have hload : llama_state_load_file (llama_state_save_file disk path tokens) path n_ctx
      = some (tokens, tokens.length) := by
    simp [llama_state_load_file, llama_state_save_file, h]
  refine ⟨hload, ?_, ?_⟩
  · intro s hp ht hne hs
    subst hp ht
    simp [save_session, hne, hs]
  · intro prompt hne hl
    refine ⟨prompt.take 0 ++ tokens ++ prompt.drop (0 + tokens.length), ?_⟩
    have hcopy := overwrite_loop_eq prompt tokens 0 (by omega)
    simp only [load_session, start_from, start_ok, hload, llama_state_save_file, if_true,
      Option.isSome_some, Option.map_some', ne_eq, hne, not_false_eq_true, hcopy]
    simp [Nat.not_lt.mpr h]

/-- An instance of C23: the cache `[1, 2, 3]` saved under the path `s` is loaded into a buffer
of 2048 tokens, and a later start-up with the prompt `[1, 2, 3, 9]` goes on with it. -/
theorem session_round_trip_witness :
    [(1 : Token), 2, 3].length ≤ 2048 ∧
    llama_state_load_file (llama_state_save_file empty_storage ['s'] [1, 2, 3]) ['s'] 2048
      = some ([1, 2, 3], 3) ∧
    ∃ embd_inp,
      load_session 2048
        (start_from (llama_state_save_file empty_storage ['s'] [1, 2, 3]) 2048 ['s']
          [1, 2, 3, 9])
        = .cont [.fopen ['s'], .state_load_file ['s']] [1, 2, 3] embd_inp :=
  ⟨by decide, (session_round_trip empty_storage ['s'] [1, 2, 3] 2048 (by decide)).1,
    (session_round_trip empty_storage ['s'] [1, 2, 3] 2048 (by decide)).2.2 [1, 2, 3, 9]
      (by decide) (by decide)⟩

/-! ## C24: the evaluating step -/

/-- C24: (1) the batch made from the pending tokens `R` at `n_past = p` has one slot per token,
in order, slot `i` at position `p + i` in sequence 0, and only the last slot asks for logits;
(2) in a pass of the turn loop that has tokens pending and goes on, the one batch submitted is
the batch of the residual tokens `R` that the overflow and reuse steps leave, at the `n_past`
they leave, and afterwards the history is longer by `R` and `n_past` larger by `len(R)`;
(3) when the decode of a pass with tokens pending fails, the generation loop is left by
`return 1` right after that one call, whatever the later answers would be, the history being as
before; (4) `main` then returns 1, in whichever pass of the Turn the decode fails.  In (3) and
(4) the overflow step of the pass is taken to be defined and its batch to fit the `n_ctx` slots
of the buffer, and in (4) the loop on `stdin` to have been left. -/
theorem evaluating_step (env : Env) :
    (∀ (p : Nat) (R : List Token),
      (prepare_batch p R).length = R.length ∧
      ∀ i : Nat, (prepare_batch p R)[i]? = R[i]?.map fun tok =>
        ({ token := tok, pos := p + i, n_seq_id := 1, seq_id := 0,
           logits := decide (i = R.length - 1) } : BatchEntry)) ∧
    (∀ inp s s1, s.embd.length > 0 →
      (iter env inp s = .ok s1 ∨ iter env inp s = .leave s1) →
      ∃ t u, prepare_for_overflow env s = some t ∧ reconcile_with_cache t = some u ∧
        inp.decode_fails = false ∧
        decodes s1.log = decodes s.log ++ [prepare_batch u.n_past u.embd] ∧
        s1.embd_inp = s.embd_inp ++ u.embd ∧ s1.n_past = u.n_past + u.embd.length) ∧
    (∀ inp rest s t, s.embd.length > 0 → inp.decode_fails = true →
      prepare_for_overflow env s = some t → t.embd.length ≤ env.n_ctx →
      ∃ s1 u, reconcile_with_cache t = some u ∧
        generation_loop env (inp :: rest) s = .fatal s1 ∧
        s1.log = s.log ++ [Event.decode (prepare_batch u.n_past u.embd)] ∧
        s1.embd_inp = s.embd_inp) ∧
    (∀ (turn : LoopInput) later s u t pre inp post, s.is_running = true → turn.vad = true →
      transcript turn ≠ [] → turn.tokens ≠ [] →
      stdin_loop turn.stdin_eof turn.stdin_words = .ended →
      turn.passes = pre ++ inp :: post →
      generation_loop env pre
        (turn_start turn.tokens turn.embd { s with is_running := turn.poll }) = .ok u →
      u.embd.length > 0 → inp.decode_fails = true →
      prepare_for_overflow env u = some t → t.embd.length ≤ env.n_ctx →
      ∃ w, reconcile_with_cache t = some w ∧
        main_iter env turn s
          = .exit 1 (u.log ++ [Event.decode (prepare_batch w.n_past w.embd)]) ∧
        main_loop env (turn :: later) s
          = .exit 1 (u.log ++ [Event.decode (prepare_batch w.n_past w.embd)])) := by
  refine ⟨?_, ?_, ?_, ?_⟩
  · intro p R
    refine ⟨prepare_batch_length p R, fun i => ?_⟩
    unfold prepare_batch
    rw [batch_from_get]
    simp
  · intro inp s s1 hne h
    rcases predict_eq env inp.decode_fails s hne with hu | ⟨t, u, x, h1, h2, e1, e2, e3, e4, hx⟩
    · unfold iter at h
      rw [hu] at h
      rcases h with h | h <;> cases h
    · rcases hx with ⟨hf, hp⟩ | ⟨-, hp⟩
      · obtain ⟨a, b, c⟩ := iter_tail env inp s x s1 hp h
        refine ⟨t, u, h1, h2, hf, ?_, ?_, ?_⟩
        · rw [c, e4, decodes_append]; rfl
        · rw [a, e1, e2]
        · rw [b, e2, e3]
      · unfold iter at h
        rw [hp] at h
        rcases h with h | h <;> cases h
  · intro inp rest s t hne hf h1 hfit
    obtain ⟨u, x, h2, hi, hlog, hemb⟩ := iter_decode_fails env inp s t hne hf h1 hfit
    refine ⟨x, u, h2, ?_, hlog, hemb⟩
    simp only [generation_loop, hi]
  · intro turn later s u t pre inp post hrun hv ht htok hstd hpass hpre hne hf h1 hfit
    obtain ⟨w, x, h2, -, hlog, -, hm, hl⟩ := main_loop_decode_fails env turn later s u t pre
      post inp hrun hv ht htok hstd hpass hpre hne hf h1 hfit
    exact ⟨w, h2, by rw [← hlog]; exact hm, by rw [← hlog]; exact hl⟩

/-- An instance of C24: after the prompt of sixteen tokens, the transcript token `50` is
submitted alone at position 16 with logits requested, and the pass ends with a history of
seventeen tokens and `n_past = 17`; the same pass with a failing decode leaves by `return 1`
after that call, with the history of sixteen tokens. -/
theorem evaluating_step_witness :
    (∃ s1, iter env_bob pass_input strip_start = .ok s1 ∧
      ∃ t u, prepare_for_overflow env_bob strip_start = some t ∧
        reconcile_with_cache t = some u ∧ pass_input.decode_fails = false ∧
        decodes s1.log = decodes strip_start.log ++ [prepare_batch u.n_past u.embd] ∧
        s1.embd_inp = strip_start.embd_inp ++ u.embd ∧
        s1.n_past = u.n_past + u.embd.length) ∧
    prepare_batch 16 [50] =
      [{ token := 50, pos := 16, n_seq_id := 1, seq_id := 0, logits := true }] ∧
    (∃ s1 u, reconcile_with_cache strip_start = some u ∧
      generation_loop env_bob [{ pass_input with decode_fails := true }, pass_input]
        strip_start = .fatal s1 ∧
      s1.log = strip_start.log ++ [Event.decode (prepare_batch u.n_past u.embd)] ∧
      s1.embd_inp = strip_start.embd_inp) ∧
    (∃ s1, generation_loop env_bob [{ pass_input with decode_fails := true }, pass_input]
        strip_start = .fatal s1 ∧
      s1.log = [Event.decode
        [{ token := 50, pos := 16, n_seq_id := 1, seq_id := 0, logits := true }]] ∧
      s1.embd_inp = prompt16) :=
  ⟨⟨_, rfl, (evaluating_step env_bob).2.1 pass_input strip_start _ (by decide) (Or.inl rfl)⟩,
    by decide,
    (evaluating_step env_bob).2.2.1 { pass_input with decode_fails := true } [pass_input]
      strip_start strip_start (by decide) rfl rfl (by decide),
    ⟨_, rfl, by decide, by decide⟩⟩

/-! ## C25: the commit step -/

/-- C25: with a non-empty session path and a non-empty residual batch, the commit makes the
session cache the old cache followed by the batch and sets `n_session_consumed` to the new
length of the cache; with an empty path or an empty batch it changes nothing; in neither case
does it write the batch, `n_past` or the history.  In the predict block of the turn loop it is
applied to what the overflow and reuse steps leave. -/
theorem commit_step (env : Env) (s : TurnState) :
    (s.path_session ≠ [] → s.embd ≠ [] →
      (commit_evaluated s).session_tokens = s.session_tokens ++ s.embd ∧
      (commit_evaluated s).n_session_consumed = (commit_evaluated s).session_tokens.length ∧
      (commit_evaluated s).n_session_consumed = s.session_tokens.length + s.embd.length) ∧
    (s.path_session = [] ∨ s.embd = [] → commit_evaluated s = s) ∧
    ((commit_evaluated s).embd = s.embd ∧ (commit_evaluated s).n_past = s.n_past ∧
      (commit_evaluated s).embd_inp = s.embd_inp ∧
      (commit_evaluated s).path_session = s.path_session) ∧
    (∀ fails s1, s.embd.length > 0 → predict env fails s = .ok s1 →
      ∃ t u, prepare_for_overflow env s = some t ∧ reconcile_with_cache t = some u ∧
        s1.session_tokens = (commit_evaluated u).session_tokens ∧
        s1.n_session_consumed = (commit_evaluated u).n_session_consumed) := by
  refine ⟨?_, ?_, ?_, ?_⟩
  · intro hp he
    have hl : s.embd.length > 0 := List.length_pos.mpr he
    simp [commit_evaluated, hp, hl]
  · intro h
    unfold commit_evaluated
    rcases h with h | h
    · simp [h]
    · simp [h]
  · unfold commit_evaluated
    split_ifs <;> exact ⟨rfl, rfl, rfl, rfl⟩
  · intro fails s1 hne h
    obtain ⟨t, u, h1, h2, h3⟩ := predict_shape env fails s s1 hne h
    exact ⟨t, u, h1, h2, by rw [h3], by rw [h3]⟩

/-- An instance of C25: session path `s`, cache `[1, 2]`, residual batch `[7, 8]`. -/
theorem commit_step_witness :
    (commit_evaluated { fresh_session_state with session_tokens := [1, 2], embd := [7, 8] }
      ).session_tokens = [1, 2] ++ [7, 8] ∧
    (commit_evaluated { fresh_session_state with session_tokens := [1, 2], embd := [7, 8] }
      ).n_session_consumed = 4 ∧
    commit_evaluated { fresh_session_state with session_tokens := [1, 2], embd := [] }
      = { fresh_session_state with session_tokens := [1, 2], embd := [] } :=
  ⟨((commit_step env_bob
      { fresh_session_state with session_tokens := [1, 2], embd := [7, 8] }).1
      (by decide) (by decide)).1,
    ((commit_step env_bob
      { fresh_session_state with session_tokens := [1, 2], embd := [7, 8] }).1
      (by decide) (by decide)).2.2,
    (commit_step env_bob
      { fresh_session_state with session_tokens := [1, 2], embd := [] }).2.1 (Or.inr rfl)⟩

/-! ## C26: the cleaned transcript -/

/-- Every character of the cleaned text passed the filter of line 828 and is no line feed. -/
theorem cleanup_chars (result : CppString) (c : Char) (h : c ∈ cleanup result) :
    is_kept c = true ∧ c ≠ Char.ofNat 10 := by
  unfold cleanup at h
  dsimp only at h
  rw [List.mem_reverse] at h
  have h5 := List.dropWhile_subset _ h
  rw [List.mem_reverse] at h5
  have h4 := List.dropWhile_subset _ h5
  have hne := List.mem_takeWhile_imp h4
  have h3 := (List.takeWhile_prefix _).subset h4
  exact ⟨(List.mem_filter.mp h3).2, by simpa using hne⟩

/-- The characters that pass the filter of line 828. -/
theorem is_kept_class (c : Char) (hk : is_kept c = true) :
    (97 ≤ c.toNat ∧ c.toNat ≤ 122) ∨ (65 ≤ c.toNat ∧ c.toNat ≤ 90) ∨
      (48 ≤ c.toNat ∧ c.toNat ≤ 57) ∨
      c ∈ ['.', ',', '?', '!', ':', Char.ofNat 39, '-'] ∨ is_space c = true := by
  simp only [is_kept, decide_eq_true_eq] at hk
  simp only [List.mem_cons, List.mem_singleton, List.not_mem_nil, or_false]
  rcases hk with h | h | h | h | h | h | h | h | h | h | h
  · exact Or.inl h
  · exact Or.inr (Or.inl h)
  · exact Or.inr (Or.inr (Or.inl h))
  · exact Or.inr (Or.inr (Or.inr (Or.inl (Or.inl h))))
  · exact Or.inr (Or.inr (Or.inr (Or.inl (Or.inr (Or.inl h)))))
  · exact Or.inr (Or.inr (Or.inr (Or.inl (Or.inr (Or.inr (Or.inl h))))))
  · exact Or.inr (Or.inr (Or.inr (Or.inl (Or.inr (Or.inr (Or.inr (Or.inl h)))))))
  · exact Or.inr (Or.inr (Or.inr (Or.inr h)))
  · exact Or.inr (Or.inr (Or.inr (Or.inl (Or.inr (Or.inr (Or.inr (Or.inr (Or.inl h))))))))
  · exact Or.inr (Or.inr (Or.inr (Or.inl
      (Or.inr (Or.inr (Or.inr (Or.inr (Or.inr (Or.inl h)))))))))
  · exact Or.inr (Or.inr (Or.inr (Or.inl
      (Or.inr (Or.inr (Or.inr (Or.inr (Or.inr (Or.inr h)))))))))

/-- No bracket and no parenthesis passes the filter of line 828. -/
theorem is_kept_no_bracket (c : Char) (hk : is_kept c = true) :
    c ≠ '[' ∧ c ≠ ']' ∧ c ≠ '(' ∧ c ≠ ')' := by
  refine ⟨?_, ?_, ?_, ?_⟩
  all_goals
    intro e
    subst e
    exact absurd hk (by decide)

/-- A text trimmed on both sides does not start with white space. -/
theorem trimmed_head (l : List Char) (c : Char)
    (h : ((l.dropWhile is_space).reverse.dropWhile is_space).reverse.head? = some c) :
    is_space c = false := by
  obtain ⟨t, ht⟩ := List.rdropWhile_prefix is_space (l := l.dropWhile is_space)
  unfold List.rdropWhile at ht
  have hd := List.head?_dropWhile_not is_space l
  rw [← ht, List.head?_append, h] at hd
  simpa using hd

/-- A text trimmed on both sides does not end with white space. -/
theorem trimmed_last (l : List Char) (c : Char)
    (h : ((l.dropWhile is_space).reverse.dropWhile is_space).reverse.getLast? = some c) :
    is_space c = false := by
  rw [List.getLast?_reverse] at h
  have hd := List.head?_dropWhile_not is_space (l.dropWhile is_space).reverse
  rw [h] at hd
  simpa using hd

/-- C26: every character of the cleaned text is a letter `a`-`z` or `A`-`Z`, a digit, one of
`. , ? ! : ' -` or a white-space character; none is a line feed, a bracket or a parenthesis;
and the text neither starts nor ends with a white-space character. -/
theorem cleanup_result (result : CppString) :
    (∀ c ∈ cleanup result,
      ((97 ≤ c.toNat ∧ c.toNat ≤ 122) ∨ (65 ≤ c.toNat ∧ c.toNat ≤ 90) ∨
        (48 ≤ c.toNat ∧ c.toNat ≤ 57) ∨
        c ∈ ['.', ',', '?', '!', ':', Char.ofNat 39, '-'] ∨ is_space c = true) ∧
      c ≠ Char.ofNat 10 ∧ c ≠ '[' ∧ c ≠ ']' ∧ c ≠ '(' ∧ c ≠ ')') ∧
    (∀ c, (cleanup result).head? = some c → is_space c = false) ∧
    (∀ c, (cleanup result).getLast? = some c → is_space c = false) :=
  ⟨fun c hc =>
      ⟨is_kept_class c (cleanup_chars result c hc).1, (cleanup_chars result c hc).2,
        is_kept_no_bracket c (cleanup_chars result c hc).1⟩,
    fun c hc => trimmed_head _ c hc, fun c hc => trimmed_last _ c hc⟩

/-- An instance of C26: the spans in brackets and parentheses, the second line and the white
space at both ends are removed; the text starts with `H` and ends with `!`. -/
theorem cleanup_result_witness :
    cleanup noisy_transcript = "Hello,  world!".toList ∧
    is_space 'H' = false ∧ is_space '!' = false :=
  ⟨by decide, (cleanup_result noisy_transcript).2.1 'H' (by decide),
    (cleanup_result noisy_transcript).2.2 '!' (by decide)⟩

/-! ## C9: how a Turn ends -/

/-- A pass of the generation loop that is entered with `done` unset and ends with `done` set:
its predict block went on, and the stop condition fired on the tail text of this very pass. -/
theorem iter_sets_done (env : Env) (inp : IterInput) (s s1 : TurnState) (hd : s.done = false)
    (h : iter env inp s = .ok s1 ∨ iter env inp s = .leave s1) (hd1 : s1.done = true) :
    ∃ x t a, predict env inp.decode_fails s = .ok x ∧
      last_output env (sample env inp.id (save_session (advance x))) = some t ∧
      a ∈ antiprompts env ∧ find t a (size_sub t.length a.length) ≠ npos := by
  have key : ∀ x : TurnState, predict env inp.decode_fails s = .ok x → x.done = false →
      ∃ x t a, predict env inp.decode_fails s = .ok x ∧
        last_output env (sample env inp.id (save_session (advance x))) = some t ∧
        a ∈ antiprompts env ∧ find t a (size_sub t.length a.length) ≠ npos := by
    intro x hp hx
    have hd2 : ¬ ((advance x).done = true) := by
      show ¬ (x.done = true)
      rw [hx]
      decide
    have hy : (sample env inp.id (save_session (advance x))).done = false := by
      unfold sample save_session advance
      split_ifs <;> exact hx
    unfold iter at h
    rw [hp] at h
    dsimp only at h
    rw [if_neg hd2] at h
    cases hc : check_stop env (sample env inp.id (save_session (advance x))) with
    | none => rw [hc] at h; rcases h with h | h <;> cases h
    | some s3 =>
      rw [hc] at h
      dsimp only at h
      have hs3 : s3.done = true := by
        by_cases hpoll : inp.poll = false
        · rw [if_pos hpoll] at h
          rcases h with h | h <;> cases h
          exact hd1
        · rw [if_neg hpoll] at h
          rcases h with h | h <;> cases h
          exact hd1
      obtain ⟨t, ht, h3 | ⟨a, ha, hf, -⟩⟩ := check_stop_cases env _ _ hc
      · rw [h3, hy] at hs3
        exact absurd hs3 (by decide)
      · exact ⟨x, t, a, hp, ht, ha, hf⟩
  rcases predict_cases env inp.decode_fails s with hu | ⟨-, hp⟩ | ⟨x, -, hk, -, ⟨-, hp⟩ | ⟨-, hp⟩⟩
  · unfold iter at h
    rw [hu] at h
    rcases h with h | h <;> cases h
  · exact key s hp hd
  · exact key x hp (by rw [hk.2.1]; exact hd)
  · unfold iter at h
    rw [hp] at h
    rcases h with h | h <;> cases h

/-- A generation loop that is entered with `done` unset and left with `done` set: in one pass of
this run, reached by passes that went on, the stop condition fired on the tail text of that
pass. -/
theorem done_set_in_run (env : Env) (inps : List IterInput) (s s1 : TurnState)
    (hd : s.done = false) (h : generation_loop env inps s = .leave s1) (hd1 : s1.done = true) :
    ∃ pre inp post u x t a, inps = pre ++ inp :: post ∧
      generation_loop env pre s = .ok u ∧ u.done = false ∧
      predict env inp.decode_fails u = .ok x ∧
      last_output env (sample env inp.id (save_session (advance x))) = some t ∧
      a ∈ antiprompts env ∧ find t a (size_sub t.length a.length) ≠ npos := by
  induction inps generalizing s with
  | nil => simp [generation_loop] at h
  | cons inp rest ih =>
    unfold generation_loop at h
    cases hi : iter env inp s with
    | ok t =>
      simp only [hi] at h
      cases hdt : t.done with
      | false =>
        obtain ⟨pre, i, post, u, x, tx, a, e1, e2, e3, e4, e5, e6, e7⟩ := ih t hdt h
        refine ⟨inp :: pre, i, post, u, x, tx, a, by rw [e1]; rfl, ?_, e3, e4, e5, e6, e7⟩
        simp only [generation_loop, hi]
        exact e2
      | true =>
        obtain ⟨x, tx, a, e4, e5, e6, e7⟩ := iter_sets_done env inp s t hd (Or.inl hi) hdt
        exact ⟨[], inp, rest, s, x, tx, a, rfl, rfl, hd, e4, e5, e6, e7⟩
    | leave t =>
      simp only [hi] at h
      cases h
      obtain ⟨x, tx, a, e4, e5, e6, e7⟩ := iter_sets_done env inp s s1 hd (Or.inr hi) hd1
      exact ⟨[], inp, rest, s, x, tx, a, rfl, rfl, hd, e4, e5, e6, e7⟩
    | fatal t => simp only [hi] at h; cases h
    | undefined => simp only [hi] at h; cases h

/-- After lines 938-941 have emptied `embd`, the save block and the sampling of the token
`llama_vocab_eos` leave it empty, and the read `embd[0]` of line 969 has nothing to read. -/
theorem eos_leaves_nothing_pending (env : Env) (x : TurnState) :
    (sample env env.eos (save_session (advance x))).embd = [] ∧
    (sample env env.eos (save_session (advance x))).text_to_speak = x.text_to_speak ∧
    (sample env env.eos (save_session (advance x))).done = x.done ∧
    last_output env (sample env env.eos (save_session (advance x))) = none ∧
    check_stop env (sample env env.eos (save_session (advance x))) = none := by
  have hs : ∀ y : TurnState, sample env env.eos y
      = { y with log := y.log ++ [Event.sample env.eos] } := by
    intro y
    simp [sample]
  have he : (sample env env.eos (save_session (advance x))).embd = [] := by
    rw [hs]
    unfold save_session advance
    split_ifs <;> rfl
  have hl : last_output env (sample env env.eos (save_session (advance x))) = none := by
    unfold last_output
    rw [he]
    split_ifs <;> rfl
  refine ⟨he, ?_, ?_, hl, ?_⟩
  · rw [hs]
    unfold save_session advance
    split_ifs <;> rfl
  · rw [hs]
    unfold save_session advance
    split_ifs <;> rfl
  · unfold check_stop
    rw [hl]

/-- What follows the predict block (lines 938-986) when `done` is unset and the token
`llama_vocab_eos` is sampled. -/
theorem eos_tail_undefined (env : Env) (poll : Bool) (s x : TurnState) (hd : x.done = false)
    (hp : predict env false s = .ok x) :
    iter env { decode_fails := false, id := env.eos, poll := poll } s = .undefined := by
  have hd2 : ¬ ((advance x).done = true) := by
    show ¬ (x.done = true)
    rw [hd]
    decide
  unfold iter
  dsimp only
  rw [hp]
  dsimp only
  rw [if_neg hd2, (eos_leaves_nothing_pending env x).2.2.2.2]

/-- C9, the code at a failing input.  A pass of the generation loop that is entered with `done`
unset, in which `llama_decode` succeeds (or is not called) and `llama_sampler_sample` returns the
end-of-sequence token, has no defined outcome, whatever the state and the answer of the poll:
the sampling block adds nothing to the output text and to `embd`, which lines 938-941 have
emptied, and leaves `done` alone, and then line 969 reads `embd[0]` of the empty vector.  So in
the Turn of `eos_turn`, whose first pass samples `" bye"` and goes on with `done` unset and whose
second pass samples the end-of-sequence token, the generation loop and the pass of the main loop
have no defined outcome. -/
theorem eos_pass_undefined :
    (∀ (env : Env) (s : TurnState) (poll : Bool),
      iter env { decode_fails := false, id := env.eos, poll := poll } { s with done := false }
        = .undefined) ∧
    (∀ (env : Env) (x : TurnState),
      (sample env env.eos (save_session (advance x))).embd = [] ∧
      (sample env env.eos (save_session (advance x))).text_to_speak = x.text_to_speak ∧
      (sample env env.eos (save_session (advance x))).done = x.done ∧
      last_output env (sample env env.eos (save_session (advance x))) = none ∧
      check_stop env (sample env env.eos (save_session (advance x))) = none) ∧
    (∃ s1, generation_loop env_bob (eos_turn.passes.take 1)
        (turn_start eos_turn.tokens eos_turn.embd (init_state [] [] prompt16)) = .ok s1 ∧
      s1.done = false ∧ s1.embd = [44] ∧ s1.text_to_speak = " bye".toList ∧
      s1.embd_inp.length = 17) ∧
    generation_loop env_bob eos_turn.passes
      (turn_start eos_turn.tokens eos_turn.embd (init_state [] [] prompt16)) = .undefined ∧
    main_iter env_bob eos_turn (init_state [] [] prompt16) = .undefined ∧
    main_loop env_bob [eos_turn] (init_state [] [] prompt16) = .undefined := by
  refine ⟨?_, eos_leaves_nothing_pending, ⟨_, rfl, by decide, by decide, by decide, by decide⟩,
    by decide, by decide, by decide⟩
  intro env s poll
  rcases predict_cases env false { s with done := false } with
    hu | ⟨-, hp⟩ | ⟨x, batch, hk, -, ⟨-, hp⟩ | ⟨hf, -⟩⟩
  · unfold iter
    dsimp only
    rw [hu]
  · exact eos_tail_undefined env poll _ _ rfl hp
  · exact eos_tail_undefined env poll _ x hk.2.1 hp
  · exact absurd hf (by decide)

/-! ## C27: the size of the batch -/

theorem pieces_append (env : Env) (a b : List Token) :
    pieces env (a ++ b) = pieces env a ++ pieces env b := by
  induction a with
  | nil => rfl
  | cons t ts ih => simp [pieces, ih]

/-- The save block and the sampling of a token other than end-of-sequence, after lines 938-941:
the token is the one pending token, and the history, `n_past`, the cache and `done` are as
lines 938-941 left them. -/
theorem sampled_fields (env : Env) (id : Token) (x : TurnState) (hid : id ≠ env.eos) :
    (sample env id (save_session (advance x))).embd_inp = x.embd_inp ++ x.embd ∧
    (sample env id (save_session (advance x))).embd = [id] ∧
    (sample env id (save_session (advance x))).n_past = x.n_past + x.embd.length ∧
    (sample env id (save_session (advance x))).session_tokens = x.session_tokens ∧
    (sample env id (save_session (advance x))).n_session_consumed = x.n_session_consumed ∧
    (sample env id (save_session (advance x))).path_session = x.path_session ∧
    (sample env id (save_session (advance x))).done = x.done ∧
    decodes (sample env id (save_session (advance x))).log = decodes x.log := by
  unfold sample save_session advance
  simp only [hid, ne_eq, not_false_eq_true, if_true]
  split_ifs <;> simp [decodes_append, decodes]

/-- A pass in which the predict block goes on with `done` unset, a token other than
end-of-sequence is drawn and nothing is cancelled: the pass goes on with that token pending, the
history and `n_past` moved over the tokens that were pending, and `done` set iff the antiprompt
ends the tail text. -/
theorem sampling_tail (env : Env) (id : Token) (s x : TurnState)
    (hp : predict env false s = .ok x) (hd : x.done = false) (hid : id ≠ env.eos)
    (h16 : 16 ≤ (x.embd_inp ++ x.embd).length)
    (hT : (pieces env ((x.embd_inp ++ x.embd).drop ((x.embd_inp ++ x.embd).length - 16))
      ++ env.token_to_piece id).length < 2 ^ 64)
    (hA : (env.person ++ chat_symb).length < 2 ^ 64) :
    ∃ s1, iter env (draws id) s = .ok s1 ∧
      s1.embd_inp = x.embd_inp ++ x.embd ∧ s1.embd = [id] ∧
      s1.n_past = x.n_past + x.embd.length ∧
      s1.session_tokens = x.session_tokens ∧
      s1.n_session_consumed = x.n_session_consumed ∧
      s1.path_session = x.path_session ∧ s1.is_running = true ∧
      decodes s1.log = decodes x.log ∧
      (s1.done = true ↔ (env.person ++ chat_symb) <:+
        (pieces env ((x.embd_inp ++ x.embd).drop ((x.embd_inp ++ x.embd).length - 16))
          ++ env.token_to_piece id)) := by
  obtain ⟨f1, f2, f3, f4, f5, f6, f7, f8⟩ := sampled_fields env id x hid
  have hne : env.person ++ chat_symb ≠ [] := by simp [chat_symb]
  have hiff := find_ne_npos_iff _ _ hT hA hne
  have hlast : last_output env (sample env id (save_session (advance x))) =
      some (pieces env ((x.embd_inp ++ x.embd).drop ((x.embd_inp ++ x.embd).length - 16))
        ++ env.token_to_piece id) := by
    unfold last_output
    rw [f1, f2]
    have h : ¬ (x.embd_inp ++ x.embd).length < 16 := by omega
    simp only [h, if_false]
  have hd2 : ¬ ((advance x).done = true) := by
    show ¬ (x.done = true)
    rw [hd]
    decide
  have hi : iter env (draws id) s = .ok { antiprompt_loop
      (pieces env ((x.embd_inp ++ x.embd).drop ((x.embd_inp ++ x.embd).length - 16))
        ++ env.token_to_piece id) (antiprompts env)
      (sample env id (save_session (advance x))) with is_running := true } := by
    unfold iter
    simp only [draws]
    rw [hp]
    simp only [hd2, if_false, check_stop, hlast]
    rfl
  have hloop : antiprompt_loop
      (pieces env ((x.embd_inp ++ x.embd).drop ((x.embd_inp ++ x.embd).length - 16))
        ++ env.token_to_piece id) (antiprompts env)
      (sample env id (save_session (advance x))) =
      if find (pieces env ((x.embd_inp ++ x.embd).drop ((x.embd_inp ++ x.embd).length - 16))
          ++ env.token_to_piece id) (env.person ++ chat_symb)
          (size_sub (pieces env ((x.embd_inp ++ x.embd).drop
            ((x.embd_inp ++ x.embd).length - 16)) ++ env.token_to_piece id).length
            (env.person ++ chat_symb).length) ≠ npos then
        { sample env id (save_session (advance x)) with
          done := true
          text_to_speak :=
            replace (sample env id (save_session (advance x))).text_to_speak
              (env.person ++ chat_symb) []
          need_to_save_session := true }
      else sample env id (save_session (advance x)) := rfl
  rw [hloop] at hi
  by_cases hm : find (pieces env ((x.embd_inp ++ x.embd).drop ((x.embd_inp ++ x.embd).length - 16))
      ++ env.token_to_piece id) (env.person ++ chat_symb)
      (size_sub (pieces env ((x.embd_inp ++ x.embd).drop ((x.embd_inp ++ x.embd).length - 16))
      ++ env.token_to_piece id).length (env.person ++ chat_symb).length) ≠ npos
  · rw [if_pos hm] at hi
    exact ⟨_, hi, f1, f2, f3, f4, f5, f6, rfl, f8, ⟨fun _ => hiff.mp hm, fun _ => rfl⟩⟩
  · rw [if_neg hm] at hi
    refine ⟨_, hi, f1, f2, f3, f4, f5, f6, rfl, f8, ⟨fun h => ?_, fun h => absurd (hiff.mpr h) hm⟩⟩
    have h2 : (sample env id (save_session (advance x))).done = true := h
    rw [f7, hd] at h2
    exact absurd h2 (by decide)

/-- The predict block with tokens pending that fit the context, a session path and the cursor
at the end of the cache: the pending tokens are appended to the cache and handed to
`llama_decode` at `n_past`. -/
theorem predict_synced (env : Env) (s : TurnState) (hne : s.embd.length > 0)
    (hfit : s.n_past + s.embd.length ≤ env.n_ctx)
    (hsync : s.n_session_consumed = s.session_tokens.length) (hpath : s.path_session ≠ []) :
    predict env false s = .ok { s with
      session_tokens := s.session_tokens ++ s.embd
      n_session_consumed := (s.session_tokens ++ s.embd).length
      log := s.log ++ [Event.decode (prepare_batch s.n_past s.embd)] } := by
  have h1 : ¬ (s.n_past + s.embd.length > env.n_ctx) := by omega
  have h2 : ¬ (s.n_session_consumed < s.session_tokens.length) := by omega
  have h3 : ¬ (s.embd.length > env.n_ctx) := by omega
  simp [predict, prepare_for_overflow, reconcile_with_cache, commit_evaluated, decode_block,
    hne, h1, h2, h3, hpath]

/-- The pass that follows an antiprompt match: the pending token is evaluated and the
generation loop is left by the `break` of line 943. -/
theorem closing_pass (env : Env) (inp : IterInput) (s : TurnState) (hdec : inp.decode_fails = false)
    (hd : s.done = true) (hne : s.embd.length > 0)
    (hfit : s.n_past + s.embd.length ≤ env.n_ctx)
    (hsync : s.n_session_consumed = s.session_tokens.length) (hpath : s.path_session ≠ []) :
    ∃ s1, iter env inp s = .leave s1 ∧ s1.embd_inp = s.embd_inp ++ s.embd ∧ s1.embd = [] ∧
      s1.n_past = s.n_past + s.embd.length ∧
      s1.n_session_consumed = s1.session_tokens.length ∧
      s1.path_session = s.path_session ∧ s1.is_running = s.is_running := by
  have hp := predict_synced env s hne hfit hsync hpath
  refine ⟨advance { s with
      session_tokens := s.session_tokens ++ s.embd
      n_session_consumed := (s.session_tokens ++ s.embd).length
      log := s.log ++ [Event.decode (prepare_batch s.n_past s.embd)] },
    ?_, rfl, rfl, rfl, rfl, rfl, rfl⟩
  unfold iter
  rw [hdec, hp]
  simp only [advance, hd, if_true]

theorem aura_piece_length (t : Token) : (env_aura.token_to_piece t).length ≤ 4 := by
  simp only [env_aura]
  split_ifs <;> decide

theorem aura_pieces_length (l : List Token) : (pieces env_aura l).length ≤ 4 * l.length := by
  induction l with
  | nil => simp [pieces]
  | cons t ts ih =>
    have := aura_piece_length t
    simp only [pieces, List.length_append, List.length_cons]
    omega

/-- The tail text of the stop detection is short in `env_aura`. -/
theorem aura_tail_length (l : List Token) (id : Token) :
    (pieces env_aura (l.drop (l.length - 16)) ++ env_aura.token_to_piece id).length < 2 ^ 64 := by
  have h1 := aura_pieces_length (l.drop (l.length - 16))
  have h2 := aura_piece_length id
  have h3 : (l.drop (l.length - 16)).length ≤ 16 := by
    rw [List.length_drop]
    omega
  rw [List.length_append]
  have : (2 : Nat) ^ 64 = 18446744073709551616 := by norm_num
  omega

/-- A text that does not end with `:` does not end with an antiprompt. -/
theorem no_suffix_of_last (a t w : CppString) (c : Char) (hc : c ≠ ':') :
    ¬ (a ++ chat_symb) <:+ (t ++ (w ++ [c])) := by
  rintro ⟨r, hr⟩
  have h := congrArg List.getLast? hr
  simp [chat_symb] at h
  exact hc h.symm

/-- The pieces `"hi"`, `"Bob"` and `" la"` do not end with `:`. -/
theorem aura_quiet_piece (id : Token) (h : id = 60 ∨ id = 65 ∨ id = 70) :
    id ≠ env_aura.eos ∧
    ∃ w c, env_aura.token_to_piece id = w ++ [c] ∧ c ≠ ':' := by
  rcases h with h | h | h <;> subst h
  · exact ⟨by decide, ['h'], 'i', by decide, by decide⟩
  · exact ⟨by decide, ['B', 'o'], 'b', by decide, by decide⟩
  · exact ⟨by decide, [' ', 'l'], 'a', by decide, by decide⟩

/-- A pass of a reply in `env_aura` that draws `"hi"`, `"Bob"` or `" la"`: the pending token is
evaluated and the drawn one is pending, with `done` unset. -/
theorem quiet_pass (id : Token) (s : TurnState) (hs : replying s)
    (hid : id = 60 ∨ id = 65 ∨ id = 70) (hfit : s.embd_inp.length + 1 ≤ 2048) :
    ∃ s1, iter env_aura (draws id) s = .ok s1 ∧ replying s1 ∧
      s1.embd_inp = s.embd_inp ++ s.embd ∧ s1.embd = [id] := by
  obtain ⟨h1, h2, h3, h4, h5, h6, h7⟩ := hs
  obtain ⟨q1, w, c, q2, q3⟩ := aura_quiet_piece id hid
  have hp := predict_synced env_aura s (by omega)
    (by rw [h2, h3]; exact hfit) h4 (by rw [h5]; decide)
  obtain ⟨s1, e0, e1, e2, e3, e4, e5, e6, e7, -, e9⟩ := sampling_tail env_aura id s _ hp h1 q1
    (by simp only [List.length_append]; omega)
    (aura_tail_length _ id) (by decide)
  dsimp only at e1 e3 e4 e5 e6 e9
  refine ⟨s1, e0, ⟨?_, ?_, ?_, ?_, ?_, ?_, e7⟩, e1, e2⟩
  · cases hd : s1.done with
    | false => rfl
    | true =>
      have := e9.mp hd
      rw [q2] at this
      exact absurd this (no_suffix_of_last _ _ w c q3)
  · rw [e2]; rfl
  · rw [e3, e1, List.length_append, h3]
  · rw [e5, e4]
  · rw [e6]; exact h5
  · rw [e1, List.length_append]; omega

/-- A run of such passes. -/
theorem quiet_run (ids : List Token) (s : TurnState) (hs : replying s)
    (hid : ∀ id ∈ ids, id = 60 ∨ id = 65 ∨ id = 70)
    (hfit : s.embd_inp.length + ids.length ≤ 2048) :
    ∃ s1, generation_loop env_aura (ids.map draws) s = .ok s1 ∧ replying s1 ∧
      s1.embd_inp ++ s1.embd = s.embd_inp ++ s.embd ++ ids := by
  induction ids generalizing s with
  | nil => exact ⟨s, rfl, hs, by simp⟩
  | cons id rest ih =>
    simp only [List.length_cons] at hfit
    obtain ⟨t, h1, h2, h3, h4⟩ := quiet_pass id s hs (hid id (List.mem_cons_self _ _))
      (by omega)
    obtain ⟨s1, g1, g2, g3⟩ := ih t h2 (fun i hi => hid i (List.mem_cons_of_mem _ hi))
      (by rw [h3, List.length_append, hs.2.1]; omega)
    refine ⟨s1, ?_, g2, ?_⟩
    · simp only [List.map_cons, generation_loop, h1]
      exact g1
    · rw [g3, h3, h4]
      simp

/-- The pass of a reply in `env_aura` that draws `":"` while `"Bob"` is pending: the antiprompt
`Bob:` ends the tail text and `done` is set. -/
theorem matching_pass (s : TurnState) (hs : replying s) (he : s.embd = [65])
    (hfit : s.embd_inp.length + 1 ≤ 2048) :
    ∃ s1, iter env_aura (draws 64) s = .ok s1 ∧ s1.done = true ∧
      s1.embd_inp = s.embd_inp ++ [65] ∧ s1.embd = [64] ∧ s1.n_past = s1.embd_inp.length ∧
      s1.n_session_consumed = s1.session_tokens.length ∧ s1.path_session = ['s'] ∧
      s1.is_running = true := by
  obtain ⟨h1, h2, h3, h4, h5, h6, h7⟩ := hs
  have hp := predict_synced env_aura s (by omega)
    (by rw [h2, h3]; exact hfit) h4 (by rw [h5]; decide)
  obtain ⟨s1, e0, e1, e2, e3, e4, e5, e6, e7, -, e9⟩ := sampling_tail env_aura 64 s _ hp h1
    (by decide) (by simp only [List.length_append]; omega)
    (aura_tail_length _ 64) (by decide)
  dsimp only at e1 e3 e4 e5 e6 e9
  rw [he] at e1 e3 e9
  refine ⟨s1, e0, e9.mpr ?_, e1, e2, ?_, ?_, ?_, e7⟩
  · have hk : (s.embd_inp ++ [65]).length - 16 ≤ s.embd_inp.length := by
      simp only [List.length_append, List.length_singleton]
      omega
    rw [List.drop_append_of_le_length hk, pieces_append]
    refine ⟨pieces env_aura (s.embd_inp.drop ((s.embd_inp ++ [65]).length - 16)), ?_⟩
    have hb : pieces env_aura [65] = "Bob".toList := by decide
    have hc : env_aura.token_to_piece 64 = ":".toList := by decide
    have hperson : env_aura.person ++ chat_symb = "Bob".toList ++ ":".toList := by decide
    rw [hb, hc, hperson, List.append_assoc]
  · rw [e3, e1, List.length_append, h3]
  · rw [e5, e4]
  · rw [e6]; exact h5

/-- How a pass of the main loop ends when speech is heard, the transcript and its tokens are
not empty, the loop on `stdin` is left and the generation loop is left by `break` or is still
running. -/
theorem main_iter_of_turn (env : Env) (turn : LoopInput) (s : TurnState)
    (hv : turn.vad = true) (ht : transcript turn ≠ []) (htok : turn.tokens ≠ [])
    (hstd : stdin_loop turn.stdin_eof turn.stdin_words = .ended) :
    main_iter env turn s =
      match generation_loop env turn.passes
        (turn_start turn.tokens turn.embd { s with is_running := turn.poll }) with
      | .leave s2 => .running (speak s2)
      | .fatal s2 => .exit 1 s2.log
      | .ok s2 => .pending s2
      | .undefined => .undefined := by
  rcases main_iter_cases env turn s with ⟨h3 | h3 | h3, -⟩ |
    ⟨-, -, -, ⟨h3, -⟩ | ⟨h3, -⟩ | ⟨-, h0⟩⟩
  · rw [hv] at h3; exact absurd h3 (by decide)
  · exact absurd h3 ht
  · exact absurd h3 htok
  · rw [hstd] at h3; cases h3
  · rw [hstd] at h3; cases h3
  · exact h0

theorem main_iter_of_leave (env : Env) (turn : LoopInput) (s s2 : TurnState)
    (hv : turn.vad = true) (ht : transcript turn ≠ []) (htok : turn.tokens ≠ [])
    (hstd : stdin_loop turn.stdin_eof turn.stdin_words = .ended)
    (hg : generation_loop env turn.passes
      (turn_start turn.tokens turn.embd { s with is_running := turn.poll }) = .leave s2) :
    main_iter env turn s = .running (speak s2) := by
  rw [main_iter_of_turn env turn s hv ht htok hstd, hg]

theorem main_iter_of_ok (env : Env) (turn : LoopInput) (s s2 : TurnState)
    (hv : turn.vad = true) (ht : transcript turn ≠ []) (htok : turn.tokens ≠ [])
    (hstd : stdin_loop turn.stdin_eof turn.stdin_words = .ended)
    (hg : generation_loop env turn.passes
      (turn_start turn.tokens turn.embd { s with is_running := turn.poll }) = .ok s2) :
    main_iter env turn s = .pending s2 := by
  rw [main_iter_of_turn env turn s hv ht htok hstd, hg]

theorem main_loop_cons_running (env : Env) (turn : LoopInput) (rest : List LoopInput)
    (s s1 : TurnState) (hr : s.is_running = true) (hm : main_iter env turn s = .running s1) :
    main_loop env (turn :: rest) s = main_loop env rest s1 := by
  simp [main_loop, hr, hm]

theorem main_loop_cons_pending (env : Env) (turn : LoopInput) (rest : List LoopInput)
    (s s1 : TurnState) (hr : s.is_running = true) (hm : main_iter env turn s = .pending s1) :
    main_loop env (turn :: rest) s = .pending s1 := by
  simp [main_loop, hr, hm]

theorem main_loop_nil_running (env : Env) (s : TurnState) (hr : s.is_running = true) :
    main_loop env [] s = .running s := by
  simp [main_loop, hr]

theorem generation_loop_cons_ok (env : Env) (inp : IterInput) (rest : List IterInput)
    (s t : TurnState) (h : iter env inp s = .ok t) :
    generation_loop env (inp :: rest) s = generation_loop env rest t := by
  simp only [generation_loop, h]

theorem generation_loop_cons_leave (env : Env) (inp : IterInput) (rest : List IterInput)
    (s t : TurnState) (h : iter env inp s = .leave t) :
    generation_loop env (inp :: rest) s = .leave t := by
  simp only [generation_loop, h]

theorem long_reply_eq :
    long_reply = 70 :: (List.replicate 1961 70 ++ (60 :: List.replicate 61 70) ++ [65, 64]) :=
  rfl

/-- The first Turn of the conversation of C10, from start-up with a session path, no session
file and a prompt of sixteen tokens: the main loop goes on after it with a history of 2046
tokens, all evaluated, and with the cursor at the end of the session cache. -/
theorem long_turn_run :
    ∃ s1, main_loop env_aura [long_turn] (init_state ['s'] [] prompt16) = .running s1 ∧
      main_iter env_aura long_turn (init_state ['s'] [] prompt16) = .running s1 ∧
      s1.embd_inp = prompt16 ++ [61, 62, 63, 64] ++ long_reply ∧
      s1.n_past = s1.embd_inp.length ∧
      s1.n_session_consumed = s1.session_tokens.length ∧ s1.path_session = ['s'] ∧
      s1.is_running = true := by
  obtain ⟨sa, ha, ra, ea, eb⟩ : ∃ sa, iter env_aura (draws 70)
      (turn_start long_turn.tokens long_turn.embd
        { init_state ['s'] [] prompt16 with is_running := long_turn.poll }) = .ok sa ∧
      replying sa ∧ sa.embd_inp = prompt16 ++ [61, 62, 63, 64] ∧ sa.embd = [70] :=
    ⟨_, rfl, ⟨by decide, by decide, by decide, by decide, by decide, by decide, by decide⟩,
      by decide, by decide⟩
  have hmid : ∀ id ∈ List.replicate 1961 (70 : Token) ++ (60 :: List.replicate 61 70),
      id = 60 ∨ id = 65 ∨ id = 70 := by
    intro id hid
    rcases List.mem_append.mp hid with h | h
    · exact Or.inr (Or.inr (List.eq_of_mem_replicate h))
    · rcases List.mem_cons.mp h with h | h
      · exact Or.inl h
      · exact Or.inr (Or.inr (List.eq_of_mem_replicate h))
  have hlen : (List.replicate 1961 (70 : Token) ++ (60 :: List.replicate 61 70)).length
      = 2023 := by
    rw [List.length_append, List.length_cons, List.length_replicate, List.length_replicate]
  have hP : (prompt16 ++ [61, 62, 63, 64] : List Token).length = 20 := by decide
  obtain ⟨sb, hb, rb, eb2⟩ := quiet_run _ sa ra hmid (by rw [ea, hP, hlen]; decide)
  have hsb : sb.embd_inp.length = 2043 := by
    have h := congrArg List.length eb2
    simp only [List.length_append, rb.2.1, ea, eb, hP, hlen, List.length_singleton] at h
    omega
  obtain ⟨sc, hc, rc, ec, ec2⟩ := quiet_pass 65 sb rb (Or.inr (Or.inl rfl)) (by omega)
  have hsc : sc.embd_inp.length = 2044 := by
    rw [ec, List.length_append, hsb, rb.2.1]
  obtain ⟨sd, hd, dd, ed, ed2, ed3, ed4, ed5, ed6⟩ := matching_pass sc rc ec2 (by omega)
  have hsd : sd.embd_inp.length = 2045 := by
    rw [ed, List.length_append, hsc]
    rfl
  obtain ⟨se, he, ee, ee2, ee3, ee4, ee5, ee6⟩ := closing_pass env_aura (draws 0) sd rfl dd
    (by rw [ed2]; decide) (by rw [ed3, ed2, hsd]; decide) ed4 (by rw [ed5]; decide)
  have hpass : long_turn.passes = draws 70 ::
      ((List.replicate 1961 (70 : Token) ++ (60 :: List.replicate 61 70)).map draws
        ++ [draws 65, draws 64, draws 0]) := by
    show long_reply.map draws ++ [draws 0] = _
    rw [long_reply_eq]
    simp only [List.map_cons, List.map_append, List.map_nil, List.cons_append,
      List.append_assoc, List.nil_append]
  have hg : generation_loop env_aura long_turn.passes
      (turn_start long_turn.tokens long_turn.embd
        { init_state ['s'] [] prompt16 with is_running := long_turn.poll }) = .leave se := by
    rw [hpass, generation_loop_cons_ok _ _ _ _ _ ha, generation_loop_append, hb]
    show generation_loop env_aura [draws 65, draws 64, draws 0] sb = _
    rw [generation_loop_cons_ok _ _ _ _ _ hc, generation_loop_cons_ok _ _ _ _ _ hd,
      generation_loop_cons_leave _ _ _ _ _ he]
  have hm : main_iter env_aura long_turn (init_state ['s'] [] prompt16) = .running (speak se) :=
    main_iter_of_leave env_aura long_turn _ se rfl (by decide) (by decide) rfl hg
  have hrun : (speak se).is_running = true := by
    show se.is_running = true
    rw [ee6, ed6]
  refine ⟨speak se, ?_, hm, ?_, ?_, ee4, ?_, hrun⟩
  · rw [main_loop_cons_running env_aura long_turn [] _ _ rfl hm,
      main_loop_nil_running env_aura _ hrun]
  · show se.embd_inp = _
    rw [ee, ed2, ed, ec, long_reply_eq]
    have h2 : sb.embd_inp ++ sb.embd = prompt16 ++ [61, 62, 63, 64] ++ [70]
        ++ (List.replicate 1961 70 ++ (60 :: List.replicate 61 70)) := by
      rw [eb2, ea, eb]
    rw [h2]
    simp only [List.append_assoc, List.cons_append, List.nil_append]
  · show se.n_past = se.embd_inp.length
    rw [ee3, ee, List.length_append, ed3]
  · show se.path_session = ['s']
    rw [ee5, ed5]

/-- The predict block of the first pass of a Turn in which the overflow step fires while a
session path is in use, the cursor is at the end of the cache, the transcript has the one token
`a`, and `a` is also the first of the last `n_prev` tokens of the history: the reuse step
matches the spliced `a` against the copy that line 873 has put into the cache, and the batch is
handed to `llama_decode` without it, at `n_keep + 1`. -/
theorem predict_reuse_after_eviction (env : Env) (s : TurnState) (a : Token)
    (older rest embd : List Token) (hpath : s.path_session ≠ [])
    (hsync : s.n_session_consumed = s.session_tokens.length)
    (hhist : s.embd_inp = older ++ a :: rest) (hprev : rest.length + 1 = env.n_prev)
    (hover : s.n_past + embd.length > env.n_ctx) (hcap : rest.length + embd.length ≤ env.n_ctx)
    (hne : embd.length > 0) :
    prepare_for_overflow env (turn_start [a] embd s) = some { turn_start [a] embd s with
      n_past := env.n_keep
      embd := a :: rest ++ embd
      path_session := [] } ∧
    predict env false (turn_start [a] embd s) = .ok { turn_start [a] embd s with
      n_past := env.n_keep + 1
      embd := rest ++ embd
      path_session := []
      n_session_consumed := s.n_session_consumed + 1
      log := s.log ++ [Event.decode (prepare_batch (env.n_keep + 1) (rest ++ embd))] } := by
  have hlen : s.embd_inp.length - env.n_prev = older.length := by
    rw [hhist, List.length_append, List.length_cons]
    omega
  have hdrop : s.embd_inp.drop (s.embd_inp.length - env.n_prev) = a :: rest := by
    rw [hlen, hhist]
    exact List.drop_left' rfl
  have hprev2 : env.n_prev ≤ s.embd_inp.length := by
    rw [hhist, List.length_append, List.length_cons]
    omega
  have ho : prepare_for_overflow env (turn_start [a] embd s) = some { turn_start [a] embd s with
      n_past := env.n_keep
      embd := a :: rest ++ embd
      path_session := [] } := by
    simp only [prepare_for_overflow, turn_start, hover, hprev2, if_true, hdrop]
  refine ⟨ho, ?_⟩
  have hcache : (s.session_tokens ++ [a]).drop s.n_session_consumed = [a] := by
    rw [hsync]
    exact List.drop_left' rfl
  have hl : lcp_len (a :: rest ++ embd) [a] = 1 := by
    simp [lcp_len, lcp_len_nil_right]
  have hr : reconcile_with_cache { turn_start [a] embd s with
      n_past := env.n_keep
      embd := a :: rest ++ embd
      path_session := [] } = some { turn_start [a] embd s with
      n_past := env.n_keep + 1
      embd := rest ++ embd
      path_session := []
      n_session_consumed := s.n_session_consumed + 1 } := by
    rw [reconcile_with_cache_eq]
    simp only [turn_start, hpath, ne_eq, not_false_eq_true, if_true, hcache, hl]
    simp [hsync]
  have hfit : ¬ ((rest ++ embd).length > env.n_ctx) := by
    rw [List.length_append]
    omega
  have hemb : (turn_start [a] embd s).embd.length > 0 := hne
  unfold predict
  simp only [hemb, if_true, ho, hr]
  simp only [commit_evaluated, decode_block, hfit, if_false, turn_start]
  simp
  exact hcap

theorem long_reply_length : long_reply.length = 2026 := by
  unfold long_reply
  rw [List.length_append, List.length_append, List.length_cons, List.length_replicate,
    List.length_replicate]
  rfl

/-- C10, the code at a failing input: a session path, no session file, a prompt of sixteen
tokens (`n_keep = 16`), `n_ctx = 2048`, a tokenizer whose pieces spell the texts.  In the first
Turn `hi` is heard and the reply `long_reply` of 2026 tokens ends with `Bob:`; the main loop goes
on with 2046 tokens in the history and `n_past = 2046`.  In the second Turn `hi` is heard again:
line 873 appends its token `60` to the session cache; the four decorated tokens do not fit, so
the overflow step sets `n_past = 16` and splices the last 64 tokens of the history in front of
them, the first of which is the `60` that the model drew in the first Turn; the reuse step
matches it against the copy of line 873, moves `n_past` to 17 and erases it.  The one
`llama_decode` of the pass gets 67 tokens at the positions 17 to 83, and the pass ends with
`n_past = 84`: one more than `n_keep` plus the 67 tokens submitted since the eviction. -/
theorem n_past_counts_reused_token :
    ∃ s1 t x s2,
      main_loop env_aura [long_turn] (init_state ['s'] [] prompt16) = .running s1 ∧
      s1.embd_inp = prompt16 ++ [61, 62, 63, 64] ++ long_reply ∧
      s1.n_past = 2046 ∧
      prepare_for_overflow env_aura
        (turn_start hi_turn.tokens hi_turn.embd { s1 with is_running := hi_turn.poll })
        = some t ∧
      t.n_past = 16 ∧
      t.embd = 60 :: (List.replicate 61 70 ++ [65, 64]) ++ [61, 62, 63, 64] ∧
      t.session_tokens.drop t.n_session_consumed = [60] ∧
      predict env_aura false
        (turn_start hi_turn.tokens hi_turn.embd { s1 with is_running := hi_turn.poll })
        = .ok x ∧
      x.log = s1.log ++ [Event.decode
        (prepare_batch 17 (List.replicate 61 70 ++ [65, 64] ++ [61, 62, 63, 64]))] ∧
      x.n_past = 17 ∧
      main_loop env_aura [long_turn, hi_turn] (init_state ['s'] [] prompt16) = .pending s2 ∧
      decodes s2.log = decodes s1.log ++
        [prepare_batch 17 (List.replicate 61 70 ++ [65, 64] ++ [61, 62, 63, 64])] ∧
      (prepare_batch 17 (List.replicate 61 70 ++ [65, 64] ++ [61, 62, 63, 64])).length = 67 ∧
      s2.n_past = 84 ∧ env_aura.n_keep = 16 := by
  obtain ⟨s1, hl, hm, e1, e2, e3, e4, e5⟩ := long_turn_run
  have hlen1 : s1.embd_inp.length = 2046 := by
    rw [e1, List.length_append, long_reply_length]
    rfl
  have hrest : (List.replicate 61 (70 : Token) ++ [65, 64]).length = 63 := by
    rw [List.length_append, List.length_replicate]
    rfl
  have hhist : s1.embd_inp = (prompt16 ++ [61, 62, 63, 64] ++ List.replicate 1962 70)
      ++ 60 :: (List.replicate 61 70 ++ [65, 64]) := by
    rw [e1]
    unfold long_reply
    simp only [List.append_assoc, List.cons_append]
  obtain ⟨ho, hp⟩ := predict_reuse_after_eviction env_aura { s1 with is_running := hi_turn.poll }
    60 (prompt16 ++ [61, 62, 63, 64] ++ List.replicate 1962 70)
    (List.replicate 61 70 ++ [65, 64]) [61, 62, 63, 64]
    (by show s1.path_session ≠ []; rw [e4]; decide) e3 hhist (by rw [hrest]; rfl)
    (by show s1.n_past + _ > _; rw [e2, hlen1]; decide)
    (by rw [hrest]; decide) (by decide)
  have hbatch : (List.replicate 61 (70 : Token) ++ [65, 64] ++ [61, 62, 63, 64]).length = 67 := by
    rw [List.length_append, hrest]
    rfl
  obtain ⟨s2, i0, -, -, i3, -, -, -, -, i8, -⟩ := sampling_tail env_aura 70 _ _ hp rfl
    (by decide)
    (by
      show 16 ≤ (s1.embd_inp ++ _).length
      rw [List.length_append, hlen1]
      omega)
    (aura_tail_length _ 70) (by decide)
  have hgen : generation_loop env_aura hi_turn.passes
      (turn_start hi_turn.tokens hi_turn.embd { s1 with is_running := hi_turn.poll })
      = .ok s2 := generation_loop_cons_ok env_aura (draws 70) [] _ s2 i0
  have hm2 : main_iter env_aura hi_turn s1 = .pending s2 :=
    main_iter_of_ok env_aura hi_turn s1 s2 rfl (by decide) (by decide) rfl hgen
  refine ⟨s1, _, _, s2, hl, e1, by rw [e2, hlen1], ho, rfl, rfl, ?_, hp, rfl, rfl, ?_, ?_,
    ?_, ?_, rfl⟩
  · show (if s1.path_session ≠ [] then s1.session_tokens ++ [60] else s1.session_tokens).drop
      s1.n_session_consumed = [60]
    rw [if_pos (by rw [e4]; decide), e3]
    exact List.drop_left' rfl
  · rw [main_loop_cons_running env_aura long_turn [hi_turn] _ s1 rfl hm,
      main_loop_cons_pending env_aura hi_turn [] s1 s2 e5 hm2]
  · rw [i8]
    show decodes (s1.log ++ [Event.decode _]) = _
    rw [decodes_append]
    rfl
  · rw [prepare_batch_length, hbatch]
  · rw [i3]
    show env_aura.n_keep + 1
      + (List.replicate 61 (70 : Token) ++ [65, 64] ++ [61, 62, 63, 64]).length = 84
    rw [hbatch]
    rfl

/-! ## C28: the reads of the stop detection -/

/-- C28, the code at failing inputs.  (1) After a prompt of sixteen tokens the decode of the
transcript succeeds and the end-of-sequence token is drawn: nothing is added to `embd`, which
`advance` has emptied, and line 969 reads `embd[0]` of an empty vector.  (2) After a prompt of
four tokens a token other than end-of-sequence is drawn: the history holds five tokens, and the
loop of line 966 starts at the index `5 - 16`. -/
theorem stop_tail_reads_outside :
    (∃ x, predict env_bob eos_input.decode_fails strip_start = .ok x ∧
      (sample env_bob eos_input.id (save_session (advance x))).embd = [] ∧
      (sample env_bob eos_input.id (save_session (advance x))).embd_inp.length = 17 ∧
      last_output env_bob (sample env_bob eos_input.id (save_session (advance x))) = none ∧
      iter env_bob eos_input strip_start = .undefined) ∧
    (∃ x, predict env_bob pass_input.decode_fails short_history_start = .ok x ∧
      (sample env_bob pass_input.id (save_session (advance x))).embd = [7] ∧
      (sample env_bob pass_input.id (save_session (advance x))).embd_inp.length = 5 ∧
      last_output env_bob (sample env_bob pass_input.id (save_session (advance x))) = none ∧
      iter env_bob pass_input short_history_start = .undefined) :=
  ⟨⟨_, rfl, by decide, by decide, by decide, by decide⟩,
    ⟨_, rfl, by decide, by decide, by decide, by decide⟩⟩

/-! ## C29: the copy of the loaded session over the prompt -/

/-- C29, the code at a failing input: the session file loads with five tokens (no more than
`n_ctx = 2048`) and the prompt tokenizes to four.  The loop of lines 700-702 runs over the five
session tokens and writes `embd_inp[4]`, outside the prompt vector. -/
theorem session_copy_writes_outside :
    long_session_start.loaded = some [1, 2, 3, 4, 5] ∧
    long_session_start.prompt = [1, 2, 3, 4] ∧
    overwrite_loop [1, 2, 3, 4] [1, 2, 3, 4] 0 = some [1, 2, 3, 4] ∧
    overwrite_loop [1, 2, 3, 4] [1, 2, 3, 4, 5] 0 = none ∧
    load_session 2048 long_session_start = .undefined ∧
    startup 2048 long_session_start = .undefined :=
  ⟨rfl, rfl, by decide, by decide, by decide, by decide⟩

/-! ## C30: an option without its value -/

/-- C30, the code at failing inputs: in talk-llama.cpp each of the options `-pn`, `-bn`, `-mw`,
`-mll`, `-s`, `-sf`, `--prompt-file` and `--session` (lines 221-234), given as the last
argument, is parsed by `argv[++i]` with `i + 1 = argc`: the null pointer `argv[argc]` is used as
a string and no message is printed.  An option that goes through `ARGV_NEXT`, such as `-t` or,
in cli.cpp, `-m`, ends by the message "argument requires value". -/
theorem last_option_reads_past_arguments {F : Type} (stof : CppString → Option F)
    (read_file : CppString → CppString) (p : whisper_params F) (q : Cli.whisper_params F) :
    whisper_params_parse stof read_file ["talk-llama".toList, "-pn".toList] p = .undefined ∧
    whisper_params_parse stof read_file ["talk-llama".toList, "--person".toList] p
      = .undefined ∧
    whisper_params_parse stof read_file ["talk-llama".toList, "-bn".toList] p = .undefined ∧
    whisper_params_parse stof read_file ["talk-llama".toList, "-mw".toList] p = .undefined ∧
    whisper_params_parse stof read_file ["talk-llama".toList, "-mll".toList] p = .undefined ∧
    whisper_params_parse stof read_file ["talk-llama".toList, "-s".toList] p = .undefined ∧
    whisper_params_parse stof read_file ["talk-llama".toList, "-sf".toList] p = .undefined ∧
    whisper_params_parse stof read_file ["talk-llama".toList, "--prompt-file".toList] p
      = .undefined ∧
    whisper_params_parse stof read_file ["talk-llama".toList, "--session".toList] p
      = .undefined ∧
    whisper_params_parse stof read_file
      ["talk-llama".toList, "-t".toList, "2".toList, "--session".toList] p = .undefined ∧
    whisper_params_parse stof read_file ["talk-llama".toList, "-t".toList] p
      = .requires_value "-t".toList ∧
    Cli.whisper_params_parse stof ["whisper-cli".toList, "-m".toList] q
      = .requires_value "-m".toList :=
  ⟨rfl, rfl, rfl, rfl, rfl, rfl, rfl, rfl, rfl, rfl, rfl, rfl⟩

end TalkLlama
